import Mathlib

/-! RAUC install orchestrator: slot states, target selection, install loop,
network install, install worker and stream copy.

A shallow embedding of `src/install.c` (boot identifier discovery, slot state
determination, target group selection, the default install loop and the bundle
install driver) together with the properties established about it.

Conventions of the embedding:

* the slot table `config->slots` is a list of `RaucSlot`; a slot pointer is the
  position of the slot in that list;
* the order in which GLib walks a hash table is unspecified, so every walk over
  the slot table takes the list of visited positions as an argument;
* calls that leave the process (bootloader, mount, copy, handlers) are answered
  by an environment that may look at everything that happened so far, and every
  such call is recorded in a trace.
-/

namespace Rauc

/-! ## Data model -/

/-- Modelled from the spec: the `SlotState` enumeration of `config_file.h`, which
install.c uses as bit flags (`state & ST_ACTIVE`, `state |= ST_INACTIVE`).
`ST_UNKNOWN` is the state every slot starts in. -/
def ST_UNKNOWN : Nat := 0

/-- Modelled from the spec: flag of a slot that belongs to the booted set. -/
def ST_ACTIVE : Nat := 1

/-- Modelled from the spec: flag of a slot that does not belong to the booted set. -/
def ST_INACTIVE : Nat := 2

/-- Modelled from the spec: the booted slot; `booted` implies `active`, so the
value carries the `ST_ACTIVE` flag next to its own bit. -/
def ST_BOOTED : Nat := 4 ||| ST_ACTIVE

/-- A slot of the system configuration (`RaucSlot`). `parent` is the position of
the parent slot in the slot table, `bootname` may be absent (NULL). -/
structure RaucSlot where
  name : String
  sclass : String
  device : String
  type : String
  bootname : Option String
  parent : Option Nat
  state : Nat
  deriving DecidableEq, Repr

/-- Checksum of an image or file (`RaucChecksum`). -/
structure RaucChecksum where
  type : String
  digest : String
  deriving DecidableEq, Repr

/-- An image of the manifest (`RaucImage`). -/
structure RaucImage where
  slotclass : String
  checksum : RaucChecksum
  filename : String
  deriving DecidableEq, Repr

/-- A file of the manifest (`RaucFile`). -/
structure RaucFile where
  slotclass : String
  destname : String
  checksum : RaucChecksum
  filename : String
  deriving DecidableEq, Repr

/-- The manifest of a bundle (`RaucManifest`). -/
structure RaucManifest where
  update_compatible : String
  handler_name : Option String
  handler_args : Option String
  images : List RaucImage
  files : List RaucFile
  deriving DecidableEq, Repr

/-- The part of `RaucConfig` that install.c reads besides the slot table. -/
structure RaucConfig where
  system_compatible : String
  system_bootloader : String
  mount_prefix : String
  preinstall_handler : Option String
  postinstall_handler : Option String
  deriving DecidableEq, Repr

/-- State of the slot at position `k`; a slot pointer always designates a slot of
the table, a position outside it reads as `ST_UNKNOWN`. -/
def slot_state (slots : List RaucSlot) (k : Nat) : Nat :=
  match slots[k]? with
  | some s => s.state
  | none => ST_UNKNOWN

/-- Store `st` as the state of the slot at position `k`. -/
def set_slot_state : List RaucSlot → Nat → Nat → List RaucSlot
  | [], _, _ => []
  | s :: rest, 0, st => { s with state := st } :: rest
  | s :: rest, k + 1, st => s :: set_slot_state rest k st

/-! ## Boot identifier (`get_cmdline_bootname`) -/

/-- Characters matched by the regular expression class `\s`; `\S` is its complement. -/
def isSpace (c : Char) : Bool :=
  c = ' ' || c = '\t' || c = '\n' || c = '\r' || c = Char.ofNat 11 || c = Char.ofNat 12

/-- Match of `<lit>(\S+)` anchored at the start of `cs`: the literal must be a
prefix and the capture is the longest non-empty run of non-space characters after it. -/
def match_here (lit cs : List Char) : Option (List Char) :=
  if lit.isPrefixOf cs then
    match (cs.drop lit.length).takeWhile (fun c => !isSpace c) with
    | [] => none
    | c :: rest => some (c :: rest)
  else none

/-- The call `g_regex_match` with the unanchored pattern `<lit>(\S+)`: the leftmost
position of the subject at which the pattern matches decides the capture. -/
def regex_match (lit : List Char) : List Char → Option (List Char)
  | [] => match_here lit []
  | c :: cs =>
    match match_here lit (c :: cs) with
    | some v => some v
    | none => regex_match lit cs

/-- The function `get_cmdline_bootname` on its first call (empty cache):
`contents` is what `/proc/cmdline` holds (`none` when it cannot be read). -/
def get_cmdline_bootname (contents : Option String) (system_bootloader : String) :
    Option String :=
  match contents with
  | none => none
  | some c =>
    match regex_match "rauc.slot=".data c.data with
    | some v => some (String.mk v)
    | none =>
      match (if system_bootloader = "barebox" then
               regex_match "bootstate.active=".data c.data else none) with
      | some v => some (String.mk v)
      | none =>
        match regex_match "root=".data c.data with
        | some v => some (String.mk v)
        | none => none

/-- Split a command line into its tokens, the maximal runs of non-space characters. -/
def cmdline_tokens : List Char → List (List Char)
  | [] => []
  | c :: cs =>
    if isSpace c then cmdline_tokens cs
    else
      match cs with
      | [] => [[c]]
      | d :: _ =>
        if isSpace d then [c] :: cmdline_tokens cs
        else
          match cmdline_tokens cs with
          | t :: ts => (c :: t) :: ts
          | [] => [[c]]

/-- Value of the first token of the form `<key><value>` with a non-empty value. -/
def token_value (key : List Char) : List (List Char) → Option (List Char)
  | [] => none
  | t :: ts =>
    if key.isPrefixOf t && key.length < t.length then some (t.drop key.length)
    else token_value key ts

/-- The boot identifier as section 4.1 of the specification words it: the value of
the token `rauc.slot=<value>`, else for barebox of `bootstate.active=<value>`, else
of `root=<value>`. -/
def spec_cmdline_bootname (contents : String) (system_bootloader : String) :
    Option String :=
  let toks := cmdline_tokens contents.data
  match token_value "rauc.slot=".data toks with
  | some v => some (String.mk v)
  | none =>
    match (if system_bootloader = "barebox" then
             token_value "bootstate.active=".data toks else none) with
    | some v => some (String.mk v)
    | none =>
      match token_value "root=".data toks with
      | some v => some (String.mk v)
      | none => none

/-! ## Slot states (`determine_slot_states`) -/

/-- Failures of `determine_slot_states` (codes 1, 2, 3 of `R_SLOT_ERROR`). -/
inductive SlotError where
  | noSlotConfiguration
  | bootnameNotFound
  | bootedSlotNotFound
  deriving DecidableEq, Repr

/-- The test the search loop of `determine_slot_states` applies to one slot:
`g_strcmp0(s->bootname, bootname) == 0` or `g_strcmp0(s->device, bootname) == 0`. -/
def slot_matches (s : RaucSlot) (bootname : String) : Bool :=
  s.bootname = some bootname || s.device = bootname

/-- The search loop of `determine_slot_states` (lines 177-192): walk the key list
and stop at the first slot whose bootname or device equals the boot identifier. The
keys of a hash table all designate a slot; a position outside the table is passed
over. -/
def find_booted (slots : List RaucSlot) (bootname : String) : List Nat → Option Nat
  | [] => none
  | k :: ks =>
    match slots[k]? with
    | none => find_booted slots bootname ks
    | some s =>
      if s.bootname = some bootname then some k
      else if s.device = bootname then some k
      else find_booted slots bootname ks

/-- One turn of the loop "Determine active group members" (lines 208-221) for the
slot at position `k`. -/
def mark_group_member (slots : List RaucSlot) (k : Nat) : List RaucSlot :=
  match slots[k]? with
  | none => slots
  | some s =>
    match s.parent with
    | some p =>
      if slot_state slots p &&& ST_ACTIVE ≠ 0 then
        set_slot_state slots k (s.state ||| ST_ACTIVE)
      else
        set_slot_state slots k (s.state ||| ST_INACTIVE)
    | none =>
      if s.state = ST_UNKNOWN then set_slot_state slots k (s.state ||| ST_INACTIVE)
      else slots

/-- The loop "Determine active group members" over the key list. -/
def mark_group_members (slots : List RaucSlot) : List Nat → List RaucSlot
  | [] => slots
  | k :: ks => mark_group_members (mark_group_member slots k) ks

/-- The function `determine_slot_states`. `slots` is `config->slots` (`none` for
NULL), `slotlist` the key list `g_hash_table_get_keys` returns, `bootname` what the
bootname provider returns. On success the result is the slot table with the new
states. The scan of the mount table (lines 150-163) only stores mount points, which
no operation modelled here reads, and is left out. -/
def determine_slot_states (slots : Option (List RaucSlot)) (slotlist : List Nat)
    (bootname : Option String) : Except SlotError (List RaucSlot) :=
  match slots with
  | none => .error .noSlotConfiguration
  | some tbl =>
    match bootname with
    | none => .error .bootnameNotFound
    | some b =>
      match find_booted tbl b slotlist with
      | none => .error .bootedSlotNotFound
      | some booted =>
        .ok (mark_group_members (set_slot_state tbl booted ST_BOOTED) slotlist)

/-- The test of the search loop applied to the slot the key `k` designates. -/
def key_matches (slots : List RaucSlot) (bootname : String) (k : Nat) : Bool :=
  match slots[k]? with
  | some s => slot_matches s bootname
  | none => false

/-- The slot carries the active flag (`state & ST_ACTIVE`). -/
def is_active (s : RaucSlot) : Bool := s.state &&& ST_ACTIVE ≠ 0

/-- The slot carries the inactive flag (`state & ST_INACTIVE`). -/
def is_inactive (s : RaucSlot) : Bool := s.state &&& ST_INACTIVE ≠ 0

/-- The slot carries the flags of `ST_BOOTED`. -/
def is_booted (s : RaucSlot) : Bool := s.state &&& ST_BOOTED = ST_BOOTED

/-- Section 4.2 of the specification, step 2, read literally: the first slot whose
bootname equals the identifier, else the first slot whose device equals it. -/
def spec_find_booted (slots : List RaucSlot) (bootname : String) (slotlist : List Nat) :
    Option Nat :=
  match slotlist.find? (fun k =>
      match slots[k]? with
      | some s => decide (s.bootname = some bootname)
      | none => false) with
  | some k => some k
  | none =>
    slotlist.find? (fun k =>
      match slots[k]? with
      | some s => decide (s.device = bootname)
      | none => false)

/-- The slot at position `k` or one of its ancestors (at most `fuel` parent links
up) is the booted slot. -/
def booted_self_or_ancestor (slots : List RaucSlot) : Nat → Nat → Bool
  | 0, k =>
    match slots[k]? with
    | some s => is_booted s
    | none => false
  | fuel + 1, k =>
    match slots[k]? with
    | some s =>
      is_booted s ||
        (match s.parent with
         | some p => booted_self_or_ancestor slots fuel p
         | none => false)
    | none => false

/-! ## Target group (`determine_target_install_group`) -/

/-- Ways in which a function does not return to its caller. -/
inductive Crash where
  /-- A `g_assert` failed and aborted the process. -/
  | assertion
  /-- A NULL pointer was dereferenced. -/
  | nullDeref
  /-- A loop over a cyclic parent chain never ends. -/
  | noReturn
  /-- An array was read past its end. -/
  | outOfBounds
  deriving DecidableEq, Repr

/-- Parent pointer of the slot at position `k`. -/
def slot_parent (slots : List RaucSlot) (k : Nat) : Option Nat :=
  match slots[k]? with
  | some s => s.parent
  | none => none

/-- Class of the slot at position `k`. -/
def slot_sclass (slots : List RaucSlot) (k : Nat) : String :=
  match slots[k]? with
  | some s => s.sclass
  | none => ""

/-- Name of the slot at position `k`. -/
def slot_name (slots : List RaucSlot) (k : Nat) : String :=
  match slots[k]? with
  | some s => s.name
  | none => ""

/-- The call `g_ptr_array_remove_fast`: drop the first entry equal to `key`; the last
entry of the array moves into the freed place. -/
def g_ptr_array_remove_fast : List String → String → List String
  | [], _ => []
  | x :: rest, key =>
    if x = key then
      match rest.getLast? with
      | none => []
      | some l => l :: rest.dropLast
    else x :: g_ptr_array_remove_fast rest key

/-- The second collecting loop (lines 281-285): for each file remove its class from
the array and add it at the end. -/
def add_file_classes (arr : List String) : List RaucFile → List String
  | [] => arr
  | f :: fs => add_file_classes (g_ptr_array_remove_fast arr f.slotclass ++ [f.slotclass]) fs

/-- The slot classes `determine_target_install_group` collects from the manifest
(lines 275-285): the class of every image, then the classes of the files. -/
def collect_slotclasses (m : RaucManifest) : List String :=
  add_file_classes (m.images.map (fun i => i.slotclass)) m.files

/-- The slot classes the images and files of a manifest refer to, in manifest order. -/
def referenced_classes (m : RaucManifest) : List String :=
  m.images.map (fun i => i.slotclass) ++ m.files.map (fun f => f.slotclass)

/-- Remove duplicates from a list, keeping the last occurrence of each entry. -/
def dedup_keep_last : List String → List String
  | [] => []
  | x :: rest => if x ∈ rest then dedup_keep_last rest else x :: dedup_keep_last rest

/-- Section 4.3 of the specification: the classes of the images, then of the files,
"de-duplicated while preserving last occurrence". -/
def spec_slotclasses (m : RaucManifest) : List String :=
  dedup_keep_last (referenced_classes m)

/-- The function `get_inactive_slot_class_members`: the inactive slots of a class in
the order `iter` in which the hash table iterator visits the slot table. -/
def get_inactive_slot_class_members (slots : List RaucSlot) (iter : List Nat)
    (slotclass : String) : List Nat :=
  iter.filter (fun k =>
    match slots[k]? with
    | some s => s.state = ST_INACTIVE && s.sclass = slotclass
    | none => false)

/-- The loop of `get_inactive_base_slot`: while `base` has a parent go up to it if
the parent is inactive, else give up with NULL. The loop of the source has no bound;
`fuel` turns of it are run here. -/
def inactive_base_loop (slots : List RaucSlot) : Nat → Nat → Except Crash (Option Nat)
  | 0, base =>
    match slot_parent slots base with
    | none => .ok (some base)
    | some _ => .error .noReturn
  | fuel + 1, base =>
    match slot_parent slots base with
    | none => .ok (some base)
    | some p =>
      if slot_state slots p = ST_INACTIVE then inactive_base_loop slots fuel p
      else .ok none

/-- The function `get_inactive_base_slot`: the topmost ancestor reached through
inactive slots only, NULL (`none`) if the slot or one of these ancestors is not
inactive. A parent chain without cycle has fewer links than the table has slots, so
the loop runs out of its turns only on a chain the source never leaves. -/
def get_inactive_base_slot (slots : List RaucSlot) (slot : Nat) : Except Crash (Option Nat) :=
  if slot_state slots slot = ST_INACTIVE then inactive_base_loop slots slots.length slot
  else .ok none

/-- The call `g_hash_table_lookup` on a table kept as a list of entries. -/
def g_hash_table_lookup (t : List (String × Nat)) (key : String) : Option Nat :=
  match t with
  | [] => none
  | (k, v) :: rest => if k = key then some v else g_hash_table_lookup rest key

/-- The call `g_hash_table_insert`: the value of an existing key is replaced, a new
key gets a new entry. -/
def g_hash_table_insert (t : List (String × Nat)) (key : String) (v : Nat) :
    List (String × Nat) :=
  match t with
  | [] => [(key, v)]
  | (k, x) :: rest =>
    if k = key then (k, v) :: rest else (k, x) :: g_hash_table_insert rest key v

/-- The inner loop of `determine_target_install_group` (lines 301-317) over the
inactive members of one class: the first member whose base slot agrees with the base
already reserved for the class of that base (or reserves it) is the target. The
table `bases` is keyed by the interned class string, so keys compare as strings. The
result is the target (`none` when no member fits) and the new table `bases`. Slot
names are the keys of the slot table and so differ from slot to slot: comparing the
name pointers of two slots is comparing their names. -/
def select_target_slot (slots : List RaucSlot) (bases : List (String × Nat)) :
    List Nat → Except Crash (Option Nat × List (String × Nat))
  | [] => .ok (none, bases)
  | slot :: rest =>
    match get_inactive_base_slot slots slot with
    | .error e => .error e
    | .ok none => .error .nullDeref
    | .ok (some base) =>
      match g_hash_table_lookup bases (slot_sclass slots base) with
      | some known_base =>
        if slot_name slots base ≠ slot_name slots known_base then
          select_target_slot slots bases rest
        else .ok (some slot, bases)
      | none => .ok (some slot, g_hash_table_insert bases (slot_sclass slots base) base)

/-- The outer loop of `determine_target_install_group` (lines 294-328) over the
collected slot classes. -/
def select_targets (slots : List RaucSlot) (iter : List Nat) :
    List String → List (String × Nat) → List (String × Nat) →
      Except Crash (Option (List (String × Nat)))
  | [], _, targetgroup => .ok (some targetgroup)
  | slotclass :: rest, bases, targetgroup =>
    match select_target_slot slots bases
        (get_inactive_slot_class_members slots iter slotclass) with
    | .error e => .error e
    | .ok (none, _) => .ok none
    | .ok (some target_slot, bases') =>
      select_targets slots iter rest bases'
        (g_hash_table_insert targetgroup (slot_sclass slots target_slot) target_slot)

/-- The function `determine_target_install_group`: the target group as a table from
slot class to slot, `none` for NULL (no target for some class). -/
def determine_target_install_group (slots : List RaucSlot) (iter : List Nat)
    (manifest : RaucManifest) : Except Crash (Option (List (String × Nat))) :=
  match collect_slotclasses manifest with
  | [] => .error .assertion
  | c :: cs => select_targets slots iter (c :: cs) [] []

/-! ## Effects: calls that leave the process and their trace -/

/-- A call made by the install code to one of its collaborators (bootloader, mount
helper, image copy, slot status file, bundle, handler process) or a status message
pushed to the queue of the install request. -/
inductive Call where
  /-- The message `install_args_update` pushes to the status queue. -/
  | status (msg : String)
  /-- The call `create_mount_point(name, ..)`. -/
  | create_mount_point (name : String)
  /-- The call `r_boot_set_state(slot, good)`. -/
  | boot_set_state (slot : Nat) (good : Bool)
  /-- The call `r_boot_set_primary(slot)`. -/
  | boot_set_primary (slot : Nat)
  /-- The call `r_mount_slot(slot, mountpoint, ..)`. -/
  | mount_slot (slot : Nat) (mountpoint : String)
  /-- The call `r_umount(mountpoint, ..)`. -/
  | umount (mountpoint : String)
  /-- The call `load_slot_status(path, ..)`. -/
  | load_slot_status (path : String)
  /-- The call `save_slot_status(path, status, ..)` with the status and digest stored. -/
  | save_slot_status (path : String) (status : String) (digest : String)
  /-- The call `copy_image(src, dest, fs_type, ..)`. -/
  | copy_image (src dest fs_type : String)
  /-- The call `mount_bundle(bundlefile, mountpoint, ..)`. -/
  | mount_bundle (bundlefile mountpoint : String)
  /-- The call `umount_bundle(mountpoint, ..)`. -/
  | umount_bundle (mountpoint : String)
  /-- The call `g_rmdir(path)`. -/
  | rmdir (path : String)
  /-- The call `verify_manifest(dir, ..)`. -/
  | verify_manifest (dir : String)
  /-- The handler process spawned and awaited by `launch_and_wait_handler`. -/
  | handler (update_source handler_name : String)
  /-- The call `download_mem(.., url, ..)`. -/
  | download_mem (url : String)
  /-- The call `cms_verify(manifest_data, signature_data, ..)`. -/
  | cms_verify
  /-- The call `load_manifest_mem(manifest_data, ..)`. -/
  | load_manifest_mem
  /-- The call `verify_checksum(checksum, filename, ..)` with the digest expected. -/
  | verify_checksum (filename digest : String)
  /-- The call `reuse_existing_file_checksum(checksum, filename)`: look for the file
  in the mounted slots and copy it when its checksum fits. -/
  | reuse_existing_file_checksum (filename digest : String)
  /-- The call `download_file_checksum(filename, url, checksum)`. -/
  | download_file_checksum (filename url digest : String)
  deriving DecidableEq, Repr

/-- A call together with its result (`true` for success). -/
structure Event where
  call : Call
  ok : Bool
  deriving DecidableEq, Repr

/-- The world outside the process. Every answer may depend on all the calls made so
far and on their results. -/
structure Env where
  /-- Whether the given call succeeds after the given history. -/
  result : List Event → Call → Bool
  /-- The message of the error the last failed call reported. -/
  error_message : List Event → String
  /-- The test `g_file_test(path, G_FILE_TEST_EXISTS)`. -/
  file_exists : List Event → String → Bool
  /-- The digest in the slot status the last `load_slot_status` call loaded. -/
  loaded_digest : List Event → String
  /-- The manifest the last `verify_manifest` call produced. -/
  manifest : List Event → RaucManifest
  /-- The bytes found at the address of the `checksum.digest` field of an image,
  read as a string (see `update_slot`). -/
  digest_field_bytes : RaucImage → String
  /-- The lines the handler process of the given name prints when it is started
  after the given history. -/
  handler_output : List Event → String → List String

/-- How a function of the install code ends. -/
inductive Outcome where
  /-- It returns TRUE. -/
  | success
  /-- It returns FALSE with the given error message. -/
  | failure (msg : String)
  /-- It does not return. -/
  | crash (c : Crash)
  deriving DecidableEq, Repr

/-- Make a call: ask the environment and append the call with its result. -/
def do_call (env : Env) (tr : List Event) (c : Call) : List Event × Bool :=
  (tr ++ [⟨c, env.result tr c⟩], env.result tr c)

/-- The function `install_args_update`: push a message to the status queue. -/
def install_args_update (tr : List Event) (msg : String) : List Event :=
  tr ++ [⟨.status msg, true⟩]

/-- The characters of `cs` without the separators `/` at its end. -/
def strip_trailing_separators (cs : List Char) : List Char :=
  (cs.reverse.dropWhile (fun c => c = '/')).reverse

/-- The variables of the loop of GLib's `g_build_path` with the separator `/`: the
path built so far, whether no element was added yet, whether the separators leading
the first non-empty element were copied, the element to return as it is, and the
text at `last_trailing` (empty for NULL). -/
structure BuildPath where
  result : List Char
  is_first : Bool
  have_leading : Bool
  single_element : Option (List Char)
  last_trailing : List Char
  deriving DecidableEq, Repr

/-- One turn of the loop of `g_build_path` for the element `element`: an empty
element is skipped; the separators around the element are cut off, those leading
the first non-empty element are kept, and one separator is put between two
elements. An element of separators only adds nothing between its neighbours. -/
def g_build_path_element (st : BuildPath) (element : List Char) : BuildPath :=
  if element = [] then st
  else
    let start := element.dropWhile (fun c => c = '/')
    let core := strip_trailing_separators start
    let last_trailing := if core = [] then element else start.drop core.length
    let st1 : BuildPath :=
      if !st.have_leading then
        { st with
          single_element := if core = [] then some element else st.single_element
          result := st.result ++ element.takeWhile (fun c => c = '/')
          have_leading := true
          last_trailing := last_trailing }
      else { st with single_element := none, last_trailing := last_trailing }
    if core = [] then st1
    else
      { st1 with
        result := (if !st1.is_first then st1.result ++ ['/'] else st1.result) ++ core
        is_first := false }

/-- The call `g_build_path("/", elements..., NULL)` of GLib: the elements joined by
exactly one separator at each boundary; the separators leading the first and
trailing the last non-empty element are kept. -/
def g_build_path (elements : List String) : String :=
  let st := elements.foldl (fun st e => g_build_path_element st e.data)
    ⟨[], true, false, none, []⟩
  match st.single_element with
  | some e => String.mk e
  | none => String.mk (st.result ++ st.last_trailing)

/-- The call `g_build_filename(a, b, NULL)`. -/
def g_build_filename (a b : String) : String := g_build_path [a, b]

/-- The call `g_path_is_absolute`. -/
def g_path_is_absolute (p : String) : Bool :=
  match p.data with
  | c :: _ => c = '/'
  | [] => false

/-- Bootname of the slot at position `k`. -/
def slot_bootname (slots : List RaucSlot) (k : Nat) : Option String :=
  match slots[k]? with
  | some s => s.bootname
  | none => none

/-- Device of the slot at position `k`. -/
def slot_device (slots : List RaucSlot) (k : Nat) : String :=
  match slots[k]? with
  | some s => s.device
  | none => ""

/-- Type of the slot at position `k`. -/
def slot_type (slots : List RaucSlot) (k : Nat) : String :=
  match slots[k]? with
  | some s => s.type
  | none => ""

/-- The function `verify_compatible`. -/
def verify_compatible (cfg : RaucConfig) (manifest : RaucManifest) : Bool :=
  cfg.system_compatible = manifest.update_compatible

/-! ## Default install loop (`launch_and_wait_default_handler`) -/

/-- The loop "Mark all parent destination slots non-bootable" (lines 696-711) over
the entries of the target group. On failure the result is the name of the slot. -/
def mark_non_bootable (env : Env) (slots : List RaucSlot) (tr : List Event) :
    List (String × Nat) → List Event × Option String
  | [] => (tr, none)
  | (_, dest_slot) :: rest =>
    if (slot_parent slots dest_slot).isSome || (slot_bootname slots dest_slot).isNone then
      mark_non_bootable env slots tr rest
    else
      match do_call env tr (.boot_set_state dest_slot false) with
      | (tr1, true) => mark_non_bootable env slots tr1 rest
      | (tr1, false) => (tr1, some (slot_name slots dest_slot))

/-- The loop "Mark all parent destination slots bootable" (lines 872-886). On
failure the result is the name of the slot. -/
def mark_primary (env : Env) (slots : List RaucSlot) (tr : List Event) :
    List (String × Nat) → List Event × Option String
  | [] => (tr, none)
  | (_, dest_slot) :: rest =>
    if (slot_parent slots dest_slot).isSome || (slot_bootname slots dest_slot).isNone then
      mark_primary env slots tr rest
    else
      match do_call env tr (.boot_set_primary dest_slot) with
      | (tr1, true) => mark_primary env slots tr1 rest
      | (tr1, false) => (tr1, some (slot_name slots dest_slot))

/-- The part of the loop body at the label `image_out` (lines 851-868): unmount
the slot and report the slot as done. -/
def image_out (env : Env) (slots : List RaucSlot) (mountpoint : String) (dest_slot : Nat)
    (tr : List Event) : List Event × Outcome :=
  match do_call env tr (.umount mountpoint) with
  | (tr1, false) => (tr1, .failure ("Unmounting failed: " ++ env.error_message tr1))
  | (tr1, true) =>
    (install_args_update tr1 ("Updating slot " ++ slot_name slots dest_slot ++ " done"),
      .success)

/-- The part of the loop body at the label `copy` (lines 803-849): copy the image,
mount the slot again and write the slot status. -/
def copy_slot (env : Env) (slots : List RaucSlot) (mountpoint src : String)
    (mfimage : RaucImage) (dest_slot : Nat) (tr : List Event) : List Event × Outcome :=
  let tr0 := install_args_update tr ("Updating slot " ++ slot_name slots dest_slot)
  match do_call env tr0
      (.copy_image src (slot_device slots dest_slot) (slot_type slots dest_slot)) with
  | (tr1, false) => (tr1, .failure ("Failed updating slot: " ++ env.error_message tr1))
  | (tr1, true) =>
    match do_call env tr1 (.mount_slot dest_slot mountpoint) with
    | (tr2, false) => (tr2, .failure ("Mounting failed: " ++ env.error_message tr2))
    | (tr2, true) =>
      let tr3 := install_args_update tr2
        ("Updating slot " ++ slot_name slots dest_slot ++ " status")
      match do_call env tr3
          (.save_slot_status (g_build_filename mountpoint "slot.raucs") "ok"
            mfimage.checksum.digest) with
      | (tr4, false) =>
        let msg := "Failed writing status file: " ++ env.error_message tr4
        ((do_call env tr4 (.umount mountpoint)).1, .failure msg)
      | (tr4, true) => image_out env slots mountpoint dest_slot tr4

/-- The path of the source image (lines 727-731): the file name itself if it is
absolute, else the file name below `cwd`. -/
def srcimagepath (cwd : String) (mfimage : RaucImage) : String :=
  if g_path_is_absolute mfimage.filename then mfimage.filename
  else g_build_filename cwd mfimage.filename

/-- The body of the loop over the images of the manifest (lines 715-870) for one
image. The test for an up-to-date slot is `g_str_equal(&mfimage->checksum.digest,
slot_state->checksum.digest)`: its first argument is the address of the digest field,
so the stored digest is compared with the bytes found at that address. -/
def update_slot (env : Env) (slots : List RaucSlot) (target_group : List (String × Nat))
    (cwd mountpoint : String) (tr : List Event) (mfimage : RaucImage) :
    List Event × Outcome :=
  if !env.file_exists tr (srcimagepath cwd mfimage) then
    (tr, .failure ("Source image '" ++ srcimagepath cwd mfimage ++ "' not found"))
  else
    match g_hash_table_lookup target_group mfimage.slotclass with
    | none => (tr, .crash .nullDeref)
    | some dest_slot =>
      if !env.file_exists tr (slot_device slots dest_slot) then
        (tr, .failure ("Destination device '" ++ slot_device slots dest_slot ++ "' not found"))
      else
        let tr0 := install_args_update tr ("Checking slot " ++ slot_name slots dest_slot)
        match do_call env tr0 (.mount_slot dest_slot mountpoint) with
        | (tr1, false) =>
          copy_slot env slots mountpoint (srcimagepath cwd mfimage) mfimage dest_slot tr1
        | (tr1, true) =>
          match do_call env tr1 (.load_slot_status (g_build_filename mountpoint "slot.raucs")) with
          | (tr2, loaded) =>
            if loaded && env.digest_field_bytes mfimage = env.loaded_digest tr2 then
              image_out env slots mountpoint dest_slot
                (install_args_update tr2
                  ("Skipping update for correct image " ++ mfimage.filename))
            else
              match do_call env tr2 (.umount mountpoint) with
              | (tr3, false) => (tr3, .failure ("Unmounting failed: " ++ env.error_message tr3))
              | (tr3, true) =>
                copy_slot env slots mountpoint (srcimagepath cwd mfimage) mfimage dest_slot tr3

/-- The loop over the images of the manifest (lines 715-870). -/
def update_slots (env : Env) (slots : List RaucSlot) (target_group : List (String × Nat))
    (cwd mountpoint : String) (tr : List Event) : List RaucImage → List Event × Outcome
  | [] => (tr, .success)
  | mfimage :: rest =>
    match update_slot env slots target_group cwd mountpoint tr mfimage with
    | (tr1, .success) => update_slots env slots target_group cwd mountpoint tr1 rest
    | (tr1, out) => (tr1, out)

/-- The function `launch_and_wait_default_handler`: the calls it adds to the history
`tr` and how it ends. -/
def launch_and_wait_default_handler (env : Env) (cfg : RaucConfig) (slots : List RaucSlot)
    (cwd : String) (manifest : RaucManifest) (target_group : List (String × Nat))
    (tr : List Event) : List Event × Outcome :=
  if !verify_compatible cfg manifest then (tr, .failure "Compatible mismatch")
  else
    match do_call env tr (.create_mount_point "image") with
    | (tr0, false) => (tr0, .failure "Failed to create image mount point")
    | (tr0, true) =>
      let mountpoint := g_build_filename cfg.mount_prefix "image"
      match mark_non_bootable env slots tr0 target_group with
      | (tr1, some name) => (tr1, .failure ("Failed marking slot " ++ name ++ " non-bootable"))
      | (tr1, none) =>
        match update_slots env slots target_group cwd mountpoint
            (install_args_update tr1 "Updating slots...") manifest.images with
        | (tr2, .success) =>
          match mark_primary env slots tr2 target_group with
          | (tr3, some name) => (tr3, .failure ("Failed marking slot " ++ name ++ " bootable"))
          | (tr3, none) => (install_args_update tr3 "All slots updated", .success)
        | (tr2, out) => (tr2, out)

/-! ## Bundle install (`do_install_bundle`) -/

/-- The call `g_strsplit(string, " ", max_tokens)` on the characters of the string,
with `n` further splits allowed: a space ends a token while splits are left, the
rest of the string is the last token. -/
def split_tokens : Nat → List Char → List (List Char)
  | _, [] => [[]]
  | 0, c :: cs => [c :: cs]
  | n + 1, c :: cs =>
    if c = ' ' then [] :: split_tokens n cs
    else
      match split_tokens (n + 1) cs with
      | t :: ts => (c :: t) :: ts
      | [] => [[c]]

/-- The call `g_strsplit(line, " ", 5)`: the tokens of the array it returns; the
array ends with a NULL entry after the last token. An empty string has no token. -/
def g_strsplit (line : String) : List String :=
  match line.data with
  | [] => []
  | c :: cs => (split_tokens 4 (c :: cs)).map String.mk

/-- Read `split[i]` in the array `g_strsplit` returned: a token, the NULL entry
that ends the array (`none`), or a read past the end of the array. -/
def split_index (split : List String) (i : Nat) : Except Crash (Option String) :=
  if i < split.length then .ok split[i]?
  else if i = split.length then .ok none
  else .error .outOfBounds

/-- What `g_print` writes for a `%s` argument: the string, `(null)` for NULL. -/
def print_str : Option String → String
  | some s => s
  | none => "(null)"

/-- The function `parse_handler_output`: the text it prints for one line of
handler output, or the crash of a read past the end of the split array. -/
def parse_handler_output (line : String) : Except Crash String :=
  if !("<< ".data.isPrefixOf line.data) then .ok ("# " ++ line ++ "\n")
  else
    match split_index (g_strsplit line) 1 with
    | .error c => .error c
    | .ok none => .ok ""
    | .ok (some cmd) =>
      if cmd = "handler" then
        match split_index (g_strsplit line) 2 with
        | .error c => .error c
        | .ok a => .ok ("Handler status: " ++ print_str a ++ "\n")
      else if cmd = "image" then
        match split_index (g_strsplit line) 2, split_index (g_strsplit line) 3 with
        | .ok a, .ok b =>
          .ok ("Image '" ++ print_str a ++ "' status: " ++ print_str b ++ "\n")
        | .error c, _ => .error c
        | _, .error c => .error c
      else if cmd = "error" then
        match split_index (g_strsplit line) 2 with
        | .error c => .error c
        | .ok a => .ok ("error: '" ++ print_str a ++ "'\n")
      else if cmd = "bootloader" then
        match split_index (g_strsplit line) 2 with
        | .error c => .error c
        | .ok a => .ok ("error: '" ++ print_str a ++ "'\n")
      else .ok ("Unknown command: " ++ cmd ++ "\n")

/-- The loop of `launch_and_wait_handler` that passes every line the handler prints
to `parse_handler_output` (lines 488-494): the texts printed. -/
def parse_handler_lines : List String → Except Crash (List String)
  | [] => .ok []
  | line :: rest =>
    match parse_handler_output line with
    | .error c => .error c
    | .ok text =>
      match parse_handler_lines rest with
      | .error c => .error c
      | .ok texts => .ok (text :: texts)

/-- The function `launch_and_wait_handler`: spawn the handler process with the
environment variables describing slots and images, pass its output lines to
`parse_handler_output` (which only prints) and wait for its exit. The process is one
call here, whose result tells whether it could be started and ended with status 0;
the error of a failure is the one the wait for the process reports. -/
def launch_and_wait_handler (env : Env) (update_source handler_name : String)
    (tr : List Event) : List Event × Outcome :=
  match do_call env tr (.handler update_source handler_name) with
  | (tr1, exited_ok) =>
    match parse_handler_lines (env.handler_output tr handler_name) with
    | .error c => (tr1, .crash c)
    | .ok _ =>
      if exited_ok then (tr1, .success) else (tr1, .failure (env.error_message tr1))

/-- The function `launch_and_wait_custom_handler`. -/
def launch_and_wait_custom_handler (env : Env) (cfg : RaucConfig) (cwd : String)
    (manifest : RaucManifest) (handler_name : String) (tr : List Event) :
    List Event × Outcome :=
  if !verify_compatible cfg manifest then (tr, .failure "Compatible mismatch")
  else launch_and_wait_handler env cwd (g_build_filename cwd handler_name) tr

/-- The message of a failure of `determine_slot_states`. -/
def slot_error_message : SlotError → String
  | .noSlotConfiguration => "No slot configuration found"
  | .bootnameNotFound => "Bootname not found"
  | .bootedSlotNotFound => "Did not find booted slot"

/-- The exit of `do_install_bundle` through the label `umount` (lines 1175-1178):
unmount the bundle and remove its mount point, whatever these calls answer. -/
def umount_exit (env : Env) (mountpoint : String) (tr : List Event) (out : Outcome) :
    List Event × Outcome :=
  ((do_call env (do_call env tr (.umount_bundle mountpoint)).1 (.rmdir mountpoint)).1, out)

/-- A handler that is run only when it is configured (lines 1140-1143, 1163-1166). -/
def optional_handler (env : Env) (update_source : String) (handler : Option String)
    (tr : List Event) : List Event × Outcome :=
  match handler with
  | some h => launch_and_wait_handler env update_source h tr
  | none => (tr, .success)

/-- The function `do_install_bundle`: the calls it adds to the history `tr` and how
it ends. `slots`, `slotlist` and `bootname` are the inputs of
`determine_slot_states`, `iter` is the order in which the slot table is walked by
`get_inactive_slot_class_members`. -/
def do_install_bundle (env : Env) (cfg : RaucConfig) (slots : Option (List RaucSlot))
    (slotlist iter : List Nat) (bootname : Option String) (bundlefile : String)
    (tr : List Event) : List Event × Outcome :=
  match determine_slot_states slots slotlist bootname with
  | .error e => (tr, .failure (slot_error_message e))
  | .ok tbl =>
    match do_call env tr (.create_mount_point "bundle") with
    | (tr0, false) => (tr0, .failure ("Failed creating mount point: " ++ env.error_message tr0))
    | (tr0, true) =>
      let mountpoint := g_build_filename cfg.mount_prefix "bundle"
      match do_call env (install_args_update tr0 "Checking and mounting bundle...")
          (.mount_bundle bundlefile mountpoint) with
      | (tr2, false) =>
        umount_exit env mountpoint tr2
          (.failure ("Failed mounting bundle: " ++ env.error_message tr2))
      | (tr2, true) =>
        match do_call env tr2 (.verify_manifest mountpoint) with
        | (tr3, false) =>
          umount_exit env mountpoint tr3
            (.failure ("Failed verifying manifest: " ++ env.error_message tr3))
        | (tr3, true) =>
          match determine_target_install_group tbl iter (env.manifest tr3) with
          | .error c => (tr3, .crash c)
          | .ok none =>
            umount_exit env mountpoint tr3 (.failure "Could not determine target group")
          | .ok (some target_group) =>
            match optional_handler env mountpoint cfg.preinstall_handler tr3 with
            | (tr4, .failure msg) => (tr4, .failure ("Handler error: " ++ msg))
            | (tr4, .crash c) => (tr4, .crash c)
            | (tr4, .success) =>
              match (match (env.manifest tr3).handler_name with
                     | some h =>
                       launch_and_wait_custom_handler env cfg mountpoint (env.manifest tr3) h tr4
                     | none =>
                       launch_and_wait_default_handler env cfg tbl mountpoint
                         (env.manifest tr3) target_group tr4) with
              | (tr5, .failure msg) =>
                umount_exit env mountpoint tr5 (.failure ("Handler error: " ++ msg))
              | (tr5, .crash c) => (tr5, .crash c)
              | (tr5, .success) =>
                match optional_handler env mountpoint cfg.postinstall_handler tr5 with
                | (tr6, .failure msg) =>
                  umount_exit env mountpoint tr6 (.failure ("Handler error: " ++ msg))
                | (tr6, .crash c) => (tr6, .crash c)
                | (tr6, .success) => umount_exit env mountpoint tr6 .success

/-! ## Network install (`launch_and_wait_network_handler`, `do_install_network`) -/

/-- The first loop of `launch_and_wait_network_handler` (lines 942-956) over the
entries of the target group: stop at the first active slot without parent, call
`r_boot_set_state(slot, FALSE)` for every entry before it. The result is the
history, the variable `res` and whether the function goes on (`false` after a
failed call, which leaves through `out`). -/
def network_mark_non_bootable (env : Env) (slots : List RaucSlot) (tr : List Event)
    (res : Bool) : List (String × Nat) → List Event × Bool × Bool
  | [] => (tr, res, true)
  | (_, slot) :: rest =>
    if slot_state slots slot &&& ST_ACTIVE ≠ 0 && (slot_parent slots slot).isNone then
      (tr, res, true)
    else
      match do_call env tr (.boot_set_state slot false) with
      | (tr1, true) => network_mark_non_bootable env slots tr1 true rest
      | (tr1, false) => (tr1, false, false)

/-- The loop over the files of the manifest (lines 987-1023) for one mounted slot:
a file is left alone when its checksum is right, else taken from a mounted slot,
else downloaded. The result tells whether every file is in place. -/
def network_update_files (env : Env) (base_url mountpoint : String) (tr : List Event) :
    List RaucFile → List Event × Bool
  | [] => (tr, true)
  | mffile :: rest =>
    match do_call env tr
        (.verify_checksum (g_build_filename mountpoint mffile.destname)
          mffile.checksum.digest) with
    | (tr1, true) => network_update_files env base_url mountpoint tr1 rest
    | (tr1, false) =>
      match do_call env tr1
          (.reuse_existing_file_checksum (g_build_filename mountpoint mffile.destname)
            mffile.checksum.digest) with
      | (tr2, true) => network_update_files env base_url mountpoint tr2 rest
      | (tr2, false) =>
        match do_call env tr2
            (.download_file_checksum (g_build_filename mountpoint mffile.destname)
              (base_url ++ "/" ++ mffile.filename) mffile.checksum.digest) with
        | (tr3, true) => network_update_files env base_url mountpoint tr3 rest
        | (tr3, false) => (tr3, false)

/-- The body of the slot loop between the mount point and the label `slot_out`
(lines 970-1032): mount the slot, load its status, bring the files in place, save
the status. The result is the history and the new value of `invalid`. -/
def network_update_slot (env : Env) (manifest : RaucManifest) (base_url mountpoint : String)
    (slot : Nat) (tr : List Event) (invalid : Bool) : List Event × Bool :=
  match do_call env tr (.mount_slot slot mountpoint) with
  | (tr1, false) => (tr1, invalid)
  | (tr1, true) =>
    match do_call env tr1 (.load_slot_status (g_build_filename mountpoint "slot.raucs")) with
    | (tr2, loaded) =>
      match network_update_files env base_url mountpoint tr2 manifest.files with
      | (tr3, false) => (tr3, true)
      | (tr3, true) =>
        match do_call env tr3
            (.save_slot_status (g_build_filename mountpoint "slot.raucs") "ok"
              (if loaded then env.loaded_digest tr2 else "")) with
        | (tr4, false) => (tr4, true)
        | (tr4, true) => (tr4, invalid)

/-- How the slot loop of the network handler ends. -/
inductive NetworkLoopEnd where
  /-- It left through the label `out` with the given value of `res`. -/
  | out (res : Bool)
  /-- It visited every slot; the flag `invalid` has the given value. -/
  | done (invalid : Bool)
  deriving DecidableEq, Repr

/-- The second loop of `launch_and_wait_network_handler` (lines 959-1044) over the
entries of the target group. -/
def network_update_slots (env : Env) (cfg : RaucConfig) (slots : List RaucSlot)
    (manifest : RaucManifest) (base_url : String) (tr : List Event) (res invalid : Bool) :
    List (String × Nat) → List Event × NetworkLoopEnd
  | [] => (tr, .done invalid)
  | (_, slot) :: rest =>
    match do_call env tr (.create_mount_point (slot_name slots slot)) with
    | (tr0, false) => (tr0, .out res)
    | (tr0, true) =>
      match network_update_slot env manifest base_url
          (g_build_filename cfg.mount_prefix (slot_name slots slot)) slot tr0 invalid with
      | (tr1, invalid1) =>
        match do_call env tr1
            (.umount (g_build_filename cfg.mount_prefix (slot_name slots slot))) with
        | (tr2, false) => (tr2, .out false)
        | (tr2, true) =>
          network_update_slots env cfg slots manifest base_url tr2 true invalid1 rest

/-- The function `launch_and_wait_network_handler`: the calls it adds to the history
and its return value. -/
def launch_and_wait_network_handler (env : Env) (cfg : RaucConfig) (slots : List RaucSlot)
    (base_url : String) (manifest : RaucManifest) (target_group : List (String × Nat))
    (tr : List Event) : List Event × Bool :=
  if !verify_compatible cfg manifest then (tr, false)
  else
    match network_mark_non_bootable env slots tr false target_group with
    | (tr1, res, false) => (tr1, res)
    | (tr1, res, true) =>
      match network_update_slots env cfg slots manifest base_url tr1 res false
          target_group with
      | (tr2, .out r) => (tr2, r)
      | (tr2, .done true) => (tr2, false)
      | (tr2, .done false) =>
        match mark_primary env slots tr2 target_group with
        | (tr3, some _) => (tr3, false)
        | (tr3, none) => (tr3, true)

/-- The call `g_path_get_dirname` on a path with a directory part: the path without
its last component. -/
def g_path_get_dirname (path : String) : String :=
  String.mk (((path.data.reverse.dropWhile (fun c => c != '/')).drop 1).reverse)

/-- The function `do_install_network`: the calls it adds to the history and its
return value, which carries no error message. When no target group is found the
function leaves through `out` with the value `res` still has from
`load_manifest_mem`. -/
def do_install_network (env : Env) (cfg : RaucConfig) (slots : Option (List RaucSlot))
    (slotlist iter : List Nat) (bootname : Option String) (url : String)
    (tr : List Event) : List Event × Except Crash Bool :=
  match determine_slot_states slots slotlist bootname with
  | .error _ => (tr, .ok false)
  | .ok tbl =>
    match do_call env tr (.download_mem url) with
    | (tr0, false) => (tr0, .ok false)
    | (tr0, true) =>
      match do_call env tr0 (.download_mem (url ++ ".sig")) with
      | (tr1, false) => (tr1, .ok false)
      | (tr1, true) =>
        match do_call env tr1 .cms_verify with
        | (tr2, false) => (tr2, .ok false)
        | (tr2, true) =>
          match do_call env tr2 .load_manifest_mem with
          | (tr3, false) => (tr3, .ok false)
          | (tr3, true) =>
            match determine_target_install_group tbl iter (env.manifest tr3) with
            | .error c => (tr3, .error c)
            | .ok none => (tr3, .ok true)
            | .ok (some target_group) =>
              match optional_handler env (g_path_get_dirname url) cfg.preinstall_handler
                  tr3 with
              | (tr4, .crash c) => (tr4, .error c)
              | (tr4, .failure _) => (tr4, .ok false)
              | (tr4, .success) =>
                match launch_and_wait_network_handler env cfg tbl (g_path_get_dirname url)
                    (env.manifest tr3) target_group tr4 with
                | (tr5, false) => (tr5, .ok false)
                | (tr5, true) =>
                  match optional_handler env (g_path_get_dirname url)
                      cfg.postinstall_handler tr5 with
                  | (tr6, .crash c) => (tr6, .error c)
                  | (tr6, .failure _) => (tr6, .ok false)
                  | (tr6, .success) => (tr6, .ok true)

/-! ## The install worker (`install_thread`, `install_run`) -/

/-- The call `g_str_has_suffix(name, ".raucb")`. -/
def has_raucb_suffix (name : String) : Bool :=
  ".raucb".data.reverse.isPrefixOf name.data.reverse

/-- What `install_thread` leaves behind: the history (the `status` events in it are
the messages pushed to the status queue of the request, in order), the process-wide
last error, the field `status_result` of the request (-2 until the worker sets it)
and, when the worker did not get to its end, what stopped it. -/
structure InstallEnd where
  trace : List Event
  last_error : String
  status_result : Int
  crashed : Option Crash
  deriving DecidableEq, Repr

/-- The end of `install_thread` (lines 1312-1319): store the result, push
`finished`. -/
def install_finish (tr : List Event) (last_error : String) (result : Int) : InstallEnd :=
  { trace := install_args_update tr "finished", last_error := last_error,
    status_result := result, crashed := none }

/-- The function `install_thread` for the request `name`. The last error is cleared
first; the status result of a request is -2 when the worker starts. -/
def install_thread (env : Env) (cfg : RaucConfig) (slots : Option (List RaucSlot))
    (slotlist iter : List Nat) (bootname : Option String) (name : String)
    (tr : List Event) : InstallEnd :=
  if has_raucb_suffix name then
    match do_install_bundle env cfg slots slotlist iter bootname name
        (install_args_update tr "started") with
    | (tr1, .success) => install_finish tr1 "" 0
    | (tr1, .failure msg) => install_finish (install_args_update tr1 msg) msg 1
    | (tr1, .crash c) =>
      { trace := tr1, last_error := "", status_result := -2, crashed := some c }
  else
    match do_install_network env cfg slots slotlist iter bootname name
        (install_args_update tr "started") with
    | (tr1, .ok true) => install_finish tr1 "" 0
    | (tr1, .ok false) => install_finish tr1 "" 1
    | (tr1, .error c) =>
      { trace := tr1, last_error := "", status_result := -2, crashed := some c }

/-- The messages pushed to the status queue, in the order of the pushes. -/
def status_messages (tr : List Event) : List String :=
  tr.filterMap (fun e =>
    match e.call with
    | .status msg => some msg
    | _ => none)

/-- What a call of `install_run` leaves behind: its return value (`none` when it
does not return), the busy flag, and the requests for which a worker thread was
started. -/
structure RunEnd where
  returned : Option Bool
  busy : Bool
  workers : List String
  deriving DecidableEq, Repr

/-- The function `install_run` for the request `name`, called with the busy flag
`busy`. The function `r_context_set_busy` of context.c is not part of the sources
at hand and is a parameter: from the flag and the value asked for it gives the new
flag, or does not return (`none`). `thread_created` tells whether `g_thread_new`
returns a thread. -/
def install_run (r_context_set_busy : Bool → Bool → Option Bool) (thread_created : Bool)
    (busy : Bool) (name : String) : RunEnd :=
  match r_context_set_busy busy true with
  | none => { returned := none, busy := busy, workers := [] }
  | some b =>
    if thread_created then { returned := some true, busy := b, workers := [name] }
    else { returned := some false, busy := b, workers := [] }

/-- The function `install_done`, which the worker has the main loop call at its
end: after the cleanup callback of the request it asks `r_context_set_busy` to clear
the busy flag. -/
def install_done (r_context_set_busy : Bool → Bool → Option Bool) (busy : Bool) :
    Option Bool :=
  r_context_set_busy busy false

/-- Modelled from the spec: the function `r_context_set_busy` of context.c, which
sets the busy flag ("set on entry and cleared on terminal cleanup"). -/
def r_context_set_busy_store (_busy value : Bool) : Option Bool := some value

/-- The call of `install_run` was rejected: it returned failure, started no worker
and left the busy flag as it was. -/
def rejected (busy : Bool) (r : RunEnd) : Prop :=
  r.returned = some false ∧ r.workers = [] ∧ r.busy = busy

/-! ## Image copy (`copy_image`, `r_copy_stream_with_progress`) -/

/-- What the calls of `copy_image` to the file system answer. -/
structure CopyWorld where
  /-- `g_file_read` returns a stream. -/
  file_read_ok : Bool
  /-- The seek to the end of the source succeeds. -/
  seek_end_ok : Bool
  /-- The position `g_seekable_tell` reports at the end of the source. -/
  imgsize : Int
  /-- The seek back to the start of the source succeeds. -/
  seek_set_ok : Bool
  /-- `open(dest, O_WRONLY)` returns a descriptor. -/
  open_ok : Bool
  /-- `g_unix_output_stream_new` returns a stream. -/
  outstream_ok : Bool
  /-- The ioctl `UBI_IOCVOLUP` succeeds. -/
  ubi_volume_update_ok : Bool
  /-- The result of `g_output_stream_splice`: the number of bytes moved, -1 on error. -/
  spliced : Int
  /-- The message of the error a failed call reports. -/
  error_message : String

/-- The function `copy_image` of install.c (lines 579-671): `none` for success
(TRUE), else the message of the error it sets. -/
def copy_image (w : CopyWorld) (fs_type : String) : Option String :=
  if !w.file_read_ok then some ("failed to open file for reading: " ++ w.error_message)
  else if !w.seek_end_ok then some ("src image seek failed: " ++ w.error_message)
  else if !w.seek_set_ok then some ("src image seek failed: " ++ w.error_message)
  else if w.imgsize = 0 then some "Input image is empty"
  else if !w.open_ok then some ("opening output device failed: " ++ w.error_message)
  else if !w.outstream_ok then some ("failed to open file for writing: " ++ w.error_message)
  else if fs_type = "ubifs" && !w.ubi_volume_update_ok then
    some ("ubi volume update failed: " ++ w.error_message)
  else if w.spliced = -1 then some ("failed splicing data: " ++ w.error_message)
  else if w.spliced ≠ w.imgsize then some "image size and written size differ!"
  else none

/-- What `r_copy_stream_with_progress` returns together with what it did: the
return value, the sum of the sizes of the chunks written (`sum_size`) and the
percentages passed to `r_context_set_step_percentage`. -/
structure CopyResult where
  ok : Bool
  sum_size : Nat
  percentages : List Nat
  deriving DecidableEq, Repr

/-- The end of one turn of the copy loop after a chunk of `n` bytes was written:
add it to the sum, report the percentage if it changed and a progress context is
active. The result is the new sum, the new last percentage and the new reports. -/
def copy_progress (size : Nat) (progress : Bool) (n sum : Nat) (last_percent : Int)
    (reported : List Nat) : Nat × Int × List Nat :=
  if progress && ((((sum + n) * 100 / size : Nat) : Int) ≠ last_percent) then
    (sum + n, (((sum + n) * 100 / size : Nat) : Int), reported ++ [(sum + n) * 100 / size])
  else (sum + n, last_percent, reported)

/-- The loop of `r_copy_stream_with_progress`. `reads` are the results of the
successive `g_input_stream_read` calls of at most 8192 bytes (`none` for the error
-1), after which the stream is at its end and a read returns 0; `write_ok sum n`
tells whether `g_output_stream_write_all` of `n` bytes succeeds after `sum` bytes.
The loop ends after the first chunk of size 0. -/
def copy_stream_loop (size : Nat) (progress : Bool) (write_ok : Nat → Nat → Bool) :
    List (Option Nat) → Nat → Int → List Nat → CopyResult
  | [], sum, last_percent, reported =>
    if !write_ok sum 0 then ⟨false, sum, reported⟩
    else ⟨true, (copy_progress size progress 0 sum last_percent reported).1,
      (copy_progress size progress 0 sum last_percent reported).2.2⟩
  | none :: _, sum, _, reported => ⟨false, sum, reported⟩
  | some n :: rest, sum, last_percent, reported =>
    if !write_ok sum n then ⟨false, sum, reported⟩
    else if n = 0 then
      ⟨true, (copy_progress size progress n sum last_percent reported).1,
        (copy_progress size progress n sum last_percent reported).2.2⟩
    else
      copy_stream_loop size progress write_ok rest
        (copy_progress size progress n sum last_percent reported).1
        (copy_progress size progress n sum last_percent reported).2.1
        (copy_progress size progress n sum last_percent reported).2.2

/-- The function `r_copy_stream_with_progress` of update_utils.c, called with
streams that are not NULL: a negative size is refused, size 0 copies nothing. -/
def r_copy_stream_with_progress (reads : List (Option Nat)) (write_ok : Nat → Nat → Bool)
    (size : Int) (progress : Bool) : CopyResult :=
  if size < 0 then ⟨false, 0, []⟩
  else if size = 0 then ⟨true, 0, []⟩
  else copy_stream_loop size.toNat progress write_ok reads 0 (-1) []

/-- The number of bytes a stream delivers up to its end: the sum of the chunk sizes
before the first chunk of size 0 or the end of the list. -/
def chunk_total : List (Option Nat) → Nat
  | [] => 0
  | none :: _ => 0
  | some n :: rest => if n = 0 then 0 else n + chunk_total rest

/-- A file system in which every call of `copy_image` succeeds, for an image of
`imgsize` bytes of which `spliced` bytes reach the device. -/
def copy_world (imgsize spliced : Int) : CopyWorld :=
  { file_read_ok := true, seek_end_ok := true, imgsize := imgsize, seek_set_ok := true,
    open_ok := true, outstream_ok := true, ubi_volume_update_ok := true,
    spliced := spliced, error_message := "" }

/-! ## Predicates on traces -/

/-- The event is a call of `r_boot_set_state`. -/
def is_set_state (e : Event) : Bool :=
  match e.call with
  | .boot_set_state _ _ => true
  | _ => false

/-- The event is a call of `r_boot_set_primary`. -/
def is_set_primary (e : Event) : Bool :=
  match e.call with
  | .boot_set_primary _ => true
  | _ => false

/-- The event is a call of `copy_image`, the image write. -/
def is_copy_image (e : Event) : Bool :=
  match e.call with
  | .copy_image _ _ _ => true
  | _ => false

/-- The call is a handler invocation, a bootloader call, a slot mount, an image copy
or a write of a slot status file. -/
def touches_slots (c : Call) : Bool :=
  match c with
  | .handler _ _ => true
  | .boot_set_state _ _ => true
  | .boot_set_primary _ => true
  | .mount_slot _ _ => true
  | .copy_image _ _ _ => true
  | .save_slot_status _ _ _ => true
  | _ => false

/-- The events `new` show that the image was processed successfully: either it was
skipped as already correct, or it was copied to the device of its target slot and
the slot status with its digest was written, both with success. -/
def image_done (slots : List RaucSlot) (target_group : List (String × Nat))
    (cwd mountpoint : String) (new : List Event) (mfimage : RaucImage) : Prop :=
  (⟨.status ("Skipping update for correct image " ++ mfimage.filename), true⟩ : Event) ∈ new ∨
  ∃ dest_slot, g_hash_table_lookup target_group mfimage.slotclass = some dest_slot ∧
    (⟨.copy_image (srcimagepath cwd mfimage) (slot_device slots dest_slot)
        (slot_type slots dest_slot), true⟩ : Event) ∈ new ∧
    (⟨.save_slot_status (g_build_filename mountpoint "slot.raucs") "ok"
        mfimage.checksum.digest, true⟩ : Event) ∈ new

/-- A slot in the state every slot has before `determine_slot_states` runs. -/
def mkSlot (name sclass device : String) (bootname : Option String) (parent : Option Nat) :
    RaucSlot :=
  { name := name, sclass := sclass, device := device, type := "ext4",
    bootname := bootname, parent := parent, state := ST_UNKNOWN }

/-- A base slot, its child and its grandchild. -/
def chain_table : List RaucSlot :=
  [mkSlot "rootfs.0" "rootfs" "/dev/sda1" (some "A") none,
   mkSlot "appfs.0" "appfs" "/dev/sda2" none (some 0),
   mkSlot "data.0" "data" "/dev/sda3" none (some 1)]

/-- Two base slots; the bootname of the second is the device of the first. -/
def clash_table : List RaucSlot :=
  [mkSlot "rootfs.0" "rootfs" "system0" (some "A") none,
   mkSlot "rootfs.1" "rootfs" "system1" (some "system0") none]

/-- Two boot partitions carrying the bootnames, each with a root filesystem child. -/
def boot_table : List RaucSlot :=
  [mkSlot "boot.0" "boot" "/dev/sda1" (some "A") none,
   mkSlot "rootfs.0" "rootfs" "/dev/sda2" none (some 0),
   mkSlot "boot.1" "boot" "/dev/sdb1" (some "B") none,
   mkSlot "rootfs.1" "rootfs" "/dev/sdb2" none (some 2)]

/-- The usual A/B layout: two root slots, each with an application child. -/
def ab_table : List RaucSlot :=
  [mkSlot "rootfs.0" "rootfs" "/dev/sda1" (some "A") none,
   mkSlot "rootfs.1" "rootfs" "/dev/sdb1" (some "B") none,
   mkSlot "appfs.0" "appfs" "/dev/sda2" none (some 0),
   mkSlot "appfs.1" "appfs" "/dev/sdb2" none (some 1)]

/-- An image of the given class. -/
def mkImage (slotclass filename digest : String) : RaucImage :=
  { slotclass := slotclass, checksum := { type := "sha256", digest := digest },
    filename := filename }

/-- A file of the given class. -/
def mkFile (slotclass destname digest : String) : RaucFile :=
  { slotclass := slotclass, destname := destname,
    checksum := { type := "sha256", digest := digest }, filename := destname }

/-- A manifest with the given images and files and no custom handler. -/
def mkManifest (images : List RaucImage) (files : List RaucFile) : RaucManifest :=
  { update_compatible := "demo", handler_name := none, handler_args := none,
    images := images, files := files }

/-- The A/B layout after `determine_slot_states` found slot A booted. -/
def ab_booted_table : List RaucSlot :=
  mark_group_members (set_slot_state ab_table 0 ST_BOOTED) [0, 1, 2, 3]

/-- A manifest with an image for the root and for the application class. -/
def ab_manifest : RaucManifest :=
  mkManifest [mkImage "rootfs" "rootfs.img" "D1", mkImage "appfs" "appfs.img" "D2"] []

/-- The run `r`, started after the history `tr`, only added calls: the new events
all satisfy `P`, and if the run ended with success they satisfy `Q` as a whole. -/
def Ext (P : Event → Prop) (Q : List Event → Prop) (tr : List Event)
    (r : List Event × Outcome) : Prop :=
  ∃ new, r.1 = tr ++ new ∧ (∀ e ∈ new, P e) ∧ (r.2 = .success → Q new)

/-- The run `r`, started after the history `tr`, only added calls: the new events
all satisfy `P`, and together with the way the run ended they satisfy `R`. -/
def Run (P : Event → Prop) (R : List Event → Outcome → Prop) (tr : List Event)
    (r : List Event × Outcome) : Prop :=
  ∃ new, r.1 = tr ++ new ∧ (∀ e ∈ new, P e) ∧ R new r.2

/-- The call is a bootloader call, a slot mount, an image copy or a write of a slot
status file. -/
def writes_slot (c : Call) : Bool :=
  match c with
  | .boot_set_state _ _ => true
  | .boot_set_primary _ => true
  | .mount_slot _ _ => true
  | .copy_image _ _ _ => true
  | .save_slot_status _ _ _ => true
  | _ => false

/-- How a bundle install with an incompatible manifest ends: not with success. It
ends with the error `Compatible mismatch` of the install handler, the calls to
unmount the bundle and to remove its mount point being the last two of the run and
the events `need` being among those before them; unless a call other than these two
failed, the run did not return, or the slot states or the target group were not
found. The manifest is the one read after the history `read`. -/
def MismatchEnd (env : Env) (slots : Option (List RaucSlot)) (slotlist iter : List Nat)
    (bootname : Option String) (mountpoint : String) (read need new : List Event)
    (o : Outcome) : Prop :=
  o ≠ .success ∧
  ((o = .failure "Handler error: Compatible mismatch" ∧
     ∃ pre a b, new = pre ++ [⟨.umount_bundle mountpoint, a⟩, ⟨.rmdir mountpoint, b⟩] ∧
       ∀ e ∈ need, e ∈ pre) ∨
   (∃ e ∈ new, e.ok = false ∧ e.call ≠ .umount_bundle mountpoint ∧
     e.call ≠ .rmdir mountpoint) ∨
   (∃ c, o = .crash c) ∨
   (∃ err, determine_slot_states slots slotlist bootname = .error err) ∨
   (∃ tbl, determine_slot_states slots slotlist bootname = .ok tbl ∧
     determine_target_install_group tbl iter (env.manifest read) = .ok none))

/-- The call is the run of a handler process. -/
def is_handler_call (c : Call) : Bool :=
  match c with
  | .handler _ _ => true
  | _ => false

/-- How a bundle install ends whose manifest names a custom handler that exits
non-zero, after the history `base`: not with success. Its last three calls are the
handler `hpath`, the unmount of the bundle and the removal of its mount point, and
its error is `Handler error: ` followed by the error reported after the handler
exited; unless a call before the handler failed (mount point, bundle mount,
manifest), the run ended with the failed pre-install handler, the run did not
return, the slot states or the target group were not found, or the manifest is not
compatible with the system. The manifest is the one read after the history `read`. -/
def HandlerEnd (env : Env) (cfg : RaucConfig) (slots : Option (List RaucSlot))
    (slotlist iter : List Nat) (bootname : Option String) (mountpoint hpath : String)
    (read base new : List Event) (o : Outcome) : Prop :=
  o ≠ .success ∧
  ((∃ pre a b,
      new = pre ++ [⟨.handler mountpoint hpath, false⟩, ⟨.umount_bundle mountpoint, a⟩,
        ⟨.rmdir mountpoint, b⟩] ∧
      o = .failure ("Handler error: " ++
        env.error_message (base ++ pre ++ [⟨.handler mountpoint hpath, false⟩]))) ∨
   (∃ e ∈ new, e.ok = false ∧ is_handler_call e.call = false ∧
     e.call ≠ .umount_bundle mountpoint ∧ e.call ≠ .rmdir mountpoint) ∨
   (∃ ph pre, cfg.preinstall_handler = some ph ∧
     new = pre ++ [⟨.handler mountpoint ph, false⟩]) ∨
   (∃ c, o = .crash c) ∨
   (∃ err, determine_slot_states slots slotlist bootname = .error err) ∨
   (∃ tbl, determine_slot_states slots slotlist bootname = .ok tbl ∧
     determine_target_install_group tbl iter (env.manifest read) = .ok none) ∨
   verify_compatible cfg (env.manifest read) = false)

/-- The configuration `demo_config` of a system with another compatible string. -/
def other_config : RaucConfig :=
  { system_compatible := "other", system_bootloader := "grub", mount_prefix := "/mnt/rauc",
    preinstall_handler := none, postinstall_handler := none }

/-- An environment in which every call succeeds, every file exists and no slot
status matches. -/
def all_ok_env : Env :=
  { result := fun _ _ => true
    error_message := fun _ => ""
    file_exists := fun _ _ => true
    loaded_digest := fun _ => ""
    manifest := fun _ => ab_manifest
    digest_field_bytes := fun _ => "?"
    handler_output := fun _ _ => [] }

/-- A manifest with an image for a class `data` that the A/B layout does not have. -/
def data_manifest : RaucManifest :=
  mkManifest [mkImage "rootfs" "rootfs.img" "D1", mkImage "data" "data.img" "D3"] []

/-- The environment `all_ok_env` with a bundle that holds `data_manifest`. -/
def data_env : Env := { all_ok_env with manifest := fun _ => data_manifest }

/-- A manifest with an image for the class `data` and an image for a class `nosuch`
that no slot has. -/
def nosuch_manifest : RaucManifest :=
  mkManifest [mkImage "data" "data.img" "D3", mkImage "nosuch" "nosuch.img" "D4"] []

/-- The environment `all_ok_env` with a bundle that holds `nosuch_manifest`. -/
def nosuch_env : Env := { all_ok_env with manifest := fun _ => nosuch_manifest }

/-- The manifest `nosuch_manifest` with its two images in the other order. -/
def nosuch_first_manifest : RaucManifest :=
  mkManifest [mkImage "nosuch" "nosuch.img" "D4", mkImage "data" "data.img" "D3"] []

/-- The environment `all_ok_env` with a bundle that holds `nosuch_first_manifest`. -/
def nosuch_first_env : Env :=
  { all_ok_env with manifest := fun _ => nosuch_first_manifest }

/-- The text `pat` occurs somewhere in the text `s`. -/
def contains_text (pat : List Char) : List Char → Bool
  | [] => pat.isPrefixOf []
  | c :: cs => pat.isPrefixOf (c :: cs) || contains_text pat cs

/-- A manifest with one image and the custom handler `hook.sh`. -/
def handler_manifest : RaucManifest :=
  { update_compatible := "demo", handler_name := some "hook.sh", handler_args := none,
    images := [mkImage "rootfs" "rootfs.img" "D1"], files := [] }

/-- An environment whose bundle holds `handler_manifest`; the handler prints the line
`<< error disk full` and exits with status 1, every other call succeeds. -/
def disk_full_env : Env :=
  { all_ok_env with
    manifest := fun _ => handler_manifest
    result := fun _ c => !is_handler_call c
    error_message := fun _ => "Child process exited with code 1"
    handler_output := fun _ _ => ["<< error disk full"] }

/-- A manifest with the single image `rootfs.img` of digest `D1`. -/
def rootfs_manifest : RaucManifest :=
  mkManifest [mkImage "rootfs" "rootfs.img" "D1"] []

/-- The bytes of a pointer into the heap (0x55d5c3a1b2e0, lowest byte first) read as
a string: what is found at the address of a `checksum.digest` field. -/
def pointer_bytes : String :=
  String.mk [Char.ofNat 224, Char.ofNat 178, Char.ofNat 161, Char.ofNat 195,
    Char.ofNat 213, Char.ofNat 85]

/-- The second install of the same bundle: every call succeeds and the slot status
of the target slot already holds the digest `D1` of the manifest image. -/
def reinstall_env : Env :=
  { all_ok_env with
    manifest := fun _ => rootfs_manifest
    loaded_digest := fun _ => "D1"
    digest_field_bytes := fun _ => pointer_bytes }

/-- An environment in which every handler process exits non-zero and every other
call succeeds. -/
def handlers_fail_env : Env :=
  { all_ok_env with
    result := fun _ c => !is_handler_call c
    error_message := fun _ => "Child process exited with code 1" }

/-- A configuration with a pre-install handler. -/
def pre_handler_config : RaucConfig :=
  { system_compatible := "demo", system_bootloader := "grub", mount_prefix := "/mnt/rauc",
    preinstall_handler := some "/usr/lib/rauc/pre-install.sh", postinstall_handler := none }

/-- An environment in which no download succeeds and every other call does. -/
def offline_env : Env :=
  { all_ok_env with
    result := fun _ c =>
      match c with
      | .download_mem _ => false
      | _ => true
    error_message := fun _ => "Failed to download manifest" }

/-- A configuration without handlers. -/
def demo_config : RaucConfig :=
  { system_compatible := "demo", system_bootloader := "grub", mount_prefix := "/mnt/rauc",
    preinstall_handler := none, postinstall_handler := none }

/-- What the selection loop keeps true of the tables `bases` and `targetgroup`: the
keys of the target group are distinct, every entry is an inactive slot of the class
that is its key, and the base slot of every entry is the one reserved in `bases` for
the class of that base. -/
def GroupInv (slots : List RaucSlot) (bases targetgroup : List (String × Nat)) : Prop :=
  (targetgroup.map Prod.fst).Nodup ∧
  (∀ c k, (c, k) ∈ targetgroup →
    ∃ s, slots[k]? = some s ∧ s.state = ST_INACTIVE ∧ s.sclass = c) ∧
  (∀ c k, (c, k) ∈ targetgroup →
    ∃ b kb, get_inactive_base_slot slots k = .ok (some b) ∧
      g_hash_table_lookup bases (slot_sclass slots b) = some kb ∧
      slot_name slots kb = slot_name slots b)

/-- Only the slot at position `b` carries the booted bit: its state is `ST_BOOTED`,
possibly with the inactive flag added; every other state is below 4. -/
def BootedOnlyAt (tbl : List RaucSlot) (b : Nat) : Prop :=
  ∀ j s, tbl[j]? = some s →
    (j = b → s.state = 5 ∨ s.state = 7) ∧ (j ≠ b → s.state < 4)

/-! ## Properties of the slot states -/

theorem length_set_slot_state (tbl : List RaucSlot) (k st : Nat) :
    (set_slot_state tbl k st).length = tbl.length := by
  induction tbl generalizing k with
  | nil => rfl
  | cons s rest ih =>
    cases k with
    | zero => rfl
    | succ k => simp [set_slot_state, ih]

theorem getElem?_set_slot_state_ne (tbl : List RaucSlot) (k st j : Nat) (h : j ≠ k) :
    (set_slot_state tbl k st)[j]? = tbl[j]? := by
  induction tbl generalizing k j with
  | nil => rfl
  | cons s rest ih =>
    cases k with
    | zero =>
      cases j with
      | zero => exact absurd rfl h
      | succ j => simp [set_slot_state]
    | succ k =>
      cases j with
      | zero => simp [set_slot_state]
      | succ j =>
        simp only [set_slot_state, List.getElem?_cons_succ]
        exact ih k j (fun e => h (by rw [e]))

theorem getElem?_set_slot_state_self (tbl : List RaucSlot) (k st : Nat) :
    (set_slot_state tbl k st)[k]? = (tbl[k]?).map (fun s => { s with state := st }) := by
  induction tbl generalizing k with
  | nil => rfl
  | cons s rest ih =>
    cases k with
    | zero => simp [set_slot_state]
    | succ k =>
      simp only [set_slot_state, List.getElem?_cons_succ]
      exact ih k

theorem lor_flag_small (x f : Nat) (hx : x < 4) (hf : f = 1 ∨ f = 2) : x ||| f < 4 := by
  have h : ∀ y, y < 4 → y ||| 1 < 4 ∧ y ||| 2 < 4 := by decide
  rcases hf with rfl | rfl
  · exact (h x hx).1
  · exact (h x hx).2

theorem lor_flag_booted (x f : Nat) (hx : x = 5 ∨ x = 7) (hf : f = 1 ∨ f = 2) :
    x ||| f = 5 ∨ x ||| f = 7 := by
  rcases hx with rfl | rfl <;> rcases hf with rfl | rfl <;> decide

theorem BootedOnlyAt_set (tbl : List RaucSlot) (b k : Nat) (s : RaucSlot) (f : Nat)
    (h : BootedOnlyAt tbl b) (hk : tbl[k]? = some s) (hf : f = 1 ∨ f = 2) :
    BootedOnlyAt (set_slot_state tbl k (s.state ||| f)) b := by
  intro j t ht
  by_cases hjk : j = k
  · subst hjk
    rw [getElem?_set_slot_state_self, hk] at ht
    simp only [Option.map_some', Option.some.injEq] at ht
    subst ht
    refine ⟨fun e => lor_flag_booted _ _ ((h j s hk).1 e) hf,
      fun e => lor_flag_small _ _ ((h j s hk).2 e) hf⟩
  · rw [getElem?_set_slot_state_ne _ _ _ _ hjk] at ht
    exact h j t ht

theorem BootedOnlyAt_mark_group_member (tbl : List RaucSlot) (b k : Nat)
    (h : BootedOnlyAt tbl b) : BootedOnlyAt (mark_group_member tbl k) b := by
  unfold mark_group_member
  cases hk : tbl[k]? with
  | none => exact h
  | some s =>
    dsimp only
    split
    · split
      · exact BootedOnlyAt_set tbl b k s ST_ACTIVE h hk (Or.inl rfl)
      · exact BootedOnlyAt_set tbl b k s ST_INACTIVE h hk (Or.inr rfl)
    · split
      · exact BootedOnlyAt_set tbl b k s ST_INACTIVE h hk (Or.inr rfl)
      · exact h

theorem BootedOnlyAt_mark_group_members (slotlist : List Nat) (tbl : List RaucSlot) (b : Nat)
    (h : BootedOnlyAt tbl b) : BootedOnlyAt (mark_group_members tbl slotlist) b := by
  induction slotlist generalizing tbl with
  | nil => exact h
  | cons k ks ih => exact ih _ (BootedOnlyAt_mark_group_member tbl b k h)

theorem length_mark_group_member (tbl : List RaucSlot) (k : Nat) :
    (mark_group_member tbl k).length = tbl.length := by
  unfold mark_group_member
  cases tbl[k]? with
  | none => rfl
  | some s =>
    dsimp only
    split
    · split <;> exact length_set_slot_state _ _ _
    · split
      · exact length_set_slot_state _ _ _
      · rfl

theorem length_mark_group_members (slotlist : List Nat) (tbl : List RaucSlot) :
    (mark_group_members tbl slotlist).length = tbl.length := by
  induction slotlist generalizing tbl with
  | nil => rfl
  | cons k ks ih => exact (ih _).trans (length_mark_group_member tbl k)

theorem find_booted_lt (tbl : List RaucSlot) (b : String) (slotlist : List Nat) (k : Nat)
    (h : find_booted tbl b slotlist = some k) : k < tbl.length := by
  induction slotlist with
  | nil => simp [find_booted] at h
  | cons j js ih =>
    unfold find_booted at h
    cases hj : tbl[j]? with
    | none => rw [hj] at h; exact ih h
    | some s =>
      rw [hj] at h
      simp only at h
      have hlt : j < tbl.length := by
        by_contra hc
        rw [List.getElem?_eq_none (Nat.le_of_not_lt hc)] at hj
        exact Option.noConfusion hj
      split at h
      · cases h; exact hlt
      · split at h
        · cases h; exact hlt
        · exact ih h

theorem countP_eq_one_of_unique {α : Type} (p : α → Bool) :
    ∀ (l : List α) (b : Nat), b < l.length →
      (∀ j a, l[j]? = some a → (p a = true ↔ j = b)) → l.countP p = 1 := by
  intro l
  induction l with
  | nil => intro b hb; exact absurd hb (Nat.not_lt_zero _)
  | cons a l ih =>
    intro b hb h
    cases b with
    | zero =>
      have ha : p a = true := (h 0 a (by simp)).2 rfl
      have hz : l.countP p = 0 := by
        rw [List.countP_eq_zero]
        intro x hx
        obtain ⟨j, hj⟩ := List.getElem?_of_mem hx
        intro hpx
        have := (h (j + 1) x (by simpa using hj)).1 hpx
        exact Nat.succ_ne_zero j this
      rw [List.countP_cons_of_pos _ _ ha, hz]
    | succ b =>
      have ha : ¬ p a = true := fun hpa => Nat.succ_ne_zero b ((h 0 a (by simp)).1 hpa).symm
      rw [List.countP_cons_of_neg _ _ ha]
      refine ih b (Nat.lt_of_succ_lt_succ hb) ?_
      intro j x hj
      have := h (j + 1) x (by simpa using hj)
      rw [this]
      exact Nat.succ_inj'

theorem is_booted_of_BootedOnlyAt (tbl : List RaucSlot) (b : Nat) (h : BootedOnlyAt tbl b)
    (j : Nat) (s : RaucSlot) (hj : tbl[j]? = some s) : is_booted s = true ↔ j = b := by
  have hsmall : ∀ x, x < 4 → ¬ (x &&& 5 = 5) := by decide
  constructor
  · intro hb
    by_contra hne
    have hlt := (h j s hj).2 hne
    have : s.state &&& 5 = 5 := by simpa [is_booted, ST_BOOTED, ST_ACTIVE] using hb
    exact hsmall _ hlt this
  · intro e
    have hb : s.state &&& ST_BOOTED = ST_BOOTED := by
      rcases (h j s hj).1 e with h5 | h7
      · rw [h5]; decide
      · rw [h7]; decide
    simpa [is_booted] using hb

theorem BootedOnlyAt_init (tbl : List RaucSlot) (b : Nat)
    (hinit : ∀ s ∈ tbl, s.state = ST_UNKNOWN) :
    BootedOnlyAt (set_slot_state tbl b ST_BOOTED) b := by
  intro j s hs
  by_cases hjb : j = b
  · subst hjb
    rw [getElem?_set_slot_state_self] at hs
    cases ht : tbl[j]? with
    | none => rw [ht] at hs; exact Option.noConfusion hs
    | some t =>
      rw [ht] at hs
      simp only [Option.map_some', Option.some.injEq] at hs
      subst hs
      exact ⟨fun _ => Or.inl rfl, fun e => absurd rfl e⟩
  · rw [getElem?_set_slot_state_ne _ _ _ _ hjb] at hs
    have hmem : s ∈ tbl := List.getElem?_mem hs
    refine ⟨fun e => absurd e hjb, fun _ => ?_⟩
    rw [hinit s hmem]
    decide

theorem find_booted_iff (tbl : List RaucSlot) (b : String) (slotlist : List Nat) (k : Nat) :
    find_booted tbl b slotlist = some k ↔
      ∃ pre post, slotlist = pre ++ k :: post ∧ key_matches tbl b k = true ∧
        ∀ j ∈ pre, key_matches tbl b j = false := by
  induction slotlist with
  | nil => simp [find_booted]
  | cons i is ih =>
    have hstep : find_booted tbl b (i :: is) =
        if key_matches tbl b i = true then some i else find_booted tbl b is := by
      rw [find_booted]
      unfold key_matches slot_matches
      cases tbl[i]? with
      | none => simp
      | some s =>
        by_cases h1 : s.bootname = some b
        · simp [h1]
        · by_cases h2 : s.device = b
          · simp [h2]
          · simp [h1, h2]
    rw [hstep]
    by_cases hm : key_matches tbl b i = true
    · rw [if_pos hm]
      constructor
      · intro e
        cases e
        exact ⟨[], is, rfl, hm, by simp⟩
      · rintro ⟨pre, post, hsplit, hk, hpre⟩
        cases pre with
        | nil =>
          simp only [List.nil_append, List.cons.injEq] at hsplit
          rw [hsplit.1]
        | cons p ps =>
          simp only [List.cons_append, List.cons.injEq] at hsplit
          have := hpre p (List.mem_cons_self _ _)
          rw [← hsplit.1, hm] at this
          exact Bool.noConfusion this
    · rw [if_neg hm, ih]
      have hf : key_matches tbl b i = false := by simpa using hm
      constructor
      · rintro ⟨pre, post, hsplit, hk, hpre⟩
        refine ⟨i :: pre, post, by simp [hsplit], hk, ?_⟩
        intro j hj
        rcases List.mem_cons.1 hj with rfl | hj
        · exact hf
        · exact hpre j hj
      · rintro ⟨pre, post, hsplit, hk, hpre⟩
        cases pre with
        | nil =>
          simp only [List.nil_append, List.cons.injEq] at hsplit
          rw [← hsplit.1] at hk
          exact absurd hk hm
        | cons p ps =>
          simp only [List.cons_append, List.cons.injEq] at hsplit
          exact ⟨ps, post, hsplit.2, hk, fun j hj => hpre j (List.mem_cons_of_mem _ hj)⟩

theorem find_booted_eq_none_iff (tbl : List RaucSlot) (b : String) (slotlist : List Nat) :
    find_booted tbl b slotlist = none ↔ ∀ k ∈ slotlist, key_matches tbl b k = false := by
  constructor
  · intro h k hk
    by_contra hm
    have hm' : key_matches tbl b k = true := by simpa using hm
    -- the first matching key of the list would be found
    have : ∃ k', find_booted tbl b slotlist = some k' := by
      clear h
      induction slotlist with
      | nil => cases hk
      | cons i is ih =>
        by_cases hi : key_matches tbl b i = true
        · exact ⟨i, (find_booted_iff tbl b (i :: is) i).2 ⟨[], is, rfl, hi, by simp⟩⟩
        · rcases List.mem_cons.1 hk with rfl | hk'
          · exact absurd hm' hi
          · obtain ⟨k', hk'⟩ := ih hk'
            obtain ⟨pre, post, hsplit, hkm, hpre⟩ := (find_booted_iff tbl b is k').1 hk'
            refine ⟨k', (find_booted_iff tbl b (i :: is) k').2
              ⟨i :: pre, post, by simp [hsplit], hkm, ?_⟩⟩
            intro j hj
            rcases List.mem_cons.1 hj with rfl | hj
            · simpa using hi
            · exact hpre j hj
    obtain ⟨k', hk'⟩ := this
    rw [h] at hk'
    exact Option.noConfusion hk'
  · intro h
    cases hf : find_booted tbl b slotlist with
    | none => rfl
    | some k =>
      obtain ⟨pre, post, hsplit, hkm, _⟩ := (find_booted_iff tbl b slotlist k).1 hf
      have := h k (by rw [hsplit]; simp)
      rw [this] at hkm
      exact Bool.noConfusion hkm

/-! ## Claims on the slot states -/

/-- C4: the single pass that marks the group members reads the state of a parent
that the pass may not have visited yet. With the keys in the order grandchild,
child, base slot, `determine_slot_states` succeeds and leaves the grandchild `data.0`
inactive although its ancestor `rootfs.0` is the booted slot and its parent `appfs.0`
is active; `determine_target_install_group` then dereferences the NULL base of
`data.0`. In the order base, child, grandchild the same table makes `data.0` active. -/
theorem determine_slot_states_grandchild_inactive :
    (∀ s ∈ chain_table, s.state = ST_UNKNOWN) ∧
    (∃ tbl, determine_slot_states (some chain_table) [2, 1, 0] (some "A") = .ok tbl ∧
      tbl.map RaucSlot.state = [ST_BOOTED, ST_ACTIVE, ST_INACTIVE] ∧
      booted_self_or_ancestor tbl 3 2 = true ∧
      tbl[2]?.map is_active = some false ∧
      determine_target_install_group tbl [0, 1, 2]
        (mkManifest [mkImage "data" "data.img" "D3"] []) = .error .nullDeref) ∧
    (∃ tbl, determine_slot_states (some chain_table) [0, 1, 2] (some "A") = .ok tbl ∧
      tbl.map RaucSlot.state = [ST_BOOTED, ST_ACTIVE, ST_ACTIVE]) := by
  refine ⟨by decide, ⟨_, rfl, by decide, by decide, by decide, rfl⟩, ⟨_, rfl, by decide⟩⟩

/-- C5: whenever `determine_slot_states` succeeds on a slot table whose slots all
start in state unknown, exactly one slot of the resulting table has the booted
state (and the table keeps its size). -/
theorem determine_slot_states_one_booted (tbl : List RaucSlot) (slotlist : List Nat)
    (bootname : Option String) (tbl' : List RaucSlot)
    (hinit : ∀ s ∈ tbl, s.state = ST_UNKNOWN)
    (hok : determine_slot_states (some tbl) slotlist bootname = .ok tbl') :
    tbl'.length = tbl.length ∧ tbl'.countP is_booted = 1 := by
  unfold determine_slot_states at hok
  cases bootname with
  | none => simp at hok
  | some b =>
    simp only at hok
    cases hf : find_booted tbl b slotlist with
    | none => rw [hf] at hok; simp at hok
    | some k =>
      rw [hf] at hok
      simp only [Except.ok.injEq] at hok
      subst hok
      have hk : k < tbl.length := find_booted_lt tbl b slotlist k hf
      have hlen : (mark_group_members (set_slot_state tbl k ST_BOOTED) slotlist).length
          = tbl.length := by
        rw [length_mark_group_members, length_set_slot_state]
      refine ⟨hlen, ?_⟩
      have hinv := BootedOnlyAt_mark_group_members slotlist _ k (BootedOnlyAt_init tbl k hinit)
      exact countP_eq_one_of_unique is_booted _ k (by rw [hlen]; exact hk)
        (fun j s hj => is_booted_of_BootedOnlyAt _ k hinv j s hj)

/-- Witness of C5 on the A/B layout booted from slot A. -/
theorem determine_slot_states_one_booted_witness :
    (∀ s ∈ ab_table, s.state = ST_UNKNOWN) ∧
    determine_slot_states (some ab_table) [0, 1, 2, 3] (some "A") =
      .ok (mark_group_members (set_slot_state ab_table 0 ST_BOOTED) [0, 1, 2, 3]) ∧
    (mark_group_members (set_slot_state ab_table 0 ST_BOOTED) [0, 1, 2, 3]).length
        = ab_table.length ∧
    (mark_group_members (set_slot_state ab_table 0 ST_BOOTED) [0, 1, 2, 3]).countP is_booted
        = 1 :=
  ⟨by decide, rfl,
    determine_slot_states_one_booted ab_table [0, 1, 2, 3] (some "A") _ (by decide) rfl⟩

/-- C6: the child branch of the marking loop adds the inactive flag without looking
at the state the slot already has (the branch for slots without parent does look).
When the booted slot has a parent, as `rootfs.0` below (found through its device),
`determine_slot_states` succeeds and leaves the booted slot with both the active and
the inactive flag, state 7, and its base slot `boot.0` inactive. -/
theorem determine_slot_states_booted_child_both_flags :
    (∀ s ∈ boot_table, s.state = ST_UNKNOWN) ∧
    ∃ tbl, determine_slot_states (some boot_table) [0, 1, 2, 3] (some "/dev/sda2") = .ok tbl ∧
      tbl.map RaucSlot.state = [ST_INACTIVE, ST_BOOTED ||| ST_INACTIVE, ST_INACTIVE, ST_INACTIVE] ∧
      tbl[1]?.map is_booted = some true ∧
      tbl[1]?.map is_active = some true ∧
      tbl[1]?.map is_inactive = some true := by
  refine ⟨by decide, _, rfl, by decide, by decide, by decide, by decide⟩

/-- C7 (as stated, refuted): slot `rootfs.0` matches the identifier by its device and
comes first, slot `rootfs.1` matches it by its bootname; `determine_slot_states`
makes `rootfs.0` the booted slot, not the first slot whose bootname matches. -/
theorem determine_slot_states_device_match_first :
    find_booted clash_table "system0" [0, 1] = some 0 ∧
    spec_find_booted clash_table "system0" [0, 1] = some 1 ∧
    (∃ tbl, determine_slot_states (some clash_table) [0, 1] (some "system0") = .ok tbl ∧
      tbl.map is_booted = [true, false]) ∧
    find_booted clash_table "system0" [0, 1] ≠ spec_find_booted clash_table "system0" [0, 1] := by
  refine ⟨by decide, by decide, ⟨_, rfl, by decide⟩, by decide⟩

/-- C7 (amended): for every slot table, key order and identifier,
`determine_slot_states` picks the first slot in iteration order whose bootname or
device equals the identifier, marks it booted and goes on to the group marking; it
fails with `bootedSlotNotFound` exactly when no slot matches by bootname or device. -/
theorem determine_slot_states_picks_first_match (tbl : List RaucSlot) (slotlist : List Nat)
    (b : String) :
    (∀ k, find_booted tbl b slotlist = some k ↔
      ∃ pre post, slotlist = pre ++ k :: post ∧ key_matches tbl b k = true ∧
        ∀ j ∈ pre, key_matches tbl b j = false) ∧
    (∀ k, find_booted tbl b slotlist = some k →
      determine_slot_states (some tbl) slotlist (some b) =
        .ok (mark_group_members (set_slot_state tbl k ST_BOOTED) slotlist)) ∧
    (determine_slot_states (some tbl) slotlist (some b) = .error .bootedSlotNotFound ↔
      ∀ k ∈ slotlist, key_matches tbl b k = false) := by
  refine ⟨fun k => find_booted_iff tbl b slotlist k, ?_, ?_⟩
  · intro k hk
    simp [determine_slot_states, hk]
  · rw [← find_booted_eq_none_iff]
    cases hf : find_booted tbl b slotlist with
    | none => simp [determine_slot_states, hf]
    | some k => simp [determine_slot_states, hf]

/-- C8: the patterns of `get_cmdline_bootname` are not anchored at the start of a
token. On the command line `nfsroot=192.168.1.1:/srv/root root=/dev/nfs ip=dhcp` the
pattern for `root=` already matches inside the token `nfsroot=...`, so the function
returns `192.168.1.1:/srv/root`, while the value of the token `root=<value>` is
`/dev/nfs`. -/
theorem get_cmdline_bootname_matches_inside_token :
    get_cmdline_bootname (some "nfsroot=192.168.1.1:/srv/root root=/dev/nfs ip=dhcp\n") "grub"
      = some "192.168.1.1:/srv/root" ∧
    spec_cmdline_bootname "nfsroot=192.168.1.1:/srv/root root=/dev/nfs ip=dhcp\n" "grub"
      = some "/dev/nfs" := by
  decide

/-! ## Collected slot classes -/

theorem g_ptr_array_remove_fast_perm (arr : List String) (key : String) :
    (g_ptr_array_remove_fast arr key).Perm (arr.erase key) := by
  induction arr with
  | nil => exact List.Perm.refl _
  | cons x rest ih =>
    unfold g_ptr_array_remove_fast
    by_cases hx : x = key
    · subst hx
      rw [if_pos rfl, List.erase_cons_head]
      cases hl : rest.getLast? with
      | none =>
        rw [List.getLast?_eq_none_iff] at hl
        subst hl
        exact List.Perm.refl _
      | some l =>
        have hsplit : rest.dropLast ++ [l] = rest :=
          List.dropLast_append_getLast? l (by rw [hl]; exact rfl)
        have hp : (l :: rest.dropLast).Perm (rest.dropLast ++ [l]) :=
          (List.perm_append_singleton l rest.dropLast).symm
        rw [hsplit] at hp
        exact hp
    · rw [if_neg hx]
      have : (x :: rest).erase key = x :: rest.erase key := by
        rw [List.erase_cons]
        simp [hx]
      rw [this]
      exact List.Perm.cons x ih

theorem mem_remove_fast_append (arr : List String) (key c : String) :
    c ∈ g_ptr_array_remove_fast arr key ++ [key] ↔ c ∈ arr ∨ c = key := by
  rw [List.mem_append, (g_ptr_array_remove_fast_perm arr key).mem_iff, List.mem_singleton]
  constructor
  · rintro (h | h)
    · exact Or.inl (List.mem_of_mem_erase h)
    · exact Or.inr h
  · rintro (h | h)
    · by_cases hc : c = key
      · exact Or.inr hc
      · exact Or.inl ((List.mem_erase_of_ne hc).2 h)
    · exact Or.inr h

theorem nodup_remove_fast_append (arr : List String) (key : String) (h : arr.Nodup) :
    (g_ptr_array_remove_fast arr key ++ [key]).Nodup := by
  have hp : (g_ptr_array_remove_fast arr key ++ [key]).Perm (key :: arr.erase key) :=
    (List.perm_append_singleton key _).trans (List.Perm.cons key (g_ptr_array_remove_fast_perm arr key))
  rw [hp.nodup_iff, List.nodup_cons]
  exact ⟨h.not_mem_erase, h.erase key⟩

theorem mem_add_file_classes (fs : List RaucFile) (arr : List String) (c : String) :
    c ∈ add_file_classes arr fs ↔ c ∈ arr ∨ c ∈ fs.map (fun f => f.slotclass) := by
  induction fs generalizing arr with
  | nil => simp [add_file_classes]
  | cons f fs ih =>
    rw [add_file_classes, ih, mem_remove_fast_append]
    simp only [List.map_cons, List.mem_cons]
    tauto

theorem nodup_add_file_classes (fs : List RaucFile) (arr : List String) (h : arr.Nodup) :
    (add_file_classes arr fs).Nodup := by
  induction fs generalizing arr with
  | nil => exact h
  | cons f fs ih => exact ih _ (nodup_remove_fast_append arr f.slotclass h)

theorem getLast?_add_file_classes (fs : List RaucFile) (arr : List String) (f : RaucFile)
    (h : fs.getLast? = some f) : (add_file_classes arr fs).getLast? = some f.slotclass := by
  induction fs generalizing arr with
  | nil => simp at h
  | cons g gs ih =>
    rw [add_file_classes]
    cases gs with
    | nil =>
      simp only [List.getLast?_singleton, Option.some.injEq] at h
      subst h
      simp [add_file_classes]
    | cons g' gs' =>
      apply ih
      simpa [List.getLast?_cons_cons] using h

theorem mem_collect_slotclasses (m : RaucManifest) (c : String) :
    c ∈ collect_slotclasses m ↔ c ∈ referenced_classes m := by
  unfold collect_slotclasses referenced_classes
  rw [mem_add_file_classes, List.mem_append]

/-- C9 (as stated, refuted): with images for `rootfs`, `appfs`, `data` and a file for
`rootfs` the collected list is `data, appfs, rootfs`: removing `rootfs` moved the
last entry `data` to the front, so `appfs` and `data` are not in the order of their
last reference, which is `appfs, data, rootfs`. -/
theorem collect_slotclasses_reorders :
    collect_slotclasses (mkManifest
        [mkImage "rootfs" "rootfs.img" "D1", mkImage "appfs" "appfs.img" "D2",
         mkImage "data" "data.img" "D3"] [mkFile "rootfs" "etc/extra.conf" "D4"])
      = ["data", "appfs", "rootfs"] ∧
    spec_slotclasses (mkManifest
        [mkImage "rootfs" "rootfs.img" "D1", mkImage "appfs" "appfs.img" "D2",
         mkImage "data" "data.img" "D3"] [mkFile "rootfs" "etc/extra.conf" "D4"])
      = ["appfs", "data", "rootfs"] ∧
    collect_slotclasses (mkManifest
        [mkImage "rootfs" "rootfs.img" "D1", mkImage "appfs" "appfs.img" "D2",
         mkImage "data" "data.img" "D3"] [mkFile "rootfs" "etc/extra.conf" "D4"])
      ≠ spec_slotclasses (mkManifest
        [mkImage "rootfs" "rootfs.img" "D1", mkImage "appfs" "appfs.img" "D2",
         mkImage "data" "data.img" "D3"] [mkFile "rootfs" "etc/extra.conf" "D4"]) := by
  decide

/-- C9 (amended): for every manifest whose images refer to pairwise distinct slot
classes, the collected list holds each referenced class exactly once (it has no
duplicates and its members are the referenced classes), the class of the last file
comes last, and without files the list is the list of image classes in manifest
order. -/
theorem collect_slotclasses_each_class_once (m : RaucManifest)
    (h : (m.images.map (fun i => i.slotclass)).Nodup) :
    (collect_slotclasses m).Nodup ∧
    (∀ c, c ∈ collect_slotclasses m ↔ c ∈ referenced_classes m) ∧
    (∀ f, m.files.getLast? = some f → (collect_slotclasses m).getLast? = some f.slotclass) ∧
    (m.files = [] → collect_slotclasses m = m.images.map (fun i => i.slotclass)) := by
  refine ⟨nodup_add_file_classes _ _ h, mem_collect_slotclasses m,
    fun f hf => getLast?_add_file_classes _ _ f hf, ?_⟩
  intro hnil
  simp [collect_slotclasses, hnil, add_file_classes]

/-- Witness of C9 (amended) on a manifest with three images and two files. -/
theorem collect_slotclasses_each_class_once_witness :
    ((mkManifest
        [mkImage "rootfs" "rootfs.img" "D1", mkImage "appfs" "appfs.img" "D2",
         mkImage "data" "data.img" "D3"]
        [mkFile "rootfs" "etc/extra.conf" "D4", mkFile "appfs" "app.conf" "D5"]).images.map
      (fun i => i.slotclass)).Nodup ∧
    (collect_slotclasses (mkManifest
        [mkImage "rootfs" "rootfs.img" "D1", mkImage "appfs" "appfs.img" "D2",
         mkImage "data" "data.img" "D3"]
        [mkFile "rootfs" "etc/extra.conf" "D4", mkFile "appfs" "app.conf" "D5"])).Nodup :=
  ⟨by decide, (collect_slotclasses_each_class_once _ (by decide)).1⟩

/-! ## The walk to the base slot returns -/

theorem inactive_base_loop_returns (slots : List RaucSlot)
    (hwf : ∀ k p, slot_parent slots k = some p → p < k) (fuel base : Nat)
    (hb : base ≤ fuel) : inactive_base_loop slots fuel base ≠ .error .noReturn := by
  induction fuel generalizing base with
  | zero =>
    unfold inactive_base_loop
    cases hp : slot_parent slots base with
    | none => simp
    | some p =>
      have := hwf base p hp
      omega
  | succ fuel ih =>
    unfold inactive_base_loop
    cases hp : slot_parent slots base with
    | none => simp
    | some p =>
      simp only
      split
      · exact ih p (by have := hwf base p hp; omega)
      · simp

/-- In a slot table in which every parent stands before its children the walk of
`get_inactive_base_slot` always ends: the turns allotted to the loop suffice. -/
theorem get_inactive_base_slot_returns (slots : List RaucSlot)
    (hwf : ∀ k p, slot_parent slots k = some p → p < k) (slot : Nat) :
    get_inactive_base_slot slots slot ≠ .error .noReturn := by
  unfold get_inactive_base_slot
  split
  · by_cases hs : slot ≤ slots.length
    · exact inactive_base_loop_returns slots hwf _ _ hs
    · have hnone : slots[slot]? = none :=
        List.getElem?_eq_none (by omega)
      have hst : slot_state slots slot = ST_UNKNOWN := by simp [slot_state, hnone]
      rename_i h
      rw [hst] at h
      exact absurd h (by decide)
  · simp

/-! ## Target group selection -/

theorem mem_g_hash_table_insert (t : List (String × Nat)) (key : String) (v : Nat)
    (p : String × Nat) (h : p ∈ g_hash_table_insert t key v) : p = (key, v) ∨ p ∈ t := by
  induction t with
  | nil =>
    simp only [g_hash_table_insert, List.mem_singleton] at h
    exact Or.inl h
  | cons e rest ih =>
    obtain ⟨k, x⟩ := e
    unfold g_hash_table_insert at h
    by_cases hk : k = key
    · rw [if_pos hk] at h
      rcases List.mem_cons.1 h with h | h
      · left; rw [h, hk]
      · right; exact List.mem_cons_of_mem _ h
    · rw [if_neg hk] at h
      rcases List.mem_cons.1 h with h | h
      · right; rw [h]; exact List.mem_cons_self _ _
      · rcases ih h with h | h
        · exact Or.inl h
        · exact Or.inr (List.mem_cons_of_mem _ h)

theorem keys_g_hash_table_insert (t : List (String × Nat)) (key : String) (v : Nat)
    (c : String) :
    c ∈ (g_hash_table_insert t key v).map Prod.fst ↔ c = key ∨ c ∈ t.map Prod.fst := by
  induction t with
  | nil => simp [g_hash_table_insert]
  | cons e rest ih =>
    obtain ⟨k, x⟩ := e
    unfold g_hash_table_insert
    by_cases hk : k = key
    · rw [if_pos hk]
      simp only [List.map_cons, List.mem_cons]
      subst hk
      tauto
    · rw [if_neg hk]
      simp only [List.map_cons, List.mem_cons, ih]
      tauto

theorem nodup_keys_g_hash_table_insert (t : List (String × Nat)) (key : String) (v : Nat)
    (h : (t.map Prod.fst).Nodup) : ((g_hash_table_insert t key v).map Prod.fst).Nodup := by
  induction t with
  | nil => simp [g_hash_table_insert]
  | cons e rest ih =>
    obtain ⟨k, x⟩ := e
    unfold g_hash_table_insert
    simp only [List.map_cons, List.nodup_cons] at h
    by_cases hk : k = key
    · rw [if_pos hk]
      simp only [List.map_cons, List.nodup_cons]
      exact h
    · rw [if_neg hk]
      simp only [List.map_cons, List.nodup_cons]
      refine ⟨?_, ih h.2⟩
      intro hmem
      rcases (keys_g_hash_table_insert rest key v k).1 hmem with hm | hm
      · exact hk hm
      · exact h.1 hm

theorem lookup_g_hash_table_insert_self (t : List (String × Nat)) (key : String) (v : Nat) :
    g_hash_table_lookup (g_hash_table_insert t key v) key = some v := by
  induction t with
  | nil => simp [g_hash_table_insert, g_hash_table_lookup]
  | cons e rest ih =>
    obtain ⟨k, x⟩ := e
    unfold g_hash_table_insert
    by_cases hk : k = key
    · rw [if_pos hk]
      simp [g_hash_table_lookup, hk]
    · rw [if_neg hk]
      simp [g_hash_table_lookup, hk, ih]

theorem lookup_g_hash_table_insert_ne (t : List (String × Nat)) (key key' : String) (v : Nat)
    (hne : key' ≠ key) :
    g_hash_table_lookup (g_hash_table_insert t key v) key' = g_hash_table_lookup t key' := by
  induction t with
  | nil =>
    simp only [g_hash_table_insert, g_hash_table_lookup]
    rw [if_neg (fun e => hne e.symm)]
  | cons e rest ih =>
    obtain ⟨k, x⟩ := e
    unfold g_hash_table_insert
    by_cases hk : k = key
    · rw [if_pos hk]
      subst hk
      simp only [g_hash_table_lookup]
      rw [if_neg (fun e => hne e.symm), if_neg (fun e => hne e.symm)]
    · rw [if_neg hk]
      simp only [g_hash_table_lookup]
      by_cases hk' : k = key'
      · rw [if_pos hk', if_pos hk']
      · rw [if_neg hk', if_neg hk', ih]

theorem mem_get_inactive_slot_class_members (slots : List RaucSlot) (iter : List Nat)
    (c : String) (k : Nat) (h : k ∈ get_inactive_slot_class_members slots iter c) :
    ∃ s, slots[k]? = some s ∧ s.state = ST_INACTIVE ∧ s.sclass = c := by
  unfold get_inactive_slot_class_members at h
  rw [List.mem_filter] at h
  obtain ⟨_, hk⟩ := h
  cases hs : slots[k]? with
  | none => rw [hs] at hk; exact Bool.noConfusion hk
  | some s =>
    rw [hs] at hk
    simp only [Bool.and_eq_true, decide_eq_true_eq] at hk
    exact ⟨s, rfl, hk.1, hk.2⟩

/-- What a successful turn of the inner loop yields: the target is one of the
members, no reservation was changed, and the base of the target is the one
reserved for its class. -/
theorem select_target_slot_spec (slots : List RaucSlot) (members : List Nat)
    (bases bases' : List (String × Nat)) (t : Nat)
    (h : select_target_slot slots bases members = .ok (some t, bases')) :
    t ∈ members ∧
    (∀ key v, g_hash_table_lookup bases key = some v →
      g_hash_table_lookup bases' key = some v) ∧
    ∃ b kb, get_inactive_base_slot slots t = .ok (some b) ∧
      g_hash_table_lookup bases' (slot_sclass slots b) = some kb ∧
      slot_name slots kb = slot_name slots b := by
  induction members with
  | nil => simp [select_target_slot] at h
  | cons slot rest ih =>
    rw [select_target_slot] at h
    cases hg : get_inactive_base_slot slots slot with
    | error e => rw [hg] at h; simp at h
    | ok ob =>
      cases ob with
      | none => rw [hg] at h; simp at h
      | some base =>
        rw [hg] at h
        simp only at h
        cases hl : g_hash_table_lookup bases (slot_sclass slots base) with
        | some known =>
          rw [hl] at h
          simp only at h
          by_cases hn : slot_name slots base ≠ slot_name slots known
          · rw [if_pos hn] at h
            obtain ⟨hm, hrest⟩ := ih h
            exact ⟨List.mem_cons_of_mem _ hm, hrest⟩
          · rw [if_neg hn] at h
            simp only [Except.ok.injEq, Prod.mk.injEq, Option.some.injEq] at h
            obtain ⟨rfl, rfl⟩ := h
            refine ⟨List.mem_cons_self _ _, fun _ _ hv => hv, base, known, hg, hl, ?_⟩
            exact (not_not.1 hn).symm
        | none =>
          rw [hl] at h
          simp only [Except.ok.injEq, Prod.mk.injEq, Option.some.injEq] at h
          obtain ⟨rfl, rfl⟩ := h
          refine ⟨List.mem_cons_self _ _, ?_, base, base, hg,
            lookup_g_hash_table_insert_self _ _ _, rfl⟩
          intro key v hv
          by_cases hk : key = slot_sclass slots base
          · rw [hk, hl] at hv
            exact Option.noConfusion hv
          · rw [lookup_g_hash_table_insert_ne _ _ _ _ hk]
            exact hv

theorem select_targets_spec (slots : List RaucSlot) (iter : List Nat) (cs : List String)
    (bases tg tg' : List (String × Nat))
    (h : select_targets slots iter cs bases tg = .ok (some tg'))
    (hinv : GroupInv slots bases tg) :
    (∃ bases', GroupInv slots bases' tg') ∧
    (∀ c, c ∈ tg'.map Prod.fst ↔ c ∈ tg.map Prod.fst ∨ c ∈ cs) := by
  induction cs generalizing bases tg with
  | nil =>
    simp only [select_targets, Except.ok.injEq, Option.some.injEq] at h
    subst h
    exact ⟨⟨bases, hinv⟩, fun c => by simp⟩
  | cons c cs ih =>
    rw [select_targets] at h
    cases hsel : select_target_slot slots bases
        (get_inactive_slot_class_members slots iter c) with
    | error e => rw [hsel] at h; simp at h
    | ok r =>
      obtain ⟨ot, bases1⟩ := r
      cases ot with
      | none => rw [hsel] at h; simp at h
      | some t =>
        rw [hsel] at h
        simp only at h
        obtain ⟨hmem, hkeep, b, kb, hb, hlk, hname⟩ :=
          select_target_slot_spec slots _ bases bases1 t hsel
        obtain ⟨s, hs, hst, hcl⟩ := mem_get_inactive_slot_class_members slots iter c t hmem
        have hkey : slot_sclass slots t = c := by simp [slot_sclass, hs, hcl]
        rw [hkey] at h
        obtain ⟨hnd, hent, hbase⟩ := hinv
        have hinv1 : GroupInv slots bases1 (g_hash_table_insert tg c t) := by
          refine ⟨nodup_keys_g_hash_table_insert tg c t hnd, ?_, ?_⟩
          · intro c' k' hm
            rcases mem_g_hash_table_insert tg c t _ hm with he | ho
            · simp only [Prod.mk.injEq] at he
              obtain ⟨rfl, rfl⟩ := he
              exact ⟨s, hs, hst, hcl⟩
            · exact hent c' k' ho
          · intro c' k' hm
            rcases mem_g_hash_table_insert tg c t _ hm with he | ho
            · simp only [Prod.mk.injEq] at he
              obtain ⟨rfl, rfl⟩ := he
              exact ⟨b, kb, hb, hlk, hname⟩
            · obtain ⟨b', kb', hb', hlk', hname'⟩ := hbase c' k' ho
              exact ⟨b', kb', hb', hkeep _ _ hlk', hname'⟩
        obtain ⟨hex, hkeys⟩ := ih bases1 (g_hash_table_insert tg c t) h hinv1
        refine ⟨hex, fun c' => ?_⟩
        rw [hkeys c', keys_g_hash_table_insert, List.mem_cons]
        tauto

theorem determine_target_install_group_inv (slots : List RaucSlot) (iter : List Nat)
    (m : RaucManifest) (tg : List (String × Nat))
    (h : determine_target_install_group slots iter m = .ok (some tg)) :
    (∃ bases, GroupInv slots bases tg) ∧
    (∀ c, c ∈ tg.map Prod.fst ↔ c ∈ referenced_classes m) := by
  unfold determine_target_install_group at h
  cases hc : collect_slotclasses m with
  | nil => rw [hc] at h; simp at h
  | cons c cs =>
    rw [hc] at h
    simp only at h
    have hinit : GroupInv slots [] [] := by
      refine ⟨by simp, ?_, ?_⟩ <;> intro c k hm <;> cases hm
    obtain ⟨hex, hkeys⟩ := select_targets_spec slots iter (c :: cs) [] [] tg h hinit
    refine ⟨hex, fun c' => ?_⟩
    rw [hkeys c', ← mem_collect_slotclasses, hc]
    simp

/-- C2: whenever `determine_target_install_group` returns a target group, the group
has exactly one entry for each slot class the images and files of the manifest refer
to and no other key, and every entry is an inactive slot whose class is the key. -/
theorem target_group_one_entry_per_class (slots : List RaucSlot) (iter : List Nat)
    (m : RaucManifest) (tg : List (String × Nat))
    (h : determine_target_install_group slots iter m = .ok (some tg)) :
    (tg.map Prod.fst).Nodup ∧
    (∀ c, c ∈ tg.map Prod.fst ↔ c ∈ referenced_classes m) ∧
    (∀ c k, (c, k) ∈ tg →
      ∃ s, slots[k]? = some s ∧ s.state = ST_INACTIVE ∧ s.sclass = c) := by
  obtain ⟨⟨bases, hnd, hent, _⟩, hkeys⟩ := determine_target_install_group_inv slots iter m tg h
  exact ⟨hnd, hkeys, hent⟩

/-- Witness of C2: the A/B layout booted from slot A and a manifest with a root and
an application image. -/
theorem target_group_one_entry_per_class_witness :
    determine_target_install_group ab_booted_table [0, 1, 2, 3] ab_manifest
      = .ok (some [("rootfs", 1), ("appfs", 3)]) ∧
    ([("rootfs", 1), ("appfs", 3)].map Prod.fst).Nodup ∧
    (∀ c, c ∈ [("rootfs", 1), ("appfs", 3)].map Prod.fst ↔ c ∈ referenced_classes ab_manifest) ∧
    (∀ c k, (c, k) ∈ [("rootfs", 1), ("appfs", 3)] →
      ∃ s, ab_booted_table[k]? = some s ∧ s.state = ST_INACTIVE ∧ s.sclass = c) :=
  ⟨rfl, target_group_one_entry_per_class ab_booted_table [0, 1, 2, 3] ab_manifest _ rfl⟩

/-- C3 (as stated, refuted): on the A/B layout booted from slot A a manifest with a
root and an application image yields the group `rootfs.1`, `appfs.1`; these two
distinct entries have the same base slot `rootfs.1`. -/
theorem target_group_entries_share_base :
    determine_target_install_group ab_booted_table [0, 1, 2, 3] ab_manifest
      = .ok (some [("rootfs", 1), ("appfs", 3)]) ∧
    get_inactive_base_slot ab_booted_table 1 = .ok (some 1) ∧
    get_inactive_base_slot ab_booted_table 3 = .ok (some 1) :=
  ⟨rfl, rfl, rfl⟩

/-- C3 (amended): whenever `determine_target_install_group` returns a target group,
distinct entries select distinct slots, every selected slot has an inactive base
slot, and two entries whose base slots belong to the same class have the same base
slot; entries may share their base slot (a slot and its children go together). -/
theorem target_group_bases_agree (slots : List RaucSlot) (iter : List Nat)
    (m : RaucManifest) (tg : List (String × Nat))
    (h : determine_target_install_group slots iter m = .ok (some tg)) :
    (∀ e1 ∈ tg, ∀ e2 ∈ tg, e1 ≠ e2 → e1.2 ≠ e2.2) ∧
    (∀ e ∈ tg, ∃ b, get_inactive_base_slot slots e.2 = .ok (some b)) ∧
    (∀ e1 ∈ tg, ∀ e2 ∈ tg, ∀ b1 b2,
      get_inactive_base_slot slots e1.2 = .ok (some b1) →
      get_inactive_base_slot slots e2.2 = .ok (some b2) →
      slot_sclass slots b1 = slot_sclass slots b2 →
      slot_name slots b1 = slot_name slots b2) := by
  obtain ⟨⟨bases, _, hent, hbase⟩, _⟩ := determine_target_install_group_inv slots iter m tg h
  refine ⟨?_, ?_, ?_⟩
  · rintro ⟨c1, k1⟩ h1 ⟨c2, k2⟩ h2 hne hk
    simp only at hk
    subst hk
    obtain ⟨s1, hs1, _, hc1⟩ := hent c1 k1 h1
    obtain ⟨s2, hs2, _, hc2⟩ := hent c2 k1 h2
    rw [hs1] at hs2
    simp only [Option.some.injEq] at hs2
    subst hs2
    exact hne (by rw [← hc1, ← hc2])
  · rintro ⟨c, k⟩ he
    obtain ⟨b, _, hb, _⟩ := hbase c k he
    exact ⟨b, hb⟩
  · rintro ⟨c1, k1⟩ h1 ⟨c2, k2⟩ h2 b1 b2 hb1 hb2 hcl
    obtain ⟨b1', kb1, hb1', hl1, hn1⟩ := hbase c1 k1 h1
    obtain ⟨b2', kb2, hb2', hl2, hn2⟩ := hbase c2 k2 h2
    simp only at hb1 hb2
    rw [hb1] at hb1'
    rw [hb2] at hb2'
    simp only [Except.ok.injEq, Option.some.injEq] at hb1' hb2'
    subst hb1' hb2'
    rw [hcl, hl2] at hl1
    simp only [Option.some.injEq] at hl1
    subst hl1
    rw [← hn1, hn2]

/-- Witness of C3 (amended) on the A/B layout booted from slot A. -/
theorem target_group_bases_agree_witness :
    determine_target_install_group ab_booted_table [0, 1, 2, 3] ab_manifest
      = .ok (some [("rootfs", 1), ("appfs", 3)]) ∧
    (∀ e ∈ [("rootfs", 1), ("appfs", 3)],
      ∃ b, get_inactive_base_slot ab_booted_table e.2 = .ok (some b)) :=
  ⟨rfl, (target_group_bases_agree ab_booted_table [0, 1, 2, 3] ab_manifest _ rfl).2.1⟩

/-! ## Order of the bootloader calls in the default install loop -/

theorem mark_non_bootable_trace (env : Env) (slots : List RaucSlot)
    (tg : List (String × Nat)) (tr : List Event) :
    ∃ new, (mark_non_bootable env slots tr tg).1 = tr ++ new ∧
      ∀ e ∈ new, is_set_state e = true := by
  induction tg generalizing tr with
  | nil => exact ⟨[], by simp [mark_non_bootable], by simp⟩
  | cons entry rest ih =>
    obtain ⟨c, d⟩ := entry
    rw [mark_non_bootable]
    split
    · exact ih tr
    · cases hr : env.result tr (.boot_set_state d false) with
      | true =>
        simp only [do_call, hr]
        obtain ⟨new, hnew, hall⟩ := ih (tr ++ [⟨.boot_set_state d false, true⟩])
        refine ⟨⟨.boot_set_state d false, true⟩ :: new, by rw [hnew]; simp, ?_⟩
        intro e he
        rcases List.mem_cons.1 he with rfl | he
        · rfl
        · exact hall e he
      | false =>
        simp only [do_call, hr]
        exact ⟨[⟨.boot_set_state d false, false⟩], rfl, by simp [is_set_state]⟩

theorem mark_primary_trace (env : Env) (slots : List RaucSlot)
    (tg : List (String × Nat)) (tr : List Event) :
    ∃ new, (mark_primary env slots tr tg).1 = tr ++ new ∧
      ∀ e ∈ new, is_set_primary e = true := by
  induction tg generalizing tr with
  | nil => exact ⟨[], by simp [mark_primary], by simp⟩
  | cons entry rest ih =>
    obtain ⟨c, d⟩ := entry
    rw [mark_primary]
    split
    · exact ih tr
    · cases hr : env.result tr (.boot_set_primary d) with
      | true =>
        simp only [do_call, hr]
        obtain ⟨new, hnew, hall⟩ := ih (tr ++ [⟨.boot_set_primary d, true⟩])
        refine ⟨⟨.boot_set_primary d, true⟩ :: new, by rw [hnew]; simp, ?_⟩
        intro e he
        rcases List.mem_cons.1 he with rfl | he
        · rfl
        · exact hall e he
      | false =>
        simp only [do_call, hr]
        exact ⟨[⟨.boot_set_primary d, false⟩], rfl, by simp [is_set_primary]⟩

theorem Ext.failure (P : Event → Prop) (Q : List Event → Prop) (tr : List Event)
    (msg : String) : Ext P Q tr (tr, .failure msg) :=
  ⟨[], by simp, by simp, fun h => by cases h⟩

theorem Ext.crash (P : Event → Prop) (Q : List Event → Prop) (tr : List Event)
    (c : Crash) : Ext P Q tr (tr, .crash c) :=
  ⟨[], by simp, by simp, fun h => by cases h⟩

theorem Ext.success (P : Event → Prop) (Q : List Event → Prop) (tr : List Event)
    (h : Q []) : Ext P Q tr (tr, .success) :=
  ⟨[], by simp, by simp, fun _ => h⟩

/-- Calls made before a run count with the run. -/
theorem Ext.step (P : Event → Prop) (Q Q' : List Event → Prop) (tr pre : List Event)
    (r : List Event × Outcome) (hpre : ∀ e ∈ pre, P e) (hQ : ∀ b, Q' b → Q (pre ++ b))
    (h : Ext P Q' (tr ++ pre) r) : Ext P Q tr r := by
  obtain ⟨new, hnew, hall, hq⟩ := h
  refine ⟨pre ++ new, by rw [hnew, List.append_assoc], ?_, fun hs => hQ _ (hq hs)⟩
  rw [List.forall_mem_append]
  exact ⟨hpre, hall⟩

theorem Ext.weaken (P : Event → Prop) (Q Q' : List Event → Prop) (tr : List Event)
    (r : List Event × Outcome) (hQ : ∀ b, Q' b → Q b) (h : Ext P Q' tr r) : Ext P Q tr r := by
  have := Ext.step P Q Q' tr [] r (by simp) (by simpa using hQ) (by simpa using h)
  exact this

/-- One call made before a run counts with the run. -/
theorem Ext.step1 (P : Event → Prop) (Q Q' : List Event → Prop) (tr : List Event)
    (e : Event) (r : List Event × Outcome) (he : P e) (hQ : ∀ b, Q' b → Q (e :: b))
    (h : Ext P Q' (tr ++ [e]) r) : Ext P Q tr r :=
  Ext.step P Q Q' tr [e] r (by simpa using he) (by simpa using hQ) h

theorem image_out_ext (env : Env) (slots : List RaucSlot) (mountpoint : String)
    (dest_slot : Nat) (tr : List Event) :
    Ext (fun e => is_set_state e = false ∧ is_set_primary e = false) (fun _ => True) tr
      (image_out env slots mountpoint dest_slot tr) := by
  unfold image_out
  cases hr : env.result tr (.umount mountpoint) with
  | false =>
    simp only [do_call, hr]
    exact Ext.step1 _ _ (fun _ => True) tr ⟨.umount mountpoint, false⟩ _
      (by simp [is_set_state, is_set_primary]) (fun _ h => h) (Ext.failure _ _ _ _)
  | true =>
    simp only [do_call, hr, install_args_update]
    refine Ext.step1 _ _ (fun _ => True) tr ⟨.umount mountpoint, true⟩ _
      (by simp [is_set_state, is_set_primary]) (fun _ h => h) ?_
    exact Ext.step1 _ _ (fun _ => True) _
      ⟨.status ("Updating slot " ++ slot_name slots dest_slot ++ " done"), true⟩ _
      (by simp [is_set_state, is_set_primary]) (fun _ h => h) (Ext.success _ _ _ trivial)

theorem copy_slot_ext (env : Env) (slots : List RaucSlot) (mountpoint src : String)
    (mfimage : RaucImage) (dest_slot : Nat) (tr : List Event) :
    Ext (fun e => is_set_state e = false ∧ is_set_primary e = false)
      (fun new =>
        (⟨.copy_image src (slot_device slots dest_slot) (slot_type slots dest_slot), true⟩ :
          Event) ∈ new ∧
        (⟨.save_slot_status (g_build_filename mountpoint "slot.raucs") "ok"
            mfimage.checksum.digest, true⟩ : Event) ∈ new) tr
      (copy_slot env slots mountpoint src mfimage dest_slot tr) := by
  unfold copy_slot
  simp only [install_args_update]
  refine Ext.step1 _ _
    (fun new =>
        (⟨.copy_image src (slot_device slots dest_slot) (slot_type slots dest_slot), true⟩ :
          Event) ∈ new ∧
        (⟨.save_slot_status (g_build_filename mountpoint "slot.raucs") "ok"
            mfimage.checksum.digest, true⟩ : Event) ∈ new)
    tr ⟨.status ("Updating slot " ++ slot_name slots dest_slot), true⟩ _
    (by simp [is_set_state, is_set_primary]) (fun b h => ⟨List.mem_cons_of_mem _ h.1, List.mem_cons_of_mem _ h.2⟩) ?_
  generalize tr ++ [(⟨.status ("Updating slot " ++ slot_name slots dest_slot), true⟩ : Event)]
    = trA
  cases h1 : env.result trA
      (.copy_image src (slot_device slots dest_slot) (slot_type slots dest_slot)) with
  | false =>
    simp only [do_call, h1]
    exact Ext.step1 _ _ (fun _ => False) trA
      ⟨.copy_image src (slot_device slots dest_slot) (slot_type slots dest_slot), false⟩ _
      (by simp [is_set_state, is_set_primary]) (fun _ h => h.elim) (Ext.failure _ _ _ _)
  | true =>
    simp only [do_call, h1]
    refine Ext.step1 _ _
      (fun new => (⟨.save_slot_status (g_build_filename mountpoint "slot.raucs") "ok"
            mfimage.checksum.digest, true⟩ : Event) ∈ new) trA
      ⟨.copy_image src (slot_device slots dest_slot) (slot_type slots dest_slot), true⟩ _
      (by simp [is_set_state, is_set_primary]) (fun b h => ⟨List.mem_cons_self _ _, List.mem_cons_of_mem _ h⟩) ?_
    generalize trA ++ [(⟨.copy_image src (slot_device slots dest_slot)
      (slot_type slots dest_slot), true⟩ : Event)] = trB
    cases h2 : env.result trB (.mount_slot dest_slot mountpoint) with
    | false =>
      simp only [h2]
      exact Ext.step1 _ _ (fun _ => False) trB ⟨.mount_slot dest_slot mountpoint, false⟩ _
        (by simp [is_set_state, is_set_primary]) (fun _ h => h.elim) (Ext.failure _ _ _ _)
    | true =>
      simp only [h2]
      refine Ext.step1 _ _ _ trB ⟨.mount_slot dest_slot mountpoint, true⟩ _
        (by simp [is_set_state, is_set_primary]) (fun b h => List.mem_cons_of_mem _ h) ?_
      refine Ext.step1 _ _ _ _
        ⟨.status ("Updating slot " ++ slot_name slots dest_slot ++ " status"), true⟩ _
        (by simp [is_set_state, is_set_primary]) (fun b h => List.mem_cons_of_mem _ h) ?_
      generalize trB ++ [(⟨.mount_slot dest_slot mountpoint, true⟩ : Event)] ++
        [(⟨.status ("Updating slot " ++ slot_name slots dest_slot ++ " status"), true⟩ : Event)]
        = trC
      cases h3 : env.result trC (.save_slot_status (g_build_filename mountpoint "slot.raucs")
          "ok" mfimage.checksum.digest) with
      | false =>
        simp only [h3]
        refine Ext.step1 _ _ (fun _ => False) trC
          ⟨.save_slot_status (g_build_filename mountpoint "slot.raucs") "ok"
            mfimage.checksum.digest, false⟩ _ (by simp [is_set_state, is_set_primary]) (fun _ h => h.elim) ?_
        exact Ext.step1 _ _ (fun _ => False) _
          ⟨.umount mountpoint, env.result (trC ++
            [⟨.save_slot_status (g_build_filename mountpoint "slot.raucs") "ok"
              mfimage.checksum.digest, false⟩]) (.umount mountpoint)⟩ _
          (by simp [is_set_state, is_set_primary]) (fun _ h => h.elim) (Ext.failure _ _ _ _)
      | true =>
        simp only [h3]
        exact Ext.step1 _ _ (fun _ => True) trC
          ⟨.save_slot_status (g_build_filename mountpoint "slot.raucs") "ok"
            mfimage.checksum.digest, true⟩ _
          (by simp [is_set_state, is_set_primary]) (fun b _ => List.mem_cons_self _ _)
          (image_out_ext env slots mountpoint dest_slot _)

theorem image_done_mono (slots : List RaucSlot) (tg : List (String × Nat))
    (cwd mountpoint : String) (img : RaucImage) (a b c : List Event)
    (h : image_done slots tg cwd mountpoint b img) :
    image_done slots tg cwd mountpoint (a ++ b ++ c) img := by
  rcases h with h | ⟨d, hd, hc, hs⟩
  · exact Or.inl (by simp [h])
  · exact Or.inr ⟨d, hd, by simp [hc], by simp [hs]⟩

theorem image_done_cons (slots : List RaucSlot) (tg : List (String × Nat))
    (cwd mountpoint : String) (img : RaucImage) (e : Event) (b : List Event)
    (h : image_done slots tg cwd mountpoint b img) :
    image_done slots tg cwd mountpoint (e :: b) img := by
  simpa using image_done_mono slots tg cwd mountpoint img [e] b [] h

theorem copy_slot_done (env : Env) (slots : List RaucSlot) (tg : List (String × Nat))
    (cwd mountpoint : String) (mfimage : RaucImage) (dest_slot : Nat) (tr : List Event)
    (hl : g_hash_table_lookup tg mfimage.slotclass = some dest_slot) :
    Ext (fun e => is_set_state e = false ∧ is_set_primary e = false)
      (fun new => image_done slots tg cwd mountpoint new mfimage) tr
      (copy_slot env slots mountpoint (srcimagepath cwd mfimage) mfimage dest_slot tr) :=
  Ext.weaken _ _ _ _ _ (fun _ h => Or.inr ⟨dest_slot, hl, h.1, h.2⟩)
    (copy_slot_ext env slots mountpoint (srcimagepath cwd mfimage) mfimage dest_slot tr)

theorem update_slot_ext (env : Env) (slots : List RaucSlot) (tg : List (String × Nat))
    (cwd mountpoint : String) (tr : List Event) (mfimage : RaucImage) :
    Ext (fun e => is_set_state e = false ∧ is_set_primary e = false)
      (fun new => image_done slots tg cwd mountpoint new mfimage) tr
      (update_slot env slots tg cwd mountpoint tr mfimage) := by
  have hmono := image_done_cons slots tg cwd mountpoint mfimage
  unfold update_slot
  split
  · exact Ext.failure _ _ _ _
  · cases hl : g_hash_table_lookup tg mfimage.slotclass with
    | none => exact Ext.crash _ _ _ _
    | some dest_slot =>
      simp only
      split
      · exact Ext.failure _ _ _ _
      · simp only [install_args_update]
        refine Ext.step1 _ _ (fun new => image_done slots tg cwd mountpoint new mfimage) tr
          ⟨.status ("Checking slot " ++ slot_name slots dest_slot), true⟩ _
          (by simp [is_set_state, is_set_primary]) (fun b h => hmono _ b h) ?_
        generalize tr ++
          [(⟨.status ("Checking slot " ++ slot_name slots dest_slot), true⟩ : Event)] = trA
        rw [do_call]
        cases h1 : env.result trA (.mount_slot dest_slot mountpoint) with
        | false =>
          simp only [h1]
          exact Ext.step1 _ _ (fun new => image_done slots tg cwd mountpoint new mfimage)
            trA ⟨.mount_slot dest_slot mountpoint, false⟩ _
            (by simp [is_set_state, is_set_primary]) (fun b h => hmono _ b h)
            (copy_slot_done env slots tg cwd mountpoint mfimage dest_slot _ hl)
        | true =>
          simp only [h1]
          refine Ext.step1 _ _ (fun new => image_done slots tg cwd mountpoint new mfimage)
            trA ⟨.mount_slot dest_slot mountpoint, true⟩ _
            (by simp [is_set_state, is_set_primary]) (fun b h => hmono _ b h) ?_
          generalize trA ++ [(⟨.mount_slot dest_slot mountpoint, true⟩ : Event)] = trB
          simp only [do_call]
          have hskip : ∀ trC, Ext (fun e => is_set_state e = false ∧ is_set_primary e = false)
              (fun new => image_done slots tg cwd mountpoint new mfimage) trC
              (image_out env slots mountpoint dest_slot
                (trC ++ [⟨.status ("Skipping update for correct image " ++ mfimage.filename),
                  true⟩])) := fun trC =>
            Ext.step1 _ _ (fun _ => True) trC
              ⟨.status ("Skipping update for correct image " ++ mfimage.filename), true⟩ _
              (by simp [is_set_state, is_set_primary]) (fun b _ => Or.inl (List.mem_cons_self _ _))
              (image_out_ext env slots mountpoint dest_slot _)
          have hcopy : ∀ trC, Ext (fun e => is_set_state e = false ∧ is_set_primary e = false)
              (fun new => image_done slots tg cwd mountpoint new mfimage) trC
              (match do_call env trC (.umount mountpoint) with
               | (tr3, false) => (tr3, .failure ("Unmounting failed: " ++ env.error_message tr3))
               | (tr3, true) =>
                 copy_slot env slots mountpoint (srcimagepath cwd mfimage) mfimage dest_slot
                   tr3) := by
            intro trC
            cases h3 : env.result trC (.umount mountpoint) with
            | false =>
              simp only [do_call, h3]
              exact Ext.step1 _ _ (fun new => image_done slots tg cwd mountpoint new mfimage)
                trC ⟨.umount mountpoint, false⟩ _
                (by simp [is_set_state, is_set_primary]) (fun b h => hmono _ b h) (Ext.failure _ _ _ _)
            | true =>
              simp only [do_call, h3]
              exact Ext.step1 _ _ (fun new => image_done slots tg cwd mountpoint new mfimage)
                trC ⟨.umount mountpoint, true⟩ _
                (by simp [is_set_state, is_set_primary]) (fun b h => hmono _ b h)
                (copy_slot_done env slots tg cwd mountpoint mfimage dest_slot _ hl)
          have hcopy' := hcopy
          simp only [do_call] at hcopy'
          refine Ext.step1 _ _ (fun new => image_done slots tg cwd mountpoint new mfimage)
            trB ⟨.load_slot_status (g_build_filename mountpoint "slot.raucs"),
              env.result trB (.load_slot_status (g_build_filename mountpoint "slot.raucs"))⟩ _
            (by simp [is_set_state, is_set_primary]) (fun b h => hmono _ b h) ?_
          split
          · exact hskip _
          · exact hcopy' _

theorem update_slots_ext (env : Env) (slots : List RaucSlot) (tg : List (String × Nat))
    (cwd mountpoint : String) (images : List RaucImage) (tr : List Event) :
    Ext (fun e => is_set_state e = false ∧ is_set_primary e = false)
      (fun new => ∀ img ∈ images, image_done slots tg cwd mountpoint new img) tr
      (update_slots env slots tg cwd mountpoint tr images) := by
  induction images generalizing tr with
  | nil => exact Ext.success _ _ _ (by simp)
  | cons img rest ih =>
    rw [update_slots]
    obtain ⟨n1, h1, hall1, hq1⟩ := update_slot_ext env slots tg cwd mountpoint tr img
    cases hu : update_slot env slots tg cwd mountpoint tr img with
    | mk tr1 out =>
      rw [hu] at h1 hq1
      simp only at h1 hq1
      subst h1
      cases out with
      | success =>
        simp only
        obtain ⟨n2, h2, hall2, hq2⟩ := ih (tr ++ n1)
        refine ⟨n1 ++ n2, by rw [h2, List.append_assoc], ?_, ?_⟩
        · rw [List.forall_mem_append]
          exact ⟨hall1, hall2⟩
        · intro hs img' himg'
          rcases List.mem_cons.1 himg' with rfl | hrest
          · have := image_done_mono slots tg cwd mountpoint img' [] n1 n2 (hq1 rfl)
            simpa using this
          · have := image_done_mono slots tg cwd mountpoint img' n1 n2 [] (hq2 hs img' hrest)
            simpa using this
      | failure msg => exact ⟨n1, rfl, hall1, fun h => by cases h⟩
      | crash c => exact ⟨n1, rfl, hall1, fun h => by cases h⟩

/-- The calls of `launch_and_wait_default_handler` come in three phases: first the
mount point and the `r_boot_set_state` calls, then the image loop, then the
`r_boot_set_primary` calls, which are only reached when every image is done. -/
theorem default_handler_phases (env : Env) (cfg : RaucConfig) (slots : List RaucSlot)
    (cwd : String) (m : RaucManifest) (tg : List (String × Nat)) (tr : List Event) :
    ∃ A B C, (launch_and_wait_default_handler env cfg slots cwd m tg tr).1
        = tr ++ (A ++ B ++ C) ∧
      (∀ e ∈ A, is_copy_image e = false ∧ is_set_primary e = false) ∧
      (∀ e ∈ B, is_set_state e = false ∧ is_set_primary e = false) ∧
      (∀ e ∈ C, is_set_state e = false ∧ is_copy_image e = false) ∧
      ((∃ e ∈ C, is_set_primary e = true) →
        ∀ img ∈ m.images,
          image_done slots tg cwd (g_build_filename cfg.mount_prefix "image") B img) := by
  unfold launch_and_wait_default_handler
  split
  · exact ⟨[], [], [], by simp, by simp, by simp, by simp, by simp⟩
  · rw [do_call]
    cases h0 : env.result tr (.create_mount_point "image") with
    | false =>
      simp only
      exact ⟨[⟨.create_mount_point "image", false⟩], [], [], by simp,
        by simp [is_copy_image, is_set_primary], by simp, by simp, by simp⟩
    | true =>
      simp only
      obtain ⟨n1, h1, hall1⟩ := mark_non_bootable_trace env slots tg
        (tr ++ [⟨.create_mount_point "image", true⟩])
      have hA : ∀ e ∈ (⟨.create_mount_point "image", true⟩ : Event) :: n1,
          is_copy_image e = false ∧ is_set_primary e = false := by
        intro e he
        rcases List.mem_cons.1 he with rfl | he
        · simp [is_copy_image, is_set_primary]
        · have := hall1 e he
          revert this
          unfold is_set_state is_copy_image is_set_primary
          cases e.call <;> simp
      cases hm : mark_non_bootable env slots (tr ++ [⟨.create_mount_point "image", true⟩]) tg with
      | mk tr1 failed =>
        rw [hm] at h1
        simp only at h1
        subst h1
        cases failed with
        | some name =>
          simp only
          exact ⟨_ :: n1, [], [], by simp, hA, by simp, by simp, by simp⟩
        | none =>
          simp only
          obtain ⟨n2, h2, hall2, hq2⟩ := update_slots_ext env slots tg cwd
            (g_build_filename cfg.mount_prefix "image") m.images
            (install_args_update (tr ++ [⟨.create_mount_point "image", true⟩] ++ n1)
              "Updating slots...")
          have hB : ∀ e ∈ (⟨.status "Updating slots...", true⟩ : Event) :: n2,
              is_set_state e = false ∧ is_set_primary e = false := by
            intro e he
            rcases List.mem_cons.1 he with rfl | he
            · simp [is_set_state, is_set_primary]
            · exact hall2 e he
          cases hu : update_slots env slots tg cwd (g_build_filename cfg.mount_prefix "image")
              (install_args_update (tr ++ [⟨.create_mount_point "image", true⟩] ++ n1)
                "Updating slots...") m.images with
          | mk tr2 out =>
            rw [hu] at h2 hq2
            simp only at h2 hq2
            subst h2
            cases out with
            | failure msg =>
              simp only
              exact ⟨_ :: n1, _ :: n2, [], by simp [install_args_update], hA, hB, by simp,
                by simp⟩
            | crash c =>
              simp only
              exact ⟨_ :: n1, _ :: n2, [], by simp [install_args_update], hA, hB, by simp,
                by simp⟩
            | success =>
              simp only
              have hdone : ∀ img ∈ m.images, image_done slots tg cwd
                  (g_build_filename cfg.mount_prefix "image")
                  ((⟨.status "Updating slots...", true⟩ : Event) :: n2) img := fun img himg =>
                image_done_cons _ _ _ _ _ _ _ (hq2 rfl img himg)
              obtain ⟨n3, h3, hall3⟩ := mark_primary_trace env slots tg
                (install_args_update (tr ++ [⟨.create_mount_point "image", true⟩] ++ n1)
                  "Updating slots..." ++ n2)
              have hC : ∀ e ∈ n3, is_set_state e = false ∧ is_copy_image e = false := by
                intro e he
                have := hall3 e he
                revert this
                unfold is_set_state is_copy_image is_set_primary
                cases e.call <;> simp
              cases hp : mark_primary env slots
                  (install_args_update (tr ++ [⟨.create_mount_point "image", true⟩] ++ n1)
                    "Updating slots..." ++ n2) tg with
              | mk tr3 failed3 =>
                rw [hp] at h3
                simp only at h3
                subst h3
                cases failed3 with
                | some name =>
                  simp only
                  exact ⟨_ :: n1, _ :: n2, n3, by simp [install_args_update], hA, hB, hC,
                    fun _ => hdone⟩
                | none =>
                  simp only
                  refine ⟨_ :: n1, _ :: n2, n3 ++ [⟨.status "All slots updated", true⟩],
                    by simp [install_args_update], hA, hB, ?_, fun _ => hdone⟩
                  rw [List.forall_mem_append]
                  exact ⟨hC, by simp [is_set_state, is_copy_image]⟩

theorem split_after {α : Type} (A R pre post : List α) (e : α)
    (h : A ++ R = pre ++ e :: post) (he : e ∉ A) :
    ∃ a', pre = A ++ a' ∧ R = a' ++ e :: post := by
  rcases List.append_eq_append_iff.1 h with ⟨a', h1, h2⟩ | ⟨c', h1, h2⟩
  · exact ⟨a', h1, h2⟩
  · cases c' with
    | nil =>
      refine ⟨[], by simpa using h1.symm, by simpa using h2.symm⟩
    | cons x c'' =>
      simp only [List.cons_append, List.cons.injEq] at h2
      exact absurd (by rw [h1, h2.1]; simp) he

/-- C1: in every run of `launch_and_wait_default_handler`, whatever the environment
answers and however the run ends, no `r_boot_set_state` call follows an image write
(`copy_image`), so all of them come before the first image write; and when
`r_boot_set_primary` is called, every image of the manifest has been processed with
success before that call (skipped as correct, or copied and its status recorded). -/
theorem default_handler_bootloader_order (env : Env) (cfg : RaucConfig)
    (slots : List RaucSlot) (cwd : String) (m : RaucManifest) (tg : List (String × Nat))
    (tr : List Event) :
    ∃ new, (launch_and_wait_default_handler env cfg slots cwd m tg tr).1 = tr ++ new ∧
      (∀ pre e post, new = pre ++ e :: post → is_copy_image e = true →
        ∀ e' ∈ post, is_set_state e' = false) ∧
      (∀ pre e post, new = pre ++ e :: post → is_set_primary e = true →
        ∀ img ∈ m.images,
          image_done slots tg cwd (g_build_filename cfg.mount_prefix "image") pre img) := by
  obtain ⟨A, B, C, hnew, hA, hB, hC, hdone⟩ := default_handler_phases env cfg slots cwd m tg tr
  refine ⟨A ++ B ++ C, hnew, ?_, ?_⟩
  · intro pre e post hsplit hcopy e' he'
    have heA : e ∉ A := fun hmem => by
      have := (hA e hmem).1
      rw [hcopy] at this
      exact Bool.noConfusion this
    rw [List.append_assoc] at hsplit
    obtain ⟨a', _, hR⟩ := split_after A (B ++ C) pre post e hsplit heA
    have hmem : e' ∈ B ++ C := by rw [hR]; simp [he']
    rcases List.mem_append.1 hmem with h | h
    · exact (hB e' h).1
    · exact (hC e' h).1
  · intro pre e post hsplit hprim img himg
    have heA : e ∉ A := fun hmem => by
      have := (hA e hmem).2
      rw [hprim] at this
      exact Bool.noConfusion this
    have heB : e ∉ B := fun hmem => by
      have := (hB e hmem).2
      rw [hprim] at this
      exact Bool.noConfusion this
    rw [List.append_assoc] at hsplit
    obtain ⟨a', hpre, hR⟩ := split_after A (B ++ C) pre post e hsplit heA
    obtain ⟨a'', hpre', hR'⟩ := split_after B C a' post e hR heB
    have heC : e ∈ C := by rw [hR']; simp
    have hd := hdone ⟨e, heC, hprim⟩ img himg
    rw [hpre, hpre', ← List.append_assoc]
    exact image_done_mono _ _ _ _ _ A B a'' hd

/-! ## A class without inactive member -/

theorem select_targets_members_ne_nil (slots : List RaucSlot) (iter : List Nat)
    (cs : List String) (bases tg tg' : List (String × Nat))
    (h : select_targets slots iter cs bases tg = .ok (some tg')) :
    ∀ c ∈ cs, get_inactive_slot_class_members slots iter c ≠ [] := by
  induction cs generalizing bases tg with
  | nil => intro c hc; cases hc
  | cons c cs ih =>
    rw [select_targets] at h
    cases hsel : select_target_slot slots bases
        (get_inactive_slot_class_members slots iter c) with
    | error e => rw [hsel] at h; simp at h
    | ok r =>
      obtain ⟨ot, bases1⟩ := r
      cases ot with
      | none => rw [hsel] at h; simp at h
      | some t =>
        rw [hsel] at h
        simp only at h
        have hmem := (select_target_slot_spec slots _ bases bases1 t hsel).1
        intro c' hc'
        rcases List.mem_cons.1 hc' with rfl | hc'
        · intro hnil
          rw [hnil] at hmem
          cases hmem
        · exact ih _ _ h c' hc'

theorem determine_target_install_group_no_member (slots : List RaucSlot) (iter : List Nat)
    (m : RaucManifest) (c : String) (hc : c ∈ referenced_classes m)
    (hnil : get_inactive_slot_class_members slots iter c = []) (tg : List (String × Nat)) :
    determine_target_install_group slots iter m ≠ .ok (some tg) := by
  intro h
  unfold determine_target_install_group at h
  have hmem : c ∈ collect_slotclasses m := (mem_collect_slotclasses m c).2 hc
  cases hcs : collect_slotclasses m with
  | nil => rw [hcs] at h; simp at h
  | cons c0 cs =>
    rw [hcs] at h hmem
    simp only at h
    exact select_targets_members_ne_nil slots iter (c0 :: cs) [] [] tg h c hmem hnil

theorem umount_exit_ext (env : Env) (mountpoint : String) (tr : List Event) (out : Outcome) :
    Ext (fun e => touches_slots e.call = false) (fun _ => True) tr
      (umount_exit env mountpoint tr out) := by
  unfold umount_exit
  simp only [do_call]
  exact ⟨_, List.append_assoc _ _ _, by simp [touches_slots], fun _ => trivial⟩

/-- When no target group is found, `do_install_bundle` adds no call that touches a
slot (no handler, bootloader call, slot mount, image copy or slot status write). -/
theorem do_install_bundle_quiet (env : Env) (cfg : RaucConfig)
    (slots : Option (List RaucSlot)) (slotlist iter : List Nat) (bootname : Option String)
    (bundlefile : String) (tr : List Event)
    (hno : ∀ tbl h tg, determine_slot_states slots slotlist bootname = .ok tbl →
      determine_target_install_group tbl iter (env.manifest h) ≠ .ok (some tg)) :
    Ext (fun e => touches_slots e.call = false) (fun _ => True) tr
      (do_install_bundle env cfg slots slotlist iter bootname bundlefile tr) := by
  unfold do_install_bundle
  cases hst : determine_slot_states slots slotlist bootname with
  | error e => exact Ext.failure _ _ _ _
  | ok tbl =>
    simp only
    rw [do_call]
    cases h0 : env.result tr (.create_mount_point "bundle") with
    | false =>
      exact Ext.step1 _ _ (fun _ => True) tr ⟨.create_mount_point "bundle", false⟩ _
        (by simp [touches_slots]) (fun _ h => h) (Ext.failure _ _ _ _)
    | true =>
      simp only [install_args_update]
      refine Ext.step1 _ _ (fun _ => True) tr ⟨.create_mount_point "bundle", true⟩ _
        (by simp [touches_slots]) (fun _ h => h) ?_
      refine Ext.step1 _ _ (fun _ => True) _ ⟨.status "Checking and mounting bundle...", true⟩ _
        (by simp [touches_slots]) (fun _ h => h) ?_
      generalize tr ++ [(⟨.create_mount_point "bundle", true⟩ : Event)] ++
        [(⟨.status "Checking and mounting bundle...", true⟩ : Event)] = trA
      rw [do_call]
      cases h1 : env.result trA
          (.mount_bundle bundlefile (g_build_filename cfg.mount_prefix "bundle")) with
      | false =>
        exact Ext.step1 _ _ (fun _ => True) trA
          ⟨.mount_bundle bundlefile (g_build_filename cfg.mount_prefix "bundle"), false⟩ _
          (by simp [touches_slots]) (fun _ h => h) (umount_exit_ext _ _ _ _)
      | true =>
        simp only
        refine Ext.step1 _ _ (fun _ => True) trA
          ⟨.mount_bundle bundlefile (g_build_filename cfg.mount_prefix "bundle"), true⟩ _
          (by simp [touches_slots]) (fun _ h => h) ?_
        generalize trA ++ [(⟨.mount_bundle bundlefile
          (g_build_filename cfg.mount_prefix "bundle"), true⟩ : Event)] = trB
        rw [do_call]
        cases h2 : env.result trB
            (.verify_manifest (g_build_filename cfg.mount_prefix "bundle")) with
        | false =>
          exact Ext.step1 _ _ (fun _ => True) trB
            ⟨.verify_manifest (g_build_filename cfg.mount_prefix "bundle"), false⟩ _
            (by simp [touches_slots]) (fun _ h => h) (umount_exit_ext _ _ _ _)
        | true =>
          simp only
          refine Ext.step1 _ _ (fun _ => True) trB
            ⟨.verify_manifest (g_build_filename cfg.mount_prefix "bundle"), true⟩ _
            (by simp [touches_slots]) (fun _ h => h) ?_
          generalize trB ++ [(⟨.verify_manifest
            (g_build_filename cfg.mount_prefix "bundle"), true⟩ : Event)] = trC
          cases hd : determine_target_install_group tbl iter (env.manifest trC) with
          | error c => exact Ext.crash _ _ _ _
          | ok og =>
            cases og with
            | none => exact umount_exit_ext _ _ _ _
            | some tg => exact absurd hd (hno tbl trC tg hst)

/-- When no target group is found, `do_install_bundle` fails, unless the target
selection itself does not return. -/
theorem do_install_bundle_fails (env : Env) (cfg : RaucConfig)
    (slots : Option (List RaucSlot)) (slotlist iter : List Nat) (bootname : Option String)
    (bundlefile : String) (tr : List Event)
    (hno : ∀ tbl h tg, determine_slot_states slots slotlist bootname = .ok tbl →
      determine_target_install_group tbl iter (env.manifest h) ≠ .ok (some tg)) :
    (∃ msg, (do_install_bundle env cfg slots slotlist iter bootname bundlefile tr).2
        = .failure msg) ∨
     ∃ tbl h c, determine_slot_states slots slotlist bootname = .ok tbl ∧
       determine_target_install_group tbl iter (env.manifest h) = .error c ∧
       (do_install_bundle env cfg slots slotlist iter bootname bundlefile tr).2 = .crash c := by
  unfold do_install_bundle
  cases hst : determine_slot_states slots slotlist bootname with
  | error e => exact Or.inl ⟨_, rfl⟩
  | ok tbl =>
    simp only
    rw [do_call]
    cases h0 : env.result tr (.create_mount_point "bundle") with
    | false => exact Or.inl ⟨_, rfl⟩
    | true =>
      simp only [install_args_update]
      generalize tr ++ [(⟨.create_mount_point "bundle", true⟩ : Event)] ++
        [(⟨.status "Checking and mounting bundle...", true⟩ : Event)] = trA
      rw [do_call]
      cases h1 : env.result trA
          (.mount_bundle bundlefile (g_build_filename cfg.mount_prefix "bundle")) with
      | false => exact Or.inl ⟨_, rfl⟩
      | true =>
        simp only
        generalize trA ++ [(⟨.mount_bundle bundlefile
          (g_build_filename cfg.mount_prefix "bundle"), true⟩ : Event)] = trB
        rw [do_call]
        cases h2 : env.result trB
            (.verify_manifest (g_build_filename cfg.mount_prefix "bundle")) with
        | false => exact Or.inl ⟨_, rfl⟩
        | true =>
          simp only
          generalize trB ++ [(⟨.verify_manifest
            (g_build_filename cfg.mount_prefix "bundle"), true⟩ : Event)] = trC
          cases hd : determine_target_install_group tbl iter (env.manifest trC) with
          | error c => exact Or.inr ⟨tbl, trC, c, rfl, hd, rfl⟩
          | ok og =>
            cases og with
            | none => exact Or.inl ⟨_, rfl⟩
            | some tg => exact absurd hd (hno tbl trC tg hst)

/-- Where the target selection returns: when every manifest the bundle can hold
refers to a slot class without inactive member, `determine_target_install_group`
returns no target group, and `do_install_bundle` does not succeed and adds no
handler invocation, bootloader call, slot mount, image copy or slot status write to
the history; it fails with an error message. The other case is that the target
selection does not return (it dereferences the NULL base of an inactive slot whose
parent is not inactive). -/
theorem do_install_bundle_no_target (env : Env) (cfg : RaucConfig)
    (slots : Option (List RaucSlot)) (slotlist iter : List Nat) (bootname : Option String)
    (bundlefile : String) (tr : List Event)
    (hno : ∀ tbl h, determine_slot_states slots slotlist bootname = .ok tbl →
      ∃ c ∈ referenced_classes (env.manifest h),
        get_inactive_slot_class_members tbl iter c = []) :
    (∀ tbl h tg, determine_slot_states slots slotlist bootname = .ok tbl →
      determine_target_install_group tbl iter (env.manifest h) ≠ .ok (some tg)) ∧
    (do_install_bundle env cfg slots slotlist iter bootname bundlefile tr).2 ≠ .success ∧
    (∃ new, (do_install_bundle env cfg slots slotlist iter bootname bundlefile tr).1
        = tr ++ new ∧ ∀ e ∈ new, touches_slots e.call = false) ∧
    ((∃ msg, (do_install_bundle env cfg slots slotlist iter bootname bundlefile tr).2
        = .failure msg) ∨
     ∃ tbl h c, determine_slot_states slots slotlist bootname = .ok tbl ∧
       determine_target_install_group tbl iter (env.manifest h) = .error c ∧
       (do_install_bundle env cfg slots slotlist iter bootname bundlefile tr).2 = .crash c) := by
  have hnone : ∀ tbl h tg, determine_slot_states slots slotlist bootname = .ok tbl →
      determine_target_install_group tbl iter (env.manifest h) ≠ .ok (some tg) := by
    intro tbl h tg hst
    obtain ⟨c, hc, hnil⟩ := hno tbl h hst
    exact determine_target_install_group_no_member tbl iter _ c hc hnil tg
  have hfail := do_install_bundle_fails env cfg slots slotlist iter bootname bundlefile tr hnone
  obtain ⟨new, hnew, hall, _⟩ :=
    do_install_bundle_quiet env cfg slots slotlist iter bootname bundlefile tr hnone
  refine ⟨hnone, ?_, ⟨new, hnew, hall⟩, hfail⟩
  intro hs
  rcases hfail with ⟨msg, hm⟩ | ⟨_, _, c, _, _, hc⟩
  · rw [hm] at hs; cases hs
  · rw [hc] at hs; cases hs

/-- The A/B layout booted from slot A and a bundle with an image for the class
`data`, which has no slot: the install ends with the error "Could not determine
target group" after mounting and unmounting the bundle. -/
theorem do_install_bundle_no_target_witness :
    (∃ c ∈ referenced_classes data_manifest,
      get_inactive_slot_class_members ab_booted_table [0, 1, 2, 3] c = []) ∧
    (do_install_bundle data_env demo_config (some ab_table) [0, 1, 2, 3] [0, 1, 2, 3]
      (some "A") "update.raucb" []).2 = .failure "Could not determine target group" ∧
    (do_install_bundle data_env demo_config (some ab_table) [0, 1, 2, 3] [0, 1, 2, 3]
      (some "A") "update.raucb" []).2 ≠ .success :=
  ⟨⟨"data", by decide, by decide⟩, rfl,
    (do_install_bundle_no_target data_env demo_config (some ab_table) [0, 1, 2, 3]
      [0, 1, 2, 3] (some "A") "update.raucb" []
      (fun tbl _ hst => by
        have htbl : tbl = ab_booted_table := by
          have h : determine_slot_states (some ab_table) [0, 1, 2, 3] (some "A")
              = .ok ab_booted_table := rfl
          rw [h] at hst
          exact (Except.ok.inj hst).symm
        subst htbl
        exact ⟨"data", (by decide : "data" ∈ referenced_classes data_manifest),
          by decide⟩)).2.1⟩

/-- C10: the manifest refers to the class `nosuch`, which has no slot, after the
class `data`. On the table of a base slot, its child and its grandchild, with the
slot states determined in the key order grandchild, child, base slot, the selection
reaches the inactive member `data.0` of the class `data` first: its parent `appfs.0`
is active, `get_inactive_base_slot` returns NULL, and the NULL base is dereferenced
(line 306). `determine_target_install_group` does not return "no target group" and
`do_install_bundle` returns no error: the run ends after the manifest was verified,
with the bundle mounted. With the two images in the other order the same install
fails with "Could not determine target group" and unmounts the bundle. -/
theorem no_target_class_ends_in_null_dereference :
    (∃ tbl, determine_slot_states (some chain_table) [2, 1, 0] (some "A") = .ok tbl ∧
      tbl.map RaucSlot.state = [ST_BOOTED, ST_ACTIVE, ST_INACTIVE] ∧
      "nosuch" ∈ referenced_classes nosuch_manifest ∧
      get_inactive_slot_class_members tbl [0, 1, 2] "nosuch" = [] ∧
      get_inactive_slot_class_members tbl [0, 1, 2] "data" = [2] ∧
      get_inactive_base_slot tbl 2 = .ok none ∧
      determine_target_install_group tbl [0, 1, 2] nosuch_manifest = .error .nullDeref ∧
      determine_target_install_group tbl [0, 1, 2] nosuch_first_manifest = .ok none) ∧
    do_install_bundle nosuch_env demo_config (some chain_table) [2, 1, 0] [0, 1, 2]
      (some "A") "update.raucb" [] =
      ([⟨.create_mount_point "bundle", true⟩,
        ⟨.status "Checking and mounting bundle...", true⟩,
        ⟨.mount_bundle "update.raucb" "/mnt/rauc/bundle", true⟩,
        ⟨.verify_manifest "/mnt/rauc/bundle", true⟩],
       .crash .nullDeref) ∧
    do_install_bundle nosuch_first_env demo_config (some chain_table) [2, 1, 0] [0, 1, 2]
      (some "A") "update.raucb" [] =
      ([⟨.create_mount_point "bundle", true⟩,
        ⟨.status "Checking and mounting bundle...", true⟩,
        ⟨.mount_bundle "update.raucb" "/mnt/rauc/bundle", true⟩,
        ⟨.verify_manifest "/mnt/rauc/bundle", true⟩,
        ⟨.umount_bundle "/mnt/rauc/bundle", true⟩,
        ⟨.rmdir "/mnt/rauc/bundle", true⟩],
       .failure "Could not determine target group") :=
  ⟨⟨_, rfl, by decide, by decide, by decide, by decide, rfl, rfl, rfl⟩, by decide, by decide⟩

/-- A complete run on the A/B layout booted from slot A, with every call answered
with success: the non-bootable mark, both images copied and recorded, the primary
mark, and the bundle unmounted at the end. -/
theorem do_install_bundle_demo_run :
    (do_install_bundle all_ok_env demo_config (some ab_table) [0, 1, 2, 3] [0, 1, 2, 3]
      (some "A") "update.raucb" []).2 = .success ∧
    (do_install_bundle all_ok_env demo_config (some ab_table) [0, 1, 2, 3] [0, 1, 2, 3]
      (some "A") "update.raucb" []).1.map Event.call =
      [.create_mount_point "bundle",
       .status "Checking and mounting bundle...",
       .mount_bundle "update.raucb" "/mnt/rauc/bundle",
       .verify_manifest "/mnt/rauc/bundle",
       .create_mount_point "image",
       .boot_set_state 1 false,
       .status "Updating slots...",
       .status "Checking slot rootfs.1",
       .mount_slot 1 "/mnt/rauc/image",
       .load_slot_status "/mnt/rauc/image/slot.raucs",
       .umount "/mnt/rauc/image",
       .status "Updating slot rootfs.1",
       .copy_image "/mnt/rauc/bundle/rootfs.img" "/dev/sdb1" "ext4",
       .mount_slot 1 "/mnt/rauc/image",
       .status "Updating slot rootfs.1 status",
       .save_slot_status "/mnt/rauc/image/slot.raucs" "ok" "D1",
       .umount "/mnt/rauc/image",
       .status "Updating slot rootfs.1 done",
       .status "Checking slot appfs.1",
       .mount_slot 3 "/mnt/rauc/image",
       .load_slot_status "/mnt/rauc/image/slot.raucs",
       .umount "/mnt/rauc/image",
       .status "Updating slot appfs.1",
       .copy_image "/mnt/rauc/bundle/appfs.img" "/dev/sdb2" "ext4",
       .mount_slot 3 "/mnt/rauc/image",
       .status "Updating slot appfs.1 status",
       .save_slot_status "/mnt/rauc/image/slot.raucs" "ok" "D2",
       .umount "/mnt/rauc/image",
       .status "Updating slot appfs.1 done",
       .boot_set_primary 1,
       .status "All slots updated",
       .umount_bundle "/mnt/rauc/bundle",
       .rmdir "/mnt/rauc/bundle"] := by
  constructor
  · rfl
  · decide

/-! ## Base slots of one class -/

theorem inactive_base_loop_inactive (slots : List RaucSlot) (fuel base b : Nat)
    (hbase : slot_state slots base = ST_INACTIVE)
    (h : inactive_base_loop slots fuel base = .ok (some b)) :
    slot_state slots b = ST_INACTIVE := by
  induction fuel generalizing base with
  | zero =>
    unfold inactive_base_loop at h
    cases hp : slot_parent slots base with
    | none =>
      rw [hp] at h
      simp only [Except.ok.injEq, Option.some.injEq] at h
      rw [← h]; exact hbase
    | some p => rw [hp] at h; simp at h
  | succ fuel ih =>
    unfold inactive_base_loop at h
    cases hp : slot_parent slots base with
    | none =>
      rw [hp] at h
      simp only [Except.ok.injEq, Option.some.injEq] at h
      rw [← h]; exact hbase
    | some p =>
      rw [hp] at h
      simp only at h
      split at h
      · rename_i hpi
        exact ih p hpi h
      · simp at h

/-- The base slot `get_inactive_base_slot` returns is an inactive slot of the table. -/
theorem get_inactive_base_slot_inactive (slots : List RaucSlot) (slot b : Nat)
    (h : get_inactive_base_slot slots slot = .ok (some b)) :
    slot_state slots b = ST_INACTIVE := by
  unfold get_inactive_base_slot at h
  split at h
  · rename_i hs
    exact inactive_base_loop_inactive slots _ slot b hs h
  · simp at h

theorem slot_of_inactive (slots : List RaucSlot) (b : Nat)
    (h : slot_state slots b = ST_INACTIVE) : ∃ s, slots[b]? = some s := by
  unfold slot_state at h
  cases hs : slots[b]? with
  | none => rw [hs] at h; exact absurd h (by decide)
  | some s => exact ⟨s, rfl⟩

theorem index_eq_of_name_eq (slots : List RaucSlot)
    (hnames : (slots.map (fun s => s.name)).Nodup) (i j : Nat) (s t : RaucSlot)
    (hi : slots[i]? = some s) (hj : slots[j]? = some t) (hname : s.name = t.name) :
    i = j := by
  induction slots generalizing i j with
  | nil => simp at hi
  | cons x rest ih =>
    simp only [List.map_cons, List.nodup_cons, List.mem_map, not_exists, not_and] at hnames
    cases i with
    | zero =>
      cases j with
      | zero => rfl
      | succ j =>
        simp only [List.getElem?_cons_zero, Option.some.injEq] at hi
        simp only [List.getElem?_cons_succ] at hj
        subst hi
        exact absurd hname.symm (hnames.1 t (List.getElem?_mem hj))
    | succ i =>
      cases j with
      | zero =>
        simp only [List.getElem?_cons_zero, Option.some.injEq] at hj
        simp only [List.getElem?_cons_succ] at hi
        subst hj
        exact absurd hname (hnames.1 s (List.getElem?_mem hi))
      | succ j =>
        simp only [List.getElem?_cons_succ] at hi hj
        rw [ih hnames.2 i j hi hj]

/-- C19: whenever `determine_target_install_group` returns a target group, any two
selected slots whose inactive base slots (as `get_inactive_base_slot` computes them)
belong to the same slot class have base slots of the same name; as the slot names
of a configuration are distinct, they have the same base slot. -/
theorem target_group_one_base_per_class (slots : List RaucSlot) (iter : List Nat)
    (m : RaucManifest) (tg : List (String × Nat))
    (h : determine_target_install_group slots iter m = .ok (some tg))
    (c1 c2 : String) (k1 k2 b1 b2 : Nat)
    (h1 : (c1, k1) ∈ tg) (h2 : (c2, k2) ∈ tg)
    (hb1 : get_inactive_base_slot slots k1 = .ok (some b1))
    (hb2 : get_inactive_base_slot slots k2 = .ok (some b2))
    (hclass : slot_sclass slots b1 = slot_sclass slots b2) :
    slot_name slots b1 = slot_name slots b2 ∧
    ((slots.map (fun s => s.name)).Nodup → b1 = b2) := by
  obtain ⟨⟨bases, _, _, hbase⟩, _⟩ := determine_target_install_group_inv slots iter m tg h
  obtain ⟨b1', kb1, hb1', hl1, hn1⟩ := hbase c1 k1 h1
  obtain ⟨b2', kb2, hb2', hl2, hn2⟩ := hbase c2 k2 h2
  rw [hb1] at hb1'
  rw [hb2] at hb2'
  simp only [Except.ok.injEq, Option.some.injEq] at hb1' hb2'
  subst hb1' hb2'
  rw [hclass, hl2] at hl1
  simp only [Option.some.injEq] at hl1
  subst hl1
  have hname : slot_name slots b1 = slot_name slots b2 := by rw [← hn1, hn2]
  refine ⟨hname, fun hnames => ?_⟩
  obtain ⟨s1, hs1⟩ := slot_of_inactive slots b1 (get_inactive_base_slot_inactive slots k1 b1 hb1)
  obtain ⟨s2, hs2⟩ := slot_of_inactive slots b2 (get_inactive_base_slot_inactive slots k2 b2 hb2)
  have : s1.name = s2.name := by simpa [slot_name, hs1, hs2] using hname
  exact index_eq_of_name_eq slots hnames b1 b2 s1 s2 hs1 hs2 this

/-- Witness of C19: on the A/B layout booted from slot A the selected slots
`rootfs.1` and `appfs.1` both have the base slot `rootfs.1`. -/
theorem target_group_one_base_per_class_witness :
    determine_target_install_group ab_booted_table [0, 1, 2, 3] ab_manifest
      = .ok (some [("rootfs", 1), ("appfs", 3)]) ∧
    get_inactive_base_slot ab_booted_table 1 = .ok (some 1) ∧
    get_inactive_base_slot ab_booted_table 3 = .ok (some 1) ∧
    slot_name ab_booted_table 1 = slot_name ab_booted_table 1 ∧
    ((ab_booted_table.map (fun s => s.name)).Nodup → 1 = 1) :=
  ⟨rfl, rfl, rfl, target_group_one_base_per_class ab_booted_table [0, 1, 2, 3] ab_manifest
    [("rootfs", 1), ("appfs", 3)] rfl "rootfs" "appfs" 1 3 1 1 (by decide) (by decide)
    rfl rfl rfl⟩

/-! ## Handler output -/

theorem split_tokens_ne_nil (n : Nat) (cs : List Char) : split_tokens n cs ≠ [] := by
  cases cs with
  | nil => cases n <;> simp [split_tokens]
  | cons c cs =>
    cases n with
    | zero => simp [split_tokens]
    | succ n =>
      rw [split_tokens]
      split
      · simp
      · split <;> simp

/-- A protocol line splits into the token `<<` and at least one more token. -/
theorem g_strsplit_protocol_line (line : String)
    (h : "<< ".data.isPrefixOf line.data = true) :
    ∃ t ts, g_strsplit line = "<<" :: t :: ts := by
  rw [List.isPrefixOf_iff_prefix] at h
  obtain ⟨cs, hcs⟩ := h
  have hdata : line.data = '<' :: '<' :: ' ' :: cs := by rw [← hcs]; rfl
  have hne := split_tokens_ne_nil 3 cs
  cases hS : split_tokens 3 cs with
  | nil => exact absurd hS hne
  | cons t ts =>
    refine ⟨String.mk t, ts.map String.mk, ?_⟩
    unfold g_strsplit
    rw [hdata]
    have h1 : split_tokens 4 (' ' :: cs) = [] :: t :: ts := by
      rw [split_tokens, if_pos rfl, hS]
    have h2 : split_tokens 4 ('<' :: ' ' :: cs) = ['<'] :: t :: ts := by
      rw [split_tokens, if_neg (by decide), h1]
    have h3 : split_tokens 4 ('<' :: '<' :: ' ' :: cs) = ['<', '<'] :: t :: ts := by
      rw [split_tokens, if_neg (by decide), h2]
    simp only
    rw [h3]
    rfl

/-- The read past the end of the split array happens for the lines that split into
exactly the two tokens `<<` and `image`, and for no other line. -/
theorem parse_handler_output_crash_iff (line : String) :
    (∃ c, parse_handler_output line = .error c) ↔
      ("<< ".data.isPrefixOf line.data = true ∧ g_strsplit line = ["<<", "image"]) := by
  by_cases hp : "<< ".data.isPrefixOf line.data = true
  · obtain ⟨t, ts, hsplit⟩ := g_strsplit_protocol_line line hp
    have h1 : split_index ("<<" :: t :: ts) 1 = .ok (some t) := by simp [split_index]
    have h2 : ∃ a, split_index ("<<" :: t :: ts) 2 = .ok a := by
      cases ts with
      | nil => exact ⟨none, by simp [split_index]⟩
      | cons u us => exact ⟨some u, by simp [split_index]⟩
    obtain ⟨a, ha⟩ := h2
    unfold parse_handler_output
    simp only [hp, Bool.not_true, Bool.false_eq_true, if_false, hsplit, h1, ha, true_and]
    by_cases c1 : t = "handler"
    · simp [c1]
    · by_cases c2 : t = "image"
      · simp only [c1, c2, if_false, if_true]
        cases ts with
        | nil =>
          have h3 : split_index ["<<", "image"] 3 = .error .outOfBounds := rfl
          rw [c2] at ha
          simp [h3]
        | cons u us =>
          have h3 : ∃ b, split_index ("<<" :: "image" :: u :: us) 3 = .ok b := by
            cases us with
            | nil => exact ⟨none, by simp [split_index]⟩
            | cons v vs => exact ⟨some v, by simp [split_index]⟩
          obtain ⟨b, hb⟩ := h3
          rw [c2] at ha
          simp [hb, ha]
      · by_cases c3 : t = "error"
        · simp [c1, c2, c3]
        · by_cases c4 : t = "bootloader"
          · simp [c1, c2, c3, c4]
          · simp [c1, c2, c3, c4]
  · have hp' : "<< ".data.isPrefixOf line.data = false := Bool.eq_false_iff.2 hp
    unfold parse_handler_output
    simp [hp']

/-- C20: `parse_handler_output` reads `split[2]` and `split[3]` for an `image` line
after testing only `split[1]`. The line `<< image` splits into the two tokens `<<`
and `image`, so the array ends with its NULL entry at position 2 and the read of
`split[3]` is past the end of the array. The lines `<< handler` and `<< image name`
only read up to the NULL entry. -/
theorem parse_handler_output_reads_past_end :
    g_strsplit "<< image" = ["<<", "image"] ∧
    split_index (g_strsplit "<< image") 3 = .error .outOfBounds ∧
    parse_handler_output "<< image" = .error .outOfBounds ∧
    parse_handler_output "<< handler" = .ok "Handler status: (null)\n" ∧
    parse_handler_output "<< image rootfs.img" = .ok "Image 'rootfs.img' status: (null)\n" :=
  ⟨by decide, rfl, rfl, rfl, rfl⟩

/-- C15 (as stated, refuted): the handler prints `<< error disk full` and exits with
status 1. The line is only printed, cut at the first space (`error: 'disk'`); the
install fails with the message of the failed wait for the process behind the prefix
`Handler error: `, and this message does not contain `disk full`. -/
theorem handler_message_not_in_error :
    parse_handler_output "<< error disk full" = .ok "error: 'disk'\n" ∧
    (do_install_bundle disk_full_env demo_config (some ab_table) [0, 1, 2, 3] [0, 1, 2, 3]
      (some "A") "update.raucb" []).2
      = .failure "Handler error: Child process exited with code 1" ∧
    contains_text "disk full".data "Handler error: Child process exited with code 1".data
      = false :=
  ⟨rfl, rfl, by decide⟩

/-! ## Compatibility of the manifest -/

theorem Run.leaf (P : Event → Prop) (R : List Event → Outcome → Prop) (tr : List Event)
    (o : Outcome) (h : R [] o) : Run P R tr (tr, o) :=
  ⟨[], by simp, by simp, h⟩

/-- Calls made before a run count with the run. -/
theorem Run.prepend (P : Event → Prop) (R R' : List Event → Outcome → Prop)
    (tr pre : List Event) (r : List Event × Outcome) (hpre : ∀ e ∈ pre, P e)
    (hR : ∀ b o, R' b o → R (pre ++ b) o) (h : Run P R' (tr ++ pre) r) : Run P R tr r := by
  obtain ⟨new, hnew, hall, hr⟩ := h
  refine ⟨pre ++ new, by rw [hnew, List.append_assoc], ?_, hR _ _ hr⟩
  rw [List.forall_mem_append]
  exact ⟨hpre, hall⟩

/-- One call made before a run counts with the run. -/
theorem Run.prepend1 (P : Event → Prop) (R R' : List Event → Outcome → Prop)
    (tr : List Event) (e : Event) (r : List Event × Outcome) (he : P e)
    (hR : ∀ b o, R' b o → R (e :: b) o) (h : Run P R' (tr ++ [e]) r) : Run P R tr r :=
  Run.prepend P R R' tr [e] r (by simpa using he) (by simpa using hR) h

theorem MismatchEnd.cons (env : Env) (slots : Option (List RaucSlot))
    (slotlist iter : List Nat) (bootname : Option String) (mp : String)
    (read need : List Event) (e : Event) (b : List Event)
    (o : Outcome) (h : MismatchEnd env slots slotlist iter bootname mp read need b o) :
    MismatchEnd env slots slotlist iter bootname mp read need (e :: b) o := by
  obtain ⟨hne, ⟨h1, pre, x, y, hb, hneed⟩ | ⟨e', he', hf⟩ | h3 | h4 | h5⟩ := h
  · exact ⟨hne, Or.inl ⟨h1, e :: pre, x, y, by rw [hb]; rfl,
      fun z hz => List.mem_cons_of_mem _ (hneed z hz)⟩⟩
  · exact ⟨hne, Or.inr (Or.inl ⟨e', List.mem_cons_of_mem _ he', hf⟩)⟩
  · exact ⟨hne, Or.inr (Or.inr (Or.inl h3))⟩
  · exact ⟨hne, Or.inr (Or.inr (Or.inr (Or.inl h4)))⟩
  · exact ⟨hne, Or.inr (Or.inr (Or.inr (Or.inr h5)))⟩

/-- A call made before the run is among the calls before the unmount. -/
theorem MismatchEnd.cons_need (env : Env) (slots : Option (List RaucSlot))
    (slotlist iter : List Nat) (bootname : Option String) (mp : String)
    (read need : List Event) (e : Event) (b : List Event)
    (o : Outcome) (h : MismatchEnd env slots slotlist iter bootname mp read need b o) :
    MismatchEnd env slots slotlist iter bootname mp read (e :: need) (e :: b) o := by
  obtain ⟨hne, ⟨h1, pre, x, y, hb, hneed⟩ | ⟨e', he', hf⟩ | h3 | h4 | h5⟩ := h
  · refine ⟨hne, Or.inl ⟨h1, e :: pre, x, y, by rw [hb]; rfl, ?_⟩⟩
    intro z hz
    rcases List.mem_cons.1 hz with rfl | hz
    · exact List.mem_cons_self _ _
    · exact List.mem_cons_of_mem _ (hneed z hz)
  · exact ⟨hne, Or.inr (Or.inl ⟨e', List.mem_cons_of_mem _ he', hf⟩)⟩
  · exact ⟨hne, Or.inr (Or.inr (Or.inl h3))⟩
  · exact ⟨hne, Or.inr (Or.inr (Or.inr (Or.inl h4)))⟩
  · exact ⟨hne, Or.inr (Or.inr (Or.inr (Or.inr h5)))⟩

/-- A failed call, other than the unmount of the bundle and the removal of its mount
point, followed by any way to end without success. -/
theorem MismatchEnd.failed (env : Env) (slots : Option (List RaucSlot))
    (slotlist iter : List Nat) (bootname : Option String) (mp : String)
    (read need : List Event) (c : Call) (b : List Event)
    (o : Outcome) (hu : c ≠ .umount_bundle mp) (hr : c ≠ .rmdir mp) (h : o ≠ .success) :
    MismatchEnd env slots slotlist iter bootname mp read need ((⟨c, false⟩ : Event) :: b) o :=
  ⟨h, Or.inr (Or.inl ⟨⟨c, false⟩, List.mem_cons_self _ _, rfl, hu, hr⟩)⟩

/-- The exit through the label `umount` adds the unmount of the bundle and the
removal of its mount point, and nothing else. -/
theorem umount_exit_run (env : Env) (mountpoint : String) (tr : List Event) (out : Outcome)
    (R : List Event → Outcome → Prop)
    (h : ∀ a b, R [⟨.umount_bundle mountpoint, a⟩, ⟨.rmdir mountpoint, b⟩] out) :
    Run (fun e => writes_slot e.call = false) R tr (umount_exit env mountpoint tr out) := by
  unfold umount_exit
  simp only [do_call]
  exact ⟨_, List.append_assoc _ _ _, by simp [writes_slot], h _ _⟩

theorem do_install_bundle_mismatch_run (env : Env) (cfg : RaucConfig)
    (slots : Option (List RaucSlot)) (slotlist iter : List Nat) (bootname : Option String)
    (bundlefile : String) (tr : List Event)
    (hmis : ∀ h, verify_compatible cfg (env.manifest h) = false) :
    Run (fun e => writes_slot e.call = false)
      (MismatchEnd env slots slotlist iter bootname
        (g_build_filename cfg.mount_prefix "bundle")
        (tr ++ [(⟨.create_mount_point "bundle", true⟩ : Event)] ++
          [(⟨.status "Checking and mounting bundle...", true⟩ : Event)] ++
          [(⟨.mount_bundle bundlefile (g_build_filename cfg.mount_prefix "bundle"), true⟩
            : Event)] ++
          [(⟨.verify_manifest (g_build_filename cfg.mount_prefix "bundle"), true⟩ : Event)])
        [⟨.mount_bundle bundlefile (g_build_filename cfg.mount_prefix "bundle"), true⟩]) tr
      (do_install_bundle env cfg slots slotlist iter bootname bundlefile tr) := by
  have hcons := MismatchEnd.cons env slots slotlist iter bootname
    (g_build_filename cfg.mount_prefix "bundle")
  have hfailed := MismatchEnd.failed env slots slotlist iter bootname
    (g_build_filename cfg.mount_prefix "bundle")
  unfold do_install_bundle
  cases hst : determine_slot_states slots slotlist bootname with
  | error err =>
    exact Run.leaf _ _ _ _ ⟨by simp, Or.inr (Or.inr (Or.inr (Or.inl ⟨err, hst⟩)))⟩
  | ok tbl =>
    simp only
    rw [do_call]
    cases h0 : env.result tr (.create_mount_point "bundle") with
    | false =>
      exact Run.prepend1 _ _ (fun _ o => o ≠ .success) tr ⟨.create_mount_point "bundle", false⟩ _
        (by simp [writes_slot])
        (fun b o h => hfailed _ _ _ b o (by simp) (by simp) h) (Run.leaf _ _ _ _ (by simp))
    | true =>
      simp only [install_args_update]
      refine Run.prepend1 _ _ (MismatchEnd env slots slotlist iter bootname _ _ _) tr
        ⟨.create_mount_point "bundle", true⟩ _ (by simp [writes_slot])
        (fun b o h => hcons _ _ _ b o h) ?_
      refine Run.prepend1 _ _ (MismatchEnd env slots slotlist iter bootname _ _ _) _
        ⟨.status "Checking and mounting bundle...", true⟩ _ (by simp [writes_slot])
        (fun b o h => hcons _ _ _ b o h) ?_
      generalize tr ++ [(⟨.create_mount_point "bundle", true⟩ : Event)] ++
        [(⟨.status "Checking and mounting bundle...", true⟩ : Event)] = trA
      rw [do_call]
      cases h1 : env.result trA
          (.mount_bundle bundlefile (g_build_filename cfg.mount_prefix "bundle")) with
      | false =>
        exact Run.prepend1 _ _ (fun _ o => o ≠ .success) trA
          ⟨.mount_bundle bundlefile (g_build_filename cfg.mount_prefix "bundle"), false⟩ _
          (by simp [writes_slot]) (fun b o h => hfailed _ _ _ b o (by simp) (by simp) h)
          (umount_exit_run _ _ _ _ _ (fun _ _ => by simp))
      | true =>
        simp only
        refine Run.prepend1 _ _ (MismatchEnd env slots slotlist iter bootname
            (g_build_filename cfg.mount_prefix "bundle") _ []) trA
          ⟨.mount_bundle bundlefile (g_build_filename cfg.mount_prefix "bundle"), true⟩ _
          (by simp [writes_slot])
          (fun b o h => MismatchEnd.cons_need env slots slotlist iter bootname _ _ [] _ b o h) ?_
        replace hcons := fun read => hcons read []
        replace hfailed := fun read => hfailed read []
        generalize trA ++ [(⟨.mount_bundle bundlefile
          (g_build_filename cfg.mount_prefix "bundle"), true⟩ : Event)] = trB
        rw [do_call]
        cases h2 : env.result trB
            (.verify_manifest (g_build_filename cfg.mount_prefix "bundle")) with
        | false =>
          exact Run.prepend1 _ _ (fun _ o => o ≠ .success) trB
            ⟨.verify_manifest (g_build_filename cfg.mount_prefix "bundle"), false⟩ _
            (by simp [writes_slot]) (fun b o h => hfailed _ _ b o (by simp) (by simp) h)
            (umount_exit_run _ _ _ _ _ (fun _ _ => by simp))
        | true =>
          simp only
          refine Run.prepend1 _ _ (MismatchEnd env slots slotlist iter bootname
              (g_build_filename cfg.mount_prefix "bundle") _ []) trB
            ⟨.verify_manifest (g_build_filename cfg.mount_prefix "bundle"), true⟩ _
            (by simp [writes_slot]) (fun b o h => hcons _ _ b o h) ?_
          generalize trB ++ [(⟨.verify_manifest
            (g_build_filename cfg.mount_prefix "bundle"), true⟩ : Event)] = trC
          cases hd : determine_target_install_group tbl iter (env.manifest trC) with
          | error c =>
            exact Run.leaf _ _ _ _ ⟨by simp, Or.inr (Or.inr (Or.inl ⟨c, rfl⟩))⟩
          | ok og =>
            cases og with
            | none =>
              exact umount_exit_run _ _ _ _ _ (fun _ _ =>
                ⟨by simp, Or.inr (Or.inr (Or.inr (Or.inr ⟨tbl, hst, hd⟩)))⟩)
            | some tg =>
              simp only
              have hc : (!verify_compatible cfg (env.manifest trC)) = true := by
                simp [hmis trC]
              -- the install handler, started after any history
              have hmain : ∀ T, Run (fun e => writes_slot e.call = false)
                  (MismatchEnd env slots slotlist iter bootname
                    (g_build_filename cfg.mount_prefix "bundle") trC []) T
                  (match (match (env.manifest trC).handler_name with
                     | some h =>
                       launch_and_wait_custom_handler env cfg
                         (g_build_filename cfg.mount_prefix "bundle") (env.manifest trC) h T
                     | none =>
                       launch_and_wait_default_handler env cfg tbl
                         (g_build_filename cfg.mount_prefix "bundle")
                         (env.manifest trC) tg T) with
                   | (tr5, .failure msg) =>
                     umount_exit env (g_build_filename cfg.mount_prefix "bundle") tr5
                       (.failure ("Handler error: " ++ msg))
                   | (tr5, .crash c) => (tr5, .crash c)
                   | (tr5, .success) =>
                     match optional_handler env (g_build_filename cfg.mount_prefix "bundle")
                         cfg.postinstall_handler tr5 with
                     | (tr6, .failure msg) =>
                       umount_exit env (g_build_filename cfg.mount_prefix "bundle") tr6
                         (.failure ("Handler error: " ++ msg))
                     | (tr6, .crash c) => (tr6, .crash c)
                     | (tr6, .success) =>
                       umount_exit env (g_build_filename cfg.mount_prefix "bundle") tr6
                         .success) := by
                intro T
                have hend : ∀ a b, MismatchEnd env slots slotlist iter bootname
                    (g_build_filename cfg.mount_prefix "bundle") trC []
                    [⟨.umount_bundle (g_build_filename cfg.mount_prefix "bundle"), a⟩,
                      ⟨.rmdir (g_build_filename cfg.mount_prefix "bundle"), b⟩]
                    (.failure ("Handler error: " ++ "Compatible mismatch")) :=
                  fun a b => ⟨by simp, Or.inl ⟨rfl, [], a, b, rfl, by simp⟩⟩
                cases hn : (env.manifest trC).handler_name with
                | some h =>
                  simp only [launch_and_wait_custom_handler, hc, if_true]
                  exact umount_exit_run _ _ _ _ _ hend
                | none =>
                  simp only [launch_and_wait_default_handler, hc, if_true]
                  exact umount_exit_run _ _ _ _ _ hend
              cases hpre : cfg.preinstall_handler with
              | none =>
                simp only [optional_handler]
                exact hmain trC
              | some ph =>
                simp only [optional_handler, launch_and_wait_handler, do_call]
                cases hparse : parse_handler_lines (env.handler_output trC ph) with
                | error c =>
                  simp only
                  exact Run.prepend1 _ _ (fun _ o => ∃ c, o = Outcome.crash c) trC
                    ⟨.handler (g_build_filename cfg.mount_prefix "bundle") ph,
                      env.result trC (.handler (g_build_filename cfg.mount_prefix "bundle") ph)⟩ _
                    (by simp [writes_slot]) (fun b o h => ⟨by obtain ⟨c, rfl⟩ := h; simp,
                      Or.inr (Or.inr (Or.inl h))⟩)
                    (Run.leaf _ _ _ _ ⟨c, rfl⟩)
                | ok texts =>
                  simp only
                  cases hr : env.result trC
                      (.handler (g_build_filename cfg.mount_prefix "bundle") ph) with
                  | false =>
                    simp only [Bool.false_eq_true, if_false]
                    exact Run.prepend1 _ _ (fun _ o => o ≠ .success) trC
                      ⟨.handler (g_build_filename cfg.mount_prefix "bundle") ph, false⟩ _
                      (by simp [writes_slot])
                      (fun b o h => hfailed _ _ b o (by simp) (by simp) h)
                      (Run.leaf _ _ _ _ (by simp))
                  | true =>
                    simp only [if_true]
                    exact Run.prepend1 _ _ (MismatchEnd env slots slotlist iter bootname
                        (g_build_filename cfg.mount_prefix "bundle") trC []) trC
                      ⟨.handler (g_build_filename cfg.mount_prefix "bundle") ph, true⟩ _
                      (by simp [writes_slot]) (fun b o h => hcons _ _ b o h) (hmain _)

/-- C11 (as stated, refuted): the system is `other`, the manifest is for `demo`. The
bundle is mounted (the manifest is read from the mounted bundle) before the
comparison is made in the install handler; the install then fails with
`Compatible mismatch` and unmounts the bundle. -/
theorem incompatible_bundle_is_mounted :
    verify_compatible other_config ab_manifest = false ∧
    do_install_bundle all_ok_env other_config (some ab_table) [0, 1, 2, 3] [0, 1, 2, 3]
      (some "A") "update.raucb" [] =
      ([⟨.create_mount_point "bundle", true⟩,
        ⟨.status "Checking and mounting bundle...", true⟩,
        ⟨.mount_bundle "update.raucb" "/mnt/rauc/bundle", true⟩,
        ⟨.verify_manifest "/mnt/rauc/bundle", true⟩,
        ⟨.umount_bundle "/mnt/rauc/bundle", true⟩,
        ⟨.rmdir "/mnt/rauc/bundle", true⟩],
       .failure "Handler error: Compatible mismatch") :=
  ⟨by decide, by decide⟩

/-- C11 (amended): when the manifest of the bundle is not compatible with the
system, `do_install_bundle` never succeeds and makes no bootloader call, no slot
mount, no image copy and no slot status write. It ends with the error
`Handler error: Compatible mismatch` of the install handler, after the bundle was
mounted with success, and its last two calls unmount the bundle and remove the mount
point; unless a call before the comparison failed (mount point, bundle mount,
manifest, pre-install handler), the slot states were not found, no target group was
found for the manifest read from the bundle, or the run did not return. -/
theorem do_install_bundle_incompatible (env : Env) (cfg : RaucConfig)
    (slots : Option (List RaucSlot)) (slotlist iter : List Nat) (bootname : Option String)
    (bundlefile : String) (tr : List Event)
    (hmis : ∀ h, verify_compatible cfg (env.manifest h) = false) :
    ∃ new, (do_install_bundle env cfg slots slotlist iter bootname bundlefile tr).1
        = tr ++ new ∧
      (∀ e ∈ new, writes_slot e.call = false) ∧
      (do_install_bundle env cfg slots slotlist iter bootname bundlefile tr).2 ≠ .success ∧
      (((do_install_bundle env cfg slots slotlist iter bootname bundlefile tr).2
          = .failure "Handler error: Compatible mismatch" ∧
        ∃ pre a b,
          new = pre ++ [⟨.umount_bundle (g_build_filename cfg.mount_prefix "bundle"), a⟩,
            ⟨.rmdir (g_build_filename cfg.mount_prefix "bundle"), b⟩] ∧
          (⟨.mount_bundle bundlefile (g_build_filename cfg.mount_prefix "bundle"), true⟩
            : Event) ∈ pre) ∨
       (∃ e ∈ new, e.ok = false ∧
          e.call ≠ .umount_bundle (g_build_filename cfg.mount_prefix "bundle") ∧
          e.call ≠ .rmdir (g_build_filename cfg.mount_prefix "bundle")) ∨
       (∃ c, (do_install_bundle env cfg slots slotlist iter bootname bundlefile tr).2
          = .crash c) ∨
       (∃ err, determine_slot_states slots slotlist bootname = .error err) ∨
       (∃ tbl, determine_slot_states slots slotlist bootname = .ok tbl ∧
         determine_target_install_group tbl iter
           (env.manifest (tr ++ [⟨.create_mount_point "bundle", true⟩,
             ⟨.status "Checking and mounting bundle...", true⟩,
             ⟨.mount_bundle bundlefile (g_build_filename cfg.mount_prefix "bundle"), true⟩,
             ⟨.verify_manifest (g_build_filename cfg.mount_prefix "bundle"), true⟩]))
           = .ok none)) := by
  obtain ⟨new, hnew, hall, hne, hend⟩ :=
    do_install_bundle_mismatch_run env cfg slots slotlist iter bootname bundlefile tr hmis
  refine ⟨new, hnew, hall, hne, ?_⟩
  simp only [List.append_assoc, List.singleton_append] at hend
  rcases hend with ⟨h1, pre, a, b, hpre, hneed⟩ | h2
  · exact Or.inl ⟨h1, pre, a, b, hpre, hneed _ (List.mem_singleton.2 rfl)⟩
  · exact Or.inr h2

/-- Witness of C11 (amended): the system `other` and a bundle for `demo`. -/
theorem do_install_bundle_incompatible_witness :
    verify_compatible other_config ab_manifest = false ∧
    ∃ new, (do_install_bundle all_ok_env other_config (some ab_table) [0, 1, 2, 3]
        [0, 1, 2, 3] (some "A") "update.raucb" []).1 = [] ++ new ∧
      (∀ e ∈ new, writes_slot e.call = false) ∧
      (do_install_bundle all_ok_env other_config (some ab_table) [0, 1, 2, 3]
        [0, 1, 2, 3] (some "A") "update.raucb" []).2 ≠ .success ∧
      (((do_install_bundle all_ok_env other_config (some ab_table) [0, 1, 2, 3]
          [0, 1, 2, 3] (some "A") "update.raucb" []).2
          = .failure "Handler error: Compatible mismatch" ∧
        ∃ pre a b,
          new = pre ++ [⟨.umount_bundle (g_build_filename other_config.mount_prefix "bundle"), a⟩,
            ⟨.rmdir (g_build_filename other_config.mount_prefix "bundle"), b⟩] ∧
          (⟨.mount_bundle "update.raucb"
            (g_build_filename other_config.mount_prefix "bundle"), true⟩ : Event) ∈ pre) ∨
       (∃ e ∈ new, e.ok = false ∧
          e.call ≠ .umount_bundle (g_build_filename other_config.mount_prefix "bundle") ∧
          e.call ≠ .rmdir (g_build_filename other_config.mount_prefix "bundle")) ∨
       (∃ c, (do_install_bundle all_ok_env other_config (some ab_table) [0, 1, 2, 3]
          [0, 1, 2, 3] (some "A") "update.raucb" []).2 = .crash c) ∨
       (∃ err, determine_slot_states (some ab_table) [0, 1, 2, 3] (some "A") = .error err) ∨
       (∃ tbl, determine_slot_states (some ab_table) [0, 1, 2, 3] (some "A") = .ok tbl ∧
         determine_target_install_group tbl [0, 1, 2, 3]
           (all_ok_env.manifest ([] ++ [⟨.create_mount_point "bundle", true⟩,
             ⟨.status "Checking and mounting bundle...", true⟩,
             ⟨.mount_bundle "update.raucb"
               (g_build_filename other_config.mount_prefix "bundle"), true⟩,
             ⟨.verify_manifest (g_build_filename other_config.mount_prefix "bundle"), true⟩]))
           = .ok none)) :=
  ⟨by decide,
    do_install_bundle_incompatible all_ok_env other_config (some ab_table) [0, 1, 2, 3]
      [0, 1, 2, 3] (some "A") "update.raucb" []
      (fun _ => (by decide : verify_compatible other_config ab_manifest = false))⟩

/-! ## A custom handler that fails -/

theorem HandlerEnd.prepend_call (env : Env) (cfg : RaucConfig) (slots : Option (List RaucSlot))
    (slotlist iter : List Nat) (bootname : Option String) (mp hpath : String)
    (read base : List Event) (e : Event) (b : List Event) (o : Outcome)
    (h : HandlerEnd env cfg slots slotlist iter bootname mp hpath read (base ++ [e]) b o) :
    HandlerEnd env cfg slots slotlist iter bootname mp hpath read base (e :: b) o := by
  obtain ⟨hne, ⟨pre, x, y, hb, ho⟩ | ⟨e', he', hf⟩ | ⟨ph, pre, hph, hb⟩ | h4 | h5 | h6 | h7⟩ := h
  · refine ⟨hne, Or.inl ⟨e :: pre, x, y, by rw [hb]; rfl, ?_⟩⟩
    rw [ho]
    simp
  · exact ⟨hne, Or.inr (Or.inl ⟨e', List.mem_cons_of_mem _ he', hf⟩)⟩
  · exact ⟨hne, Or.inr (Or.inr (Or.inl ⟨ph, e :: pre, hph, by rw [hb]; rfl⟩))⟩
  · exact ⟨hne, Or.inr (Or.inr (Or.inr (Or.inl h4)))⟩
  · exact ⟨hne, Or.inr (Or.inr (Or.inr (Or.inr (Or.inl h5))))⟩
  · exact ⟨hne, Or.inr (Or.inr (Or.inr (Or.inr (Or.inr (Or.inl h6)))))⟩
  · exact ⟨hne, Or.inr (Or.inr (Or.inr (Or.inr (Or.inr (Or.inr h7)))))⟩

/-- A failed call before the handlers, followed by any way to end without success. -/
theorem HandlerEnd.after_failed_call (env : Env) (cfg : RaucConfig) (slots : Option (List RaucSlot))
    (slotlist iter : List Nat) (bootname : Option String) (mp hpath : String)
    (read base : List Event) (c : Call) (b : List Event) (o : Outcome)
    (hh : is_handler_call c = false) (hu : c ≠ .umount_bundle mp) (hr : c ≠ .rmdir mp)
    (h : o ≠ .success) :
    HandlerEnd env cfg slots slotlist iter bootname mp hpath read base
      ((⟨c, false⟩ : Event) :: b) o :=
  ⟨h, Or.inr (Or.inl ⟨⟨c, false⟩, List.mem_cons_self _ _, rfl, hh, hu, hr⟩)⟩

theorem do_install_bundle_handler_run (env : Env) (cfg : RaucConfig)
    (slots : Option (List RaucSlot)) (slotlist iter : List Nat) (bootname : Option String)
    (bundlefile : String) (tr : List Event) (hname : String)
    (hcustom : ∀ h, (env.manifest h).handler_name = some hname)
    (hfail : ∀ h, env.result h (.handler (g_build_filename cfg.mount_prefix "bundle")
      (g_build_filename (g_build_filename cfg.mount_prefix "bundle") hname)) = false) :
    Run (fun e => writes_slot e.call = false)
      (HandlerEnd env cfg slots slotlist iter bootname
        (g_build_filename cfg.mount_prefix "bundle")
        (g_build_filename (g_build_filename cfg.mount_prefix "bundle") hname)
        (tr ++ [(⟨.create_mount_point "bundle", true⟩ : Event)] ++
          [(⟨.status "Checking and mounting bundle...", true⟩ : Event)] ++
          [(⟨.mount_bundle bundlefile (g_build_filename cfg.mount_prefix "bundle"), true⟩
            : Event)] ++
          [(⟨.verify_manifest (g_build_filename cfg.mount_prefix "bundle"), true⟩ : Event)])
        tr) tr
      (do_install_bundle env cfg slots slotlist iter bootname bundlefile tr) := by
  have hcons := HandlerEnd.prepend_call env cfg slots slotlist iter bootname
    (g_build_filename cfg.mount_prefix "bundle")
    (g_build_filename (g_build_filename cfg.mount_prefix "bundle") hname)
  have hfailed := HandlerEnd.after_failed_call env cfg slots slotlist iter bootname
    (g_build_filename cfg.mount_prefix "bundle")
    (g_build_filename (g_build_filename cfg.mount_prefix "bundle") hname)
  unfold do_install_bundle
  cases hst : determine_slot_states slots slotlist bootname with
  | error err =>
    exact Run.leaf _ _ _ _
      ⟨by simp, Or.inr (Or.inr (Or.inr (Or.inr (Or.inl ⟨err, hst⟩))))⟩
  | ok tbl =>
    simp only
    rw [do_call]
    cases h0 : env.result tr (.create_mount_point "bundle") with
    | false =>
      exact Run.prepend1 _ _ (fun _ o => o ≠ .success) tr ⟨.create_mount_point "bundle", false⟩ _
        (by simp [writes_slot])
        (fun b o h => hfailed _ tr _ b o rfl (by simp) (by simp) h) (Run.leaf _ _ _ _ (by simp))
    | true =>
      simp only [install_args_update]
      refine Run.prepend1 _ _ (HandlerEnd env cfg slots slotlist iter bootname _ _ _ _) tr
        ⟨.create_mount_point "bundle", true⟩ _ (by simp [writes_slot])
        (fun b o h => hcons _ tr _ b o h) ?_
      refine Run.prepend1 _ _ (HandlerEnd env cfg slots slotlist iter bootname _ _ _ _) _
        ⟨.status "Checking and mounting bundle...", true⟩ _ (by simp [writes_slot])
        (fun b o h => hcons _ _ _ b o h) ?_
      generalize tr ++ [(⟨.create_mount_point "bundle", true⟩ : Event)] ++
        [(⟨.status "Checking and mounting bundle...", true⟩ : Event)] = trA
      rw [do_call]
      cases h1 : env.result trA
          (.mount_bundle bundlefile (g_build_filename cfg.mount_prefix "bundle")) with
      | false =>
        exact Run.prepend1 _ _ (fun _ o => o ≠ .success) trA
          ⟨.mount_bundle bundlefile (g_build_filename cfg.mount_prefix "bundle"), false⟩ _
          (by simp [writes_slot]) (fun b o h => hfailed _ trA _ b o rfl (by simp) (by simp) h)
          (umount_exit_run _ _ _ _ _ (fun _ _ => by simp))
      | true =>
        simp only
        refine Run.prepend1 _ _ (HandlerEnd env cfg slots slotlist iter bootname _ _ _ _) trA
          ⟨.mount_bundle bundlefile (g_build_filename cfg.mount_prefix "bundle"), true⟩ _
          (by simp [writes_slot]) (fun b o h => hcons _ trA _ b o h) ?_
        generalize trA ++ [(⟨.mount_bundle bundlefile
          (g_build_filename cfg.mount_prefix "bundle"), true⟩ : Event)] = trB
        rw [do_call]
        cases h2 : env.result trB
            (.verify_manifest (g_build_filename cfg.mount_prefix "bundle")) with
        | false =>
          exact Run.prepend1 _ _ (fun _ o => o ≠ .success) trB
            ⟨.verify_manifest (g_build_filename cfg.mount_prefix "bundle"), false⟩ _
            (by simp [writes_slot]) (fun b o h => hfailed _ trB _ b o rfl (by simp) (by simp) h)
            (umount_exit_run _ _ _ _ _ (fun _ _ => by simp))
        | true =>
          simp only
          refine Run.prepend1 _ _ (HandlerEnd env cfg slots slotlist iter bootname _ _ _ _) trB
            ⟨.verify_manifest (g_build_filename cfg.mount_prefix "bundle"), true⟩ _
            (by simp [writes_slot]) (fun b o h => hcons _ trB _ b o h) ?_
          generalize trB ++ [(⟨.verify_manifest
            (g_build_filename cfg.mount_prefix "bundle"), true⟩ : Event)] = trC
          cases hd : determine_target_install_group tbl iter (env.manifest trC) with
          | error c =>
            exact Run.leaf _ _ _ _ ⟨by simp, Or.inr (Or.inr (Or.inr (Or.inl ⟨c, rfl⟩)))⟩
          | ok og =>
            cases og with
            | none =>
              exact umount_exit_run _ _ _ _ _ (fun _ _ =>
                ⟨by simp, Or.inr (Or.inr (Or.inr (Or.inr (Or.inr (Or.inl
                  ⟨tbl, hst, hd⟩)))))⟩)
            | some tg =>
              simp only [hcustom trC]
              -- the custom handler, started after any history
              have hmain : ∀ T, Run (fun e => writes_slot e.call = false)
                  (HandlerEnd env cfg slots slotlist iter bootname
                    (g_build_filename cfg.mount_prefix "bundle")
                    (g_build_filename (g_build_filename cfg.mount_prefix "bundle") hname)
                    trC T) T
                  (match launch_and_wait_custom_handler env cfg
                         (g_build_filename cfg.mount_prefix "bundle") (env.manifest trC)
                         hname T with
                   | (tr5, .failure msg) =>
                     umount_exit env (g_build_filename cfg.mount_prefix "bundle") tr5
                       (.failure ("Handler error: " ++ msg))
                   | (tr5, .crash c) => (tr5, .crash c)
                   | (tr5, .success) =>
                     match optional_handler env (g_build_filename cfg.mount_prefix "bundle")
                         cfg.postinstall_handler tr5 with
                     | (tr6, .failure msg) =>
                       umount_exit env (g_build_filename cfg.mount_prefix "bundle") tr6
                         (.failure ("Handler error: " ++ msg))
                     | (tr6, .crash c) => (tr6, .crash c)
                     | (tr6, .success) =>
                       umount_exit env (g_build_filename cfg.mount_prefix "bundle") tr6
                         .success) := by
                intro T
                cases hvc : verify_compatible cfg (env.manifest trC) with
                | false =>
                  simp only [launch_and_wait_custom_handler, hvc, Bool.not_false, if_true]
                  exact umount_exit_run _ _ _ _ _ (fun _ _ =>
                    ⟨by simp, Or.inr (Or.inr (Or.inr (Or.inr (Or.inr (Or.inr
                      hvc)))))⟩)
                | true =>
                  simp only [launch_and_wait_custom_handler, hvc, Bool.not_true,
                    Bool.false_eq_true, if_false, launch_and_wait_handler, do_call, hfail T]
                  cases hparse : parse_handler_lines (env.handler_output T
                      (g_build_filename (g_build_filename cfg.mount_prefix "bundle") hname)) with
                  | error c =>
                    simp only
                    exact ⟨_, rfl, by simp [writes_slot],
                      by simp, Or.inr (Or.inr (Or.inr (Or.inl ⟨c, rfl⟩)))⟩
                  | ok texts =>
                    simp only [Bool.false_eq_true, if_false]
                    refine Run.prepend1 _ _
                      (fun b o => (∃ x y, b = [(⟨.umount_bundle
                          (g_build_filename cfg.mount_prefix "bundle"), x⟩ : Event),
                          ⟨.rmdir (g_build_filename cfg.mount_prefix "bundle"), y⟩]) ∧
                        o = .failure ("Handler error: " ++ env.error_message (T ++
                          [⟨.handler (g_build_filename cfg.mount_prefix "bundle")
                            (g_build_filename (g_build_filename cfg.mount_prefix "bundle")
                              hname), false⟩]))) T
                      ⟨.handler (g_build_filename cfg.mount_prefix "bundle")
                        (g_build_filename (g_build_filename cfg.mount_prefix "bundle") hname),
                        false⟩ _ (by simp [writes_slot]) ?_
                      (umount_exit_run _ _ _ _ _ (fun x y => ⟨⟨x, y, rfl⟩, rfl⟩))
                    rintro b o ⟨⟨x, y, hb⟩, ho⟩
                    refine ⟨by rw [ho]; simp, Or.inl ⟨[], x, y, by rw [hb]; rfl, ?_⟩⟩
                    rw [ho]
                    simp
              cases hpre : cfg.preinstall_handler with
              | none =>
                simp only [optional_handler]
                exact hmain trC
              | some ph =>
                simp only [optional_handler, launch_and_wait_handler, do_call]
                cases hparse : parse_handler_lines (env.handler_output trC ph) with
                | error c =>
                  simp only
                  exact Run.prepend1 _ _ (fun _ o => ∃ c, o = Outcome.crash c) trC
                    ⟨.handler (g_build_filename cfg.mount_prefix "bundle") ph,
                      env.result trC (.handler (g_build_filename cfg.mount_prefix "bundle") ph)⟩ _
                    (by simp [writes_slot]) (fun b o h => ⟨by obtain ⟨c, rfl⟩ := h; simp,
                      Or.inr (Or.inr (Or.inr (Or.inl h)))⟩)
                    (Run.leaf _ _ _ _ ⟨c, rfl⟩)
                | ok texts =>
                  simp only
                  cases hr : env.result trC
                      (.handler (g_build_filename cfg.mount_prefix "bundle") ph) with
                  | false =>
                    simp only [Bool.false_eq_true, if_false]
                    exact Run.prepend1 _ _ (fun b o => b = [] ∧ o ≠ .success) trC
                      ⟨.handler (g_build_filename cfg.mount_prefix "bundle") ph, false⟩ _
                      (by simp [writes_slot])
                      (fun b o h => ⟨h.2, Or.inr (Or.inr (Or.inl
                        ⟨ph, [], hpre, by rw [h.1]; rfl⟩))⟩)
                      (Run.leaf _ _ _ _ ⟨rfl, by simp⟩)
                  | true =>
                    simp only [if_true]
                    exact Run.prepend1 _ _ (HandlerEnd env cfg slots slotlist iter bootname
                        _ _ trC _) trC
                      ⟨.handler (g_build_filename cfg.mount_prefix "bundle") ph, true⟩ _
                      (by simp [writes_slot]) (fun b o h => hcons _ trC _ b o h) (hmain _)

/-- C15 (amended): the manifest of the bundle names a custom handler, and this
handler exits non-zero whenever it is run, whatever lines it prints.
`do_install_bundle` then never succeeds and makes no `r_boot_set_primary` call. Its
last three calls are the handler, the unmount of the bundle and the removal of the
mount point, and it fails with the message `Handler error: ` followed by the error
reported after the handler exited (the error of the wait for the process, not what
the handler printed); unless a call before the handler failed (mount point, bundle
mount, manifest), the run ended with the failed pre-install handler, the run did
not return, the slot states were not found, or the manifest read from the bundle
has no target group or is not compatible with the system. -/
theorem custom_handler_failure (env : Env) (cfg : RaucConfig) (slots : Option (List RaucSlot))
    (slotlist iter : List Nat) (bootname : Option String) (bundlefile : String)
    (tr : List Event) (hname : String)
    (hcustom : ∀ h, (env.manifest h).handler_name = some hname)
    (hfail : ∀ h, env.result h (.handler (g_build_filename cfg.mount_prefix "bundle")
      (g_build_filename (g_build_filename cfg.mount_prefix "bundle") hname)) = false) :
    ∃ new, (do_install_bundle env cfg slots slotlist iter bootname bundlefile tr).1
        = tr ++ new ∧
      (∀ e ∈ new, is_set_primary e = false) ∧
      (do_install_bundle env cfg slots slotlist iter bootname bundlefile tr).2 ≠ .success ∧
      ((∃ pre a b,
          new = pre ++ [⟨.handler (g_build_filename cfg.mount_prefix "bundle")
              (g_build_filename (g_build_filename cfg.mount_prefix "bundle") hname), false⟩,
            ⟨.umount_bundle (g_build_filename cfg.mount_prefix "bundle"), a⟩,
            ⟨.rmdir (g_build_filename cfg.mount_prefix "bundle"), b⟩] ∧
          (do_install_bundle env cfg slots slotlist iter bootname bundlefile tr).2
            = .failure ("Handler error: " ++ env.error_message (tr ++ pre ++
                [⟨.handler (g_build_filename cfg.mount_prefix "bundle")
                  (g_build_filename (g_build_filename cfg.mount_prefix "bundle") hname),
                  false⟩]))) ∨
       (∃ e ∈ new, e.ok = false ∧ is_handler_call e.call = false ∧
          e.call ≠ .umount_bundle (g_build_filename cfg.mount_prefix "bundle") ∧
          e.call ≠ .rmdir (g_build_filename cfg.mount_prefix "bundle")) ∨
       (∃ ph pre, cfg.preinstall_handler = some ph ∧
          new = pre ++ [⟨.handler (g_build_filename cfg.mount_prefix "bundle") ph, false⟩]) ∨
       (∃ c, (do_install_bundle env cfg slots slotlist iter bootname bundlefile tr).2
          = .crash c) ∨
       (∃ err, determine_slot_states slots slotlist bootname = .error err) ∨
       (∃ tbl, determine_slot_states slots slotlist bootname = .ok tbl ∧
         determine_target_install_group tbl iter
           (env.manifest (tr ++ [⟨.create_mount_point "bundle", true⟩,
             ⟨.status "Checking and mounting bundle...", true⟩,
             ⟨.mount_bundle bundlefile (g_build_filename cfg.mount_prefix "bundle"), true⟩,
             ⟨.verify_manifest (g_build_filename cfg.mount_prefix "bundle"), true⟩]))
           = .ok none) ∨
       verify_compatible cfg
         (env.manifest (tr ++ [⟨.create_mount_point "bundle", true⟩,
           ⟨.status "Checking and mounting bundle...", true⟩,
           ⟨.mount_bundle bundlefile (g_build_filename cfg.mount_prefix "bundle"), true⟩,
           ⟨.verify_manifest (g_build_filename cfg.mount_prefix "bundle"), true⟩]))
         = false) := by
  obtain ⟨new, hnew, hall, hne, hend⟩ :=
    do_install_bundle_handler_run env cfg slots slotlist iter bootname bundlefile tr hname
      hcustom hfail
  have hread : tr ++ [(⟨.create_mount_point "bundle", true⟩ : Event)] ++
      [(⟨.status "Checking and mounting bundle...", true⟩ : Event)] ++
      [(⟨.mount_bundle bundlefile (g_build_filename cfg.mount_prefix "bundle"), true⟩
        : Event)] ++
      [(⟨.verify_manifest (g_build_filename cfg.mount_prefix "bundle"), true⟩ : Event)] =
      tr ++ [⟨.create_mount_point "bundle", true⟩,
        ⟨.status "Checking and mounting bundle...", true⟩,
        ⟨.mount_bundle bundlefile (g_build_filename cfg.mount_prefix "bundle"), true⟩,
        ⟨.verify_manifest (g_build_filename cfg.mount_prefix "bundle"), true⟩] := by simp
  rw [hread] at hend
  refine ⟨new, hnew, ?_, hne, hend⟩
  intro e he
  have hw := hall e he
  obtain ⟨c, ok⟩ := e
  cases c <;> simp_all [is_set_primary, writes_slot]

/-- Witness of C15 (amended): the handler `hook.sh` that prints `<< error disk full`
and exits with status 1 on the A/B layout booted from slot A. The run is of the
first kind: handler, unmount and removal of the mount point are its last calls. -/
theorem custom_handler_failure_witness :
    (∀ h, (disk_full_env.manifest h).handler_name = some "hook.sh") ∧
    (∀ h, disk_full_env.result h (.handler (g_build_filename demo_config.mount_prefix "bundle")
      (g_build_filename (g_build_filename demo_config.mount_prefix "bundle") "hook.sh"))
        = false) ∧
    do_install_bundle disk_full_env demo_config (some ab_table) [0, 1, 2, 3] [0, 1, 2, 3]
      (some "A") "update.raucb" [] =
      ([⟨.create_mount_point "bundle", true⟩,
        ⟨.status "Checking and mounting bundle...", true⟩,
        ⟨.mount_bundle "update.raucb" "/mnt/rauc/bundle", true⟩,
        ⟨.verify_manifest "/mnt/rauc/bundle", true⟩,
        ⟨.handler "/mnt/rauc/bundle" "/mnt/rauc/bundle/hook.sh", false⟩,
        ⟨.umount_bundle "/mnt/rauc/bundle", true⟩,
        ⟨.rmdir "/mnt/rauc/bundle", true⟩],
       .failure "Handler error: Child process exited with code 1") ∧
    ∃ new, (do_install_bundle disk_full_env demo_config (some ab_table) [0, 1, 2, 3]
        [0, 1, 2, 3] (some "A") "update.raucb" []).1 = [] ++ new ∧
      (∀ e ∈ new, is_set_primary e = false) ∧
      (do_install_bundle disk_full_env demo_config (some ab_table) [0, 1, 2, 3]
        [0, 1, 2, 3] (some "A") "update.raucb" []).2 ≠ .success :=
  ⟨fun _ => rfl, fun _ => rfl, by decide, by
    obtain ⟨new, hnew, hprim, hne, _⟩ :=
      custom_handler_failure disk_full_env demo_config (some ab_table) [0, 1, 2, 3]
        [0, 1, 2, 3] (some "A") "update.raucb" [] "hook.sh" (fun _ => rfl) (fun _ => rfl)
    exact ⟨new, hnew, hprim, hne⟩⟩

/-! ## Mounts and unmounts -/

/-- C12: when the pre-install handler fails, `do_install_bundle` leaves through the
label `out` and not through `umount` as it does for a failure of the install handler
or of the post-install handler: the bundle, mounted with success, is never
unmounted. -/
theorem bundle_left_mounted_after_pre_handler :
    do_install_bundle handlers_fail_env pre_handler_config (some ab_table) [0, 1, 2, 3]
      [0, 1, 2, 3] (some "A") "update.raucb" [] =
      ([⟨.create_mount_point "bundle", true⟩,
        ⟨.status "Checking and mounting bundle...", true⟩,
        ⟨.mount_bundle "update.raucb" "/mnt/rauc/bundle", true⟩,
        ⟨.verify_manifest "/mnt/rauc/bundle", true⟩,
        ⟨.handler "/mnt/rauc/bundle" "/usr/lib/rauc/pre-install.sh", false⟩],
       .failure "Handler error: Child process exited with code 1") ∧
    (∀ e ∈ (do_install_bundle handlers_fail_env pre_handler_config (some ab_table)
        [0, 1, 2, 3] [0, 1, 2, 3] (some "A") "update.raucb" []).1,
      e.call ≠ .umount_bundle "/mnt/rauc/bundle") :=
  ⟨by decide, by decide⟩

/-! ## Installing the same bundle again -/

/-- C14: the test for an up-to-date slot compares the stored digest with the bytes
at the address of the digest field of the image (`&mfimage->checksum.digest`), not
with the digest. With the stored digest `D1` equal to the digest of the manifest
image the slot is not skipped: the image is copied and the slot status rewritten. -/
theorem reinstall_copies_correct_image :
    (do_install_bundle reinstall_env demo_config (some ab_table) [0, 1, 2, 3] [0, 1, 2, 3]
      (some "A") "update.raucb" []).2 = .success ∧
    (do_install_bundle reinstall_env demo_config (some ab_table) [0, 1, 2, 3] [0, 1, 2, 3]
      (some "A") "update.raucb" []).1.map Event.call =
      [.create_mount_point "bundle",
       .status "Checking and mounting bundle...",
       .mount_bundle "update.raucb" "/mnt/rauc/bundle",
       .verify_manifest "/mnt/rauc/bundle",
       .create_mount_point "image",
       .boot_set_state 1 false,
       .status "Updating slots...",
       .status "Checking slot rootfs.1",
       .mount_slot 1 "/mnt/rauc/image",
       .load_slot_status "/mnt/rauc/image/slot.raucs",
       .umount "/mnt/rauc/image",
       .status "Updating slot rootfs.1",
       .copy_image "/mnt/rauc/bundle/rootfs.img" "/dev/sdb1" "ext4",
       .mount_slot 1 "/mnt/rauc/image",
       .status "Updating slot rootfs.1 status",
       .save_slot_status "/mnt/rauc/image/slot.raucs" "ok" "D1",
       .umount "/mnt/rauc/image",
       .status "Updating slot rootfs.1 done",
       .boot_set_primary 1,
       .status "All slots updated",
       .umount_bundle "/mnt/rauc/bundle",
       .rmdir "/mnt/rauc/bundle"] ∧
    reinstall_env.loaded_digest [] = (mkImage "rootfs" "rootfs.img" "D1").checksum.digest := by
  refine ⟨rfl, by decide, rfl⟩

/-! ## Image copy -/

theorem copy_progress_fst (size : Nat) (progress : Bool) (n sum : Nat) (last : Int)
    (reported : List Nat) : (copy_progress size progress n sum last reported).1 = sum + n := by
  unfold copy_progress
  split <;> rfl

theorem copy_stream_loop_sum (size : Nat) (progress : Bool) (write_ok : Nat → Nat → Bool)
    (reads : List (Option Nat)) (sum : Nat) (last : Int) (reported : List Nat)
    (h : (copy_stream_loop size progress write_ok reads sum last reported).ok = true) :
    (copy_stream_loop size progress write_ok reads sum last reported).sum_size
      = sum + chunk_total reads := by
  induction reads generalizing sum last reported with
  | nil =>
    unfold copy_stream_loop at h ⊢
    split
    · rename_i hw; rw [if_pos hw] at h; cases h
    · simp [copy_progress_fst, chunk_total]
  | cons r rest ih =>
    cases r with
    | none =>
      unfold copy_stream_loop at h
      cases h
    | some n =>
      rw [copy_stream_loop] at h ⊢
      by_cases hw : (!write_ok sum n) = true
      · rw [if_pos hw] at h; cases h
      · rw [if_neg hw] at h ⊢
        by_cases hn : n = 0
        · rw [if_pos hn]
          simp [copy_progress_fst, chunk_total, hn]
        · rw [if_neg hn] at h ⊢
          rw [ih _ _ _ h, copy_progress_fst]
          simp [chunk_total, hn, Nat.add_assoc]

theorem copy_stream_loop_ok (size : Nat) (progress : Bool) (write_ok : Nat → Nat → Bool)
    (reads : List (Option Nat)) (sum : Nat) (last : Int) (reported : List Nat)
    (hreads : ∀ r ∈ reads, r ≠ none) (hwrite : ∀ s n, write_ok s n = true) :
    (copy_stream_loop size progress write_ok reads sum last reported).ok = true := by
  induction reads generalizing sum last reported with
  | nil => simp [copy_stream_loop, hwrite]
  | cons r rest ih =>
    cases r with
    | none => exact absurd rfl (hreads none (List.mem_cons_self _ _))
    | some n =>
      rw [copy_stream_loop]
      simp only [hwrite, Bool.not_true, Bool.false_eq_true, if_false]
      split
      · rfl
      · exact ih _ _ _ (fun r hr => hreads r (List.mem_cons_of_mem _ hr))

/-- C13 (as stated, refuted): a source that delivers 3 bytes and then ends is copied
by `r_copy_stream_with_progress` for an image size of 10: the routine returns
success with 3 bytes written. `copy_image` fails for the same sizes. -/
theorem chunked_copy_reports_short_write_as_success :
    (r_copy_stream_with_progress [some 3] (fun _ _ => true) 10 false).ok = true ∧
    (r_copy_stream_with_progress [some 3] (fun _ _ => true) 10 false).sum_size = 3 ∧
    copy_image (copy_world 10 3) "ext4" = some "image size and written size differ!" := by
  decide

/-- C13 (amended): `copy_image` reports success only if the number of bytes
`g_output_stream_splice` moved equals the image size, which is not 0. The chunked
routine `r_copy_stream_with_progress` does not compare: for a size above 0 it
returns success whenever no read and no write fails, and what it has written then
is the sum of the chunk sizes up to the end of the stream, whatever the size is. -/
theorem copy_success_and_size (w : CopyWorld) (fs_type : String)
    (reads : List (Option Nat)) (write_ok : Nat → Nat → Bool) (size : Int) (progress : Bool)
    (hsize : 0 < size) :
    (copy_image w fs_type = none → w.spliced = w.imgsize ∧ w.imgsize ≠ 0) ∧
    ((r_copy_stream_with_progress reads write_ok size progress).ok = true →
      (r_copy_stream_with_progress reads write_ok size progress).sum_size
        = chunk_total reads) ∧
    ((∀ r ∈ reads, r ≠ none) → (∀ s n, write_ok s n = true) →
      (r_copy_stream_with_progress reads write_ok size progress).ok = true) := by
  have h1 : ¬ size < 0 := by omega
  have h2 : ¬ size = 0 := by omega
  refine ⟨?_, ?_, ?_⟩
  · intro h
    unfold copy_image at h
    split_ifs at h with a b c d e f g i j
    exact ⟨not_not.1 j, d⟩
  · intro h
    unfold r_copy_stream_with_progress at h ⊢
    rw [if_neg h1, if_neg h2] at h ⊢
    simpa using copy_stream_loop_sum _ _ _ _ _ _ _ h
  · intro hreads hwrite
    unfold r_copy_stream_with_progress
    rw [if_neg h1, if_neg h2]
    exact copy_stream_loop_ok _ _ _ _ _ _ _ hreads hwrite

/-- Witness of C13 (amended): an image of 10000 bytes delivered in two chunks. -/
theorem copy_success_and_size_witness :
    (0 : Int) < 10000 ∧
    (r_copy_stream_with_progress [some 8192, some 1808] (fun _ _ => true) 10000 true).ok
      = true ∧
    (r_copy_stream_with_progress [some 8192, some 1808] (fun _ _ => true) 10000 true).sum_size
      = chunk_total [some 8192, some 1808] :=
  ⟨by decide, by decide,
    (copy_success_and_size (copy_world 10000 10000) "ext4" [some 8192, some 1808]
      (fun _ _ => true) 10000 true (by decide)).2.1 (by decide)⟩

/-! ## Network install -/

/-- C18: the first loop of `launch_and_wait_network_handler` carries the comment
"Mark all parent destination slots non-bootable" of the local path but not its test
`if (dest_slot->parent || !dest_slot->bootname) continue`. For the target group
`rootfs.1`, `appfs.1` of the A/B layout the network path calls `r_boot_set_state`
for `rootfs.1` and for its child `appfs.1`, which has a parent and no bootname; the
local path calls it for `rootfs.1` only. -/
theorem network_marks_child_slot_non_bootable :
    slot_parent ab_booted_table 3 = some 1 ∧
    slot_bootname ab_booted_table 3 = none ∧
    network_mark_non_bootable all_ok_env ab_booted_table [] false
        [("rootfs", 1), ("appfs", 3)] =
      ([⟨.boot_set_state 1 false, true⟩, ⟨.boot_set_state 3 false, true⟩], true, true) ∧
    mark_non_bootable all_ok_env ab_booted_table [] [("rootfs", 1), ("appfs", 3)] =
      ([⟨.boot_set_state 1 false, true⟩], none) ∧
    (launch_and_wait_network_handler all_ok_env demo_config ab_booted_table "http://host"
        ab_manifest [("rootfs", 1), ("appfs", 3)] []).1.filter is_set_state =
      [⟨.boot_set_state 1 false, true⟩, ⟨.boot_set_state 3 false, true⟩] ∧
    (launch_and_wait_default_handler all_ok_env demo_config ab_booted_table
        "/mnt/rauc/bundle" ab_manifest [("rootfs", 1), ("appfs", 3)] []).1.filter
        is_set_state =
      [⟨.boot_set_state 1 false, true⟩] := by
  refine ⟨by decide, by decide, by decide, by decide, by decide, by decide⟩

/-! ## The install worker -/

/-- C16: for a request that is not a `.raucb` bundle `install_thread` only keeps the
return value of `do_install_network`. When the download of the manifest fails the
status queue holds `started` and `finished` and no error message, the last error
stays empty, and the status result is 1. For a failed bundle install the message is
pushed between `started` and `finished` and stored as last error. -/
theorem network_failure_reports_no_message :
    has_raucb_suffix "http://host/update.raucm" = false ∧
    status_messages (install_thread offline_env demo_config (some ab_table) [0, 1, 2, 3]
        [0, 1, 2, 3] (some "A") "http://host/update.raucm" []).trace
      = ["started", "finished"] ∧
    (install_thread offline_env demo_config (some ab_table) [0, 1, 2, 3]
        [0, 1, 2, 3] (some "A") "http://host/update.raucm" []).last_error = "" ∧
    (install_thread offline_env demo_config (some ab_table) [0, 1, 2, 3]
        [0, 1, 2, 3] (some "A") "http://host/update.raucm" []).status_result = 1 ∧
    status_messages (install_thread handlers_fail_env pre_handler_config (some ab_table)
        [0, 1, 2, 3] [0, 1, 2, 3] (some "A") "update.raucb" []).trace
      = ["started", "Checking and mounting bundle...",
         "Handler error: Child process exited with code 1", "finished"] ∧
    (install_thread handlers_fail_env pre_handler_config (some ab_table)
        [0, 1, 2, 3] [0, 1, 2, 3] (some "A") "update.raucb" []).last_error
      = "Handler error: Child process exited with code 1" := by
  refine ⟨by decide, by decide, by decide, by decide, by decide, by decide⟩

/-- C17 (as stated, refuted): called while the busy flag is set, `install_run` still
starts a worker for the request and returns success; this is so whatever
`r_context_set_busy` does, as long as it returns and the thread can be created. -/
theorem install_run_while_busy_not_rejected :
    install_run r_context_set_busy_store true true "update.raucb"
      = { returned := some true, busy := true, workers := ["update.raucb"] } ∧
    ¬ rejected true (install_run r_context_set_busy_store true true "update.raucb") ∧
    ∀ f : Bool → Bool → Option Bool, ¬ rejected true (install_run f true true "update.raucb") := by
  refine ⟨rfl, ?_, ?_⟩
  · intro h
    exact absurd h.1 (by decide)
  · intro f h
    unfold install_run at h
    cases hf : f true true with
    | none => rw [hf] at h; exact absurd h.1 (by simp)
    | some b => rw [hf] at h; exact absurd h.1 (by simp)

/-- C17 (amended): `install_run` does not test the busy flag. Whether or not an
install is in progress it asks `r_context_set_busy` to set the flag; if that call
returns and the worker thread is created, the worker is started for the request and
`install_run` returns success; it returns failure only when the thread cannot be
created, with no worker and with the flag as `r_context_set_busy` left it; and it
does not return when `r_context_set_busy` does not. -/
theorem install_run_never_tests_busy (f : Bool → Bool → Option Bool) (thread_created : Bool)
    (busy : Bool) (name : String) :
    (∀ b, f busy true = some b → thread_created = true →
      install_run f thread_created busy name
        = { returned := some true, busy := b, workers := [name] }) ∧
    (∀ b, f busy true = some b → thread_created = false →
      install_run f thread_created busy name
        = { returned := some false, busy := b, workers := [] }) ∧
    (f busy true = none →
      install_run f thread_created busy name
        = { returned := none, busy := busy, workers := [] }) ∧
    ((install_run f thread_created busy name).returned = some false →
      thread_created = false) := by
  refine ⟨?_, ?_, ?_, ?_⟩
  · intro b hb ht
    simp [install_run, hb, ht]
  · intro b hb ht
    simp [install_run, hb, ht]
  · intro hn
    simp [install_run, hn]
  · intro h
    unfold install_run at h
    cases hf : f busy true with
    | none => rw [hf] at h; simp at h
    | some b =>
      rw [hf] at h
      cases thread_created with
      | false => rfl
      | true => simp at h

end Rauc
